import Mathlib

/-! Phoenix-RTOS OSAL backend: binary semaphore, message queue, counting
semaphore, timebase and tasks.

A shallow embedding of `os-impl-binsem.c`, `os-impl-queues.c`,
`os-impl-countsem.c`, `os-impl-timebase.c` and `os-impl-tasks.c` of
`src/os/phoenix/src`.

Conventions of the embedding

* Every `*_Impl` function becomes a pure function from the record it finds
  (the slot the token resolves to) and the answers of the kernel to a `Run`:
  the return code, the record it leaves and the kernel calls it made, in order.
* The kernel is an oracle.  A create call answers with a return value and the
  handle it stored; `mutexLock` answers with its return value; a `condWait`
  answers with its return value together with the writes the other threads made
  to the record while the waiter had released the mutex.  When the oracle has no
  answer left for a `condWait`, the caller is still blocked in that call: the
  run has no return code.
* Machine integers are mathematical integers with the reduction of the source
  written out: the 32-bit products are reduced modulo `2 ^ 32`, and the increment
  of the `sig_atomic_t` flush counter wraps as a 32-bit `int`.
-/

namespace Osal

/-! ## Constants of the portable layer and of the C library -/

/-- Status `OS_SUCCESS` of osapi-error.h. -/
def OS_SUCCESS : Int := 0
/-- Status `OS_ERROR` of osapi-error.h. -/
def OS_ERROR : Int := -1
/-- Status `OS_SEM_FAILURE` of osapi-error.h. -/
def OS_SEM_FAILURE : Int := -6
/-- Status `OS_SEM_TIMEOUT` of osapi-error.h. -/
def OS_SEM_TIMEOUT : Int := -7
/-- Status `OS_QUEUE_FULL` of osapi-error.h. -/
def OS_QUEUE_FULL : Int := -9
/-- Status `OS_QUEUE_TIMEOUT` of osapi-error.h. -/
def OS_QUEUE_TIMEOUT : Int := -10
/-- Status `OS_INVALID_SEM_VALUE` of osapi-error.h. -/
def OS_INVALID_SEM_VALUE : Int := -20
/-- Status `OS_TIMER_ERR_INTERNAL` of osapi-error.h. -/
def OS_TIMER_ERR_INTERNAL : Int := -32
/-- Timeout argument `OS_PEND` of the portable layer: wait without limit. -/
def OS_PEND : Int := -1
/-- Timeout argument `OS_CHECK` of the portable layer: do not wait. -/
def OS_CHECK : Int := 0
/-- Error number `ETIME` of the C library; `condWait` returns `-ETIME` when its
timeout elapsed. -/
def ETIME : Int := 62

/-! ## Kernel facade -/

/-- One call into the kernel, with its arguments (and, for a create call, what
the kernel answered).  The semaphore calls are those on the one semaphore of the
record at hand; `beginthreadex` records whether the entry point is
`OS_TimeBase_TimerThread` (otherwise `OS_TimeBase_CallbackThreadEntry`), its
return value and the thread id it stored; `signalPost tid` is
`signalPost(getpid(), tid, signal_cancel)`.  `beginthreadexTask` is the
`beginthreadex` of `OS_TaskCreate_Impl` (entry point `OS_PhoenixTaskEntry`), with
the stack pointer (`none` for `NULL`) and the stack size it hands over; `free`
and `malloc` are the calls of the C library on the task stack block. -/
inductive KCall where
  | mutexCreate (ret : Int) (h : Nat)
  | condCreate (ret : Int) (h : Nat)
  | resourceDestroy (h : Nat)
  | mutexLock (h : Nat)
  | mutexUnlock (h : Nat)
  | condSignal (h : Nat)
  | condBroadcast (h : Nat)
  | condWait (cv mtx : Nat) (timeout : Int)
  | semaphoreCreate (ret : Int) (value : Nat)
  | semaphoreDone
  | semaphoreUp
  | semaphoreDown (timeout : Int)
  | beginthreadex (timerThread : Bool) (priority : Nat) (ret : Int) (tid : Int)
  | signalPost (tid : Int)
  | endthread
  | free (block : Option Nat)
  | malloc (size : Nat) (ret : Option Nat)
  | beginthreadexTask (priority : Int) (stack : Option Nat) (stack_size : Nat) (ret : Int)
      (tid : Int)
  deriving DecidableEq, Repr

/-- Whether the call is a condition wait. -/
def KCall.isCondWait : KCall → Bool
  | .condWait _ _ _ => true
  | _ => false

/-- Whether the call is a `resourceDestroy`. -/
def KCall.isDestroy : KCall → Bool
  | .resourceDestroy _ => true
  | _ => false

/-- The handles a sequence of kernel calls leaves allocated: those a create call
returned with status 0 and no later `resourceDestroy` released. -/
def allocated (calls : List KCall) : List Nat :=
  calls.foldl
    (fun live c =>
      match c with
      | .mutexCreate ret h => if ret = 0 then live ++ [h] else live
      | .condCreate ret h => if ret = 0 then live ++ [h] else live
      | .resourceDestroy h => live.filter (fun x => x ≠ h)
      | _ => live)
    []

/-- The answer of the kernel to `mutexCreate(&h)` or `condCreate(&h)`: the return
value and the content of `h` after the call. -/
structure KCreate where
  ret : Int
  handle : Nat
  deriving DecidableEq, Repr

/-- What a call did: `rc` is the value it returned (`none` when it is still
blocked in its last kernel wait), `state` the record it leaves, `calls` the kernel
calls it made, in order. -/
structure Run (σ : Type) where
  rc : Option Int
  state : σ
  calls : List KCall
  deriving DecidableEq, Repr

/-- The value of a 32-bit `int` expression whose mathematical value is `x` (two's
complement; the C standard leaves the overflowing case undefined). -/
def wrapInt32 (x : Int) : Int :=
  (x + 2 ^ 31) % 2 ^ 32 - 2 ^ 31

/-! ## Binary semaphore (os-impl-binsem.c) -/

/-- The per-semaphore record `OS_impl_binsem_internal_record_t`: the two kernel
handles (`mtx` is the field `mut` of the source, a reserved word here) and the
two `sig_atomic_t` counters the functions of os-impl-binsem.c read and write
(32-bit `int` values, from -2147483648 to 2147483647). -/
structure OS_impl_binsem_internal_record_t where
  mtx : Nat
  cv : Nat
  flush_request : Int
  current_value : Int
  deriving DecidableEq, Repr

/-- `OS_BinSemCreate_Impl(token, initial_value, options)`.  `slot` is the previous
content of the record, `kmut` and `kcv` the answers of `mutexCreate` and
`condCreate`. -/
def OS_BinSemCreate_Impl (slot : OS_impl_binsem_internal_record_t)
    (initial_value options : Nat) (kmut kcv : KCreate) :
    Run OS_impl_binsem_internal_record_t :=
  let _unused := (slot, options)
  -- if (initial_value > 1) initial_value = 1;
  let initial_value := if initial_value > 1 then 1 else initial_value
  -- memset(sem, 0, sizeof(*sem));
  let sem : OS_impl_binsem_internal_record_t :=
    { mtx := 0, cv := 0, flush_request := 0, current_value := 0 }
  -- ret = mutexCreate(&sem->mut);
  let sem := { sem with mtx := kmut.handle }
  if kmut.ret ≠ 0 then
    { rc := some OS_SEM_FAILURE, state := sem,
      calls := [.mutexCreate kmut.ret kmut.handle] }
  else
    -- ret = condCreate(&sem->cv);
    let sem := { sem with cv := kcv.handle }
    if kcv.ret ≠ 0 then
      { rc := some OS_SEM_FAILURE, state := sem,
        calls := [.mutexCreate kmut.ret kmut.handle, .condCreate kcv.ret kcv.handle] }
    else
      -- sem->current_value = initial_value;
      { rc := some OS_SUCCESS, state := { sem with current_value := initial_value },
        calls := [.mutexCreate kmut.ret kmut.handle, .condCreate kcv.ret kcv.handle] }

/-- `OS_BinSemGive_Impl(token)`.  `sem` is the record as the call finds it,
`lockRet` the return value of `mutexLock`. -/
def OS_BinSemGive_Impl (sem : OS_impl_binsem_internal_record_t) (lockRet : Int) :
    Run OS_impl_binsem_internal_record_t :=
  if lockRet < 0 then
    { rc := some OS_SEM_FAILURE, state := sem, calls := [.mutexLock sem.mtx] }
  else
    -- sem->current_value = 1; condSignal; mutexUnlock
    { rc := some OS_SUCCESS, state := { sem with current_value := 1 },
      calls := [.mutexLock sem.mtx, .condSignal sem.cv, .mutexUnlock sem.mtx] }

/-- `OS_BinSemFlush_Impl(token)`.  The counter `flush_request` is a
`sig_atomic_t`, a 32-bit `int`: the increment wraps from 2147483647 to
-2147483648. -/
def OS_BinSemFlush_Impl (sem : OS_impl_binsem_internal_record_t) (lockRet : Int) :
    Run OS_impl_binsem_internal_record_t :=
  if lockRet < 0 then
    { rc := some OS_SEM_FAILURE, state := sem, calls := [.mutexLock sem.mtx] }
  else
    -- ++sem->flush_request; condBroadcast; mutexUnlock
    { rc := some OS_SUCCESS,
      state := { sem with flush_request := wrapInt32 (sem.flush_request + 1) },
      calls := [.mutexLock sem.mtx, .condBroadcast sem.cv, .mutexUnlock sem.mtx] }

/-- A write another thread makes to the record while a waiter has released the
mutex inside `condWait`: the write of a give (line 159), of a flush (line 191),
or of a take that consumes the value (line 269). -/
inductive BinSemEnv where
  | give
  | flush
  | take
  deriving DecidableEq, Repr

/-- The effect of one write of another thread on the record. -/
def BinSemEnv.apply : BinSemEnv → OS_impl_binsem_internal_record_t →
    OS_impl_binsem_internal_record_t
  | .give, sem => (OS_BinSemGive_Impl sem 0).state
  | .flush, sem => (OS_BinSemFlush_Impl sem 0).state
  | .take, sem => { sem with current_value := 0 }

/-- The answer of the kernel to one `condWait`: its return value and the writes
the other threads made before the waiter got the mutex back. -/
structure Wake where
  status : Int
  env : List BinSemEnv
  deriving DecidableEq, Repr

/-- The record a waiter finds when `condWait` returns. -/
def Wake.wake (w : Wake) (sem : OS_impl_binsem_internal_record_t) :
    OS_impl_binsem_internal_record_t :=
  w.env.foldl (fun s e => e.apply s) sem

/-- The `while` loop of `OS_GenericBinSemTake_Impl` (lines 241-264), entered with
the record `sem` and the local `return_code`.  The run it returns has the value of
`return_code` at loop exit (`none`: blocked in `condWait`).  In the
`timeoutUs == 0` branch the body sets `return_code = OS_SEM_TIMEOUT`, after which
the loop guard is false: the loop exits there. -/
def OS_GenericBinSemTake_loop (timeoutUs : Int) (indefinite : Bool) (flush_count : Int)
    (sem : OS_impl_binsem_internal_record_t) (return_code : Int) (waits : List Wake) :
    Run OS_impl_binsem_internal_record_t :=
  if sem.current_value = 0 ∧ sem.flush_request = flush_count ∧ return_code = OS_SUCCESS then
    if indefinite then
      -- (void)condWait(sem->cv, sem->mut, 0);
      match waits with
      | [] => { rc := none, state := sem, calls := [.condWait sem.cv sem.mtx 0] }
      | w :: ws =>
        let r := OS_GenericBinSemTake_loop timeoutUs indefinite flush_count
          (w.wake sem) return_code ws
        { r with calls := .condWait sem.cv sem.mtx 0 :: r.calls }
    else if timeoutUs = 0 then
      -- return_code = OS_SEM_TIMEOUT;
      { rc := some OS_SEM_TIMEOUT, state := sem, calls := [] }
    else
      -- if (condWait(sem->cv, sem->mut, timeoutUs) == -ETIME) return_code = OS_SEM_TIMEOUT;
      match waits with
      | [] => { rc := none, state := sem, calls := [.condWait sem.cv sem.mtx timeoutUs] }
      | w :: ws =>
        let r := OS_GenericBinSemTake_loop timeoutUs indefinite flush_count
          (w.wake sem) (if w.status = -ETIME then OS_SEM_TIMEOUT else return_code) ws
        { r with calls := .condWait sem.cv sem.mtx timeoutUs :: r.calls }
  else
    { rc := some return_code, state := sem, calls := [] }

/-- `OS_GenericBinSemTake_Impl(token, timeoutUs, indefinite)`.  `sem` is the record
as the call finds it when `mutexLock` returns `lockRet`, `waits` the answers of
the kernel to the successive `condWait` calls. -/
def OS_GenericBinSemTake_Impl (sem : OS_impl_binsem_internal_record_t) (timeoutUs : Int)
    (indefinite : Bool) (lockRet : Int) (waits : List Wake) :
    Run OS_impl_binsem_internal_record_t :=
  if lockRet < 0 then
    { rc := some OS_SEM_FAILURE, state := sem, calls := [.mutexLock sem.mtx] }
  else
    -- return_code = OS_SUCCESS; flush_count = sem->flush_request;
    let flush_count := sem.flush_request
    let l := OS_GenericBinSemTake_loop timeoutUs indefinite flush_count sem OS_SUCCESS waits
    match l.rc with
    | none => { rc := none, state := l.state, calls := .mutexLock sem.mtx :: l.calls }
    | some return_code =>
      -- if ((return_code == OS_SUCCESS) && (sem->flush_request == flush_count))
      --     sem->current_value = 0;
      let out :=
        if return_code = OS_SUCCESS ∧ l.state.flush_request = flush_count then
          { l.state with current_value := 0 }
        else l.state
      { rc := some return_code, state := out,
        calls := .mutexLock sem.mtx :: (l.calls ++ [.mutexUnlock sem.mtx]) }

/-- `OS_BinSemTake_Impl(token)`. -/
def OS_BinSemTake_Impl (sem : OS_impl_binsem_internal_record_t) (lockRet : Int)
    (waits : List Wake) : Run OS_impl_binsem_internal_record_t :=
  OS_GenericBinSemTake_Impl sem 0 true lockRet waits

/-- The local `timeoutUs` of `OS_BinSemTimedWait_Impl`: `msecs * 1000` with `msecs`
a `uint32` and `1000` an `int`, so the product is computed in 32-bit unsigned
arithmetic before it is stored in the (wider) `time_t`. -/
def OS_BinSemTimedWait_timeoutUs (msecs : Nat) : Int :=
  ((msecs * 1000 % 2 ^ 32 : Nat) : Int)

/-- `OS_BinSemTimedWait_Impl(token, msecs)`. -/
def OS_BinSemTimedWait_Impl (sem : OS_impl_binsem_internal_record_t) (msecs : Nat)
    (lockRet : Int) (waits : List Wake) : Run OS_impl_binsem_internal_record_t :=
  OS_GenericBinSemTake_Impl sem (OS_BinSemTimedWait_timeoutUs msecs) false lockRet waits

/-- One operation on a binary semaphore, with the answers of the kernel to it. -/
inductive BinSemOp where
  | give (lockRet : Int)
  | flush (lockRet : Int)
  | take (lockRet : Int) (waits : List Wake)
  | timedWait (msecs : Nat) (lockRet : Int) (waits : List Wake)
  deriving DecidableEq, Repr

/-- Running one operation on the record. -/
def BinSemOp.run : BinSemOp → OS_impl_binsem_internal_record_t →
    Run OS_impl_binsem_internal_record_t
  | .give lockRet, sem => OS_BinSemGive_Impl sem lockRet
  | .flush lockRet, sem => OS_BinSemFlush_Impl sem lockRet
  | .take lockRet waits, sem => OS_BinSemTake_Impl sem lockRet waits
  | .timedWait msecs lockRet waits, sem => OS_BinSemTimedWait_Impl sem msecs lockRet waits

/-- The record after a sequence of operations. -/
def runOps (sem : OS_impl_binsem_internal_record_t) (ops : List BinSemOp) :
    OS_impl_binsem_internal_record_t :=
  ops.foldl (fun s op => (op.run s).state) sem

/-- Whether the operation is a give. -/
def BinSemOp.isGive : BinSemOp → Bool
  | .give _ => true
  | _ => false

/-- Whether the operation is a take, blocking or timed. -/
def BinSemOp.isTake : BinSemOp → Bool
  | .take _ _ => true
  | .timedWait _ _ _ => true
  | _ => false

/-- Whether the operation acquired the lock. -/
def BinSemOp.lockOk : BinSemOp → Bool
  | .give lockRet => decide (0 ≤ lockRet)
  | .flush lockRet => decide (0 ≤ lockRet)
  | .take lockRet _ => decide (0 ≤ lockRet)
  | .timedWait _ lockRet _ => decide (0 ≤ lockRet)

/-- Whether no flush takes part in the operation: it is not a flush, and no
other thread flushes while it waits. -/
def BinSemOp.noFlush : BinSemOp → Bool
  | .give _ => true
  | .flush _ => false
  | .take _ waits => waits.all (fun w => w.env.all (fun e => decide (e ≠ .flush)))
  | .timedWait _ _ waits => waits.all (fun w => w.env.all (fun e => decide (e ≠ .flush)))

/-- The value of a binary semaphore is 0 or 1. -/
def BinSemInv (sem : OS_impl_binsem_internal_record_t) : Prop :=
  sem.current_value = 0 ∨ sem.current_value = 1

/-- The record after a sequence of wake-ups. -/
def wakeAll (sem : OS_impl_binsem_internal_record_t) (ws : List Wake) :
    OS_impl_binsem_internal_record_t :=
  ws.foldl (fun s w => w.wake s) sem

/-- Every wake-up of `ws`, taken in order from the record `sem`, sends the take
back to wait: the waiter finds the value 0 and the generation `g`, and (for a
timed take) the wait did not return `-ETIME`. -/
def stillWaiting (indefinite : Bool) (g : Int) :
    OS_impl_binsem_internal_record_t → List Wake → Bool
  | _, [] => true
  | sem, w :: ws =>
    decide ((w.wake sem).current_value = 0) && decide ((w.wake sem).flush_request = g) &&
      (indefinite || decide (w.status ≠ -ETIME)) && stillWaiting indefinite g (w.wake sem) ws

/-! ## Message queue (os-impl-queues.c) -/

/-- One slot of the message array, `OS_impl_queue_internal_message_t`: the size of
the stored message and where its bytes are.  `data` is the byte offset of the
message within `data_block` (the source stores the pointer `data_block + offset`). -/
structure OS_impl_queue_internal_message_t where
  size : Nat
  data : Nat
  deriving DecidableEq, Repr

/-- The per-queue record `OS_impl_queue_internal_record_t`. -/
structure OS_impl_queue_internal_record_t where
  messages : List OS_impl_queue_internal_message_t
  data_block : List Nat
  cond : Nat
  lock : Nat
  head : Int
  tail : Int
  current_size : Int
  deriving DecidableEq, Repr

/-- The fields of the shared-layer record `OS_queue_internal_record_t` that the
backend reads. -/
structure OS_queue_internal_record_t where
  max_depth : Nat
  max_size : Nat
  deriving DecidableEq, Repr

/-- `memcpy(block + off, data, size)`: the first `size` bytes of `data` (0 where
the model of the buffer is shorter) written into the block from offset `off`. -/
def memcpyInto (block : List Nat) (off : Nat) (data : List Nat) (size : Nat) : List Nat :=
  (List.range size).foldl (fun b i => b.set (off + i) (data.getD i 0)) block

/-- `memcpy(data, block + off, size)`: the `size` bytes of the block from offset
`off`. -/
def memcpyFrom (block : List Nat) (off : Nat) (size : Nat) : List Nat :=
  (List.range size).map (fun i => block.getD (off + i) 0)

/-- `OS_QueueCreate_Impl(token, flags)`.  `slot` is the previous content of the
record; `mMessages` and `mData` are the answers of the two `malloc` calls (`none`
for `NULL`, otherwise the uninitialised content found in the block, read as 0
beyond the list), `kcond` and `klock` the answers of `condCreate` and
`mutexCreate`. -/
def OS_QueueCreate_Impl (queue : OS_queue_internal_record_t)
    (slot : OS_impl_queue_internal_record_t) (flags : Nat)
    (mMessages : Option (List OS_impl_queue_internal_message_t))
    (mData : Option (List Nat)) (kcond klock : KCreate) :
    Run OS_impl_queue_internal_record_t :=
  let _unused := flags
  -- impl->messages = malloc(queue->max_depth * sizeof(OS_impl_queue_internal_message_t));
  match mMessages with
  | none => { rc := some OS_ERROR, state := { slot with messages := [] }, calls := [] }
  | some found =>
    let messages := (List.range queue.max_depth).map (fun i => found.getD i ⟨0, 0⟩)
    let impl := { slot with messages := messages }
    -- impl->data_block = malloc(queue->max_depth * queue->max_size);
    match mData with
    | none =>
      { rc := some OS_ERROR, state := { impl with data_block := [] }, calls := [] }
    | some found =>
      let data_block :=
        (List.range (queue.max_depth * queue.max_size)).map (fun i => found.getD i 0)
      let impl := { impl with data_block := data_block }
      -- if (condCreate(&impl->cond) != 0)
      let impl := { impl with cond := kcond.handle }
      if kcond.ret ≠ 0 then
        { rc := some OS_ERROR, state := impl,
          calls := [.condCreate kcond.ret kcond.handle] }
      else
        -- if (mutexCreate(&impl->lock) != 0)
        let impl := { impl with lock := klock.handle }
        if klock.ret ≠ 0 then
          { rc := some OS_ERROR, state := impl,
            calls := [.condCreate kcond.ret kcond.handle,
                      .mutexCreate klock.ret klock.handle,
                      .resourceDestroy impl.cond] }
        else
          { rc := some OS_SUCCESS,
            state := { impl with head := 0, tail := -1, current_size := 0 },
            calls := [.condCreate kcond.ret kcond.handle,
                      .mutexCreate klock.ret klock.handle] }

/-- `OS_QueuePut_Impl(token, data, size, flags)`.  `impl` is the record as the call
finds it once it holds the lock. -/
def OS_QueuePut_Impl (queue : OS_queue_internal_record_t)
    (impl : OS_impl_queue_internal_record_t) (data : List Nat) (size : Nat) (flags : Nat) :
    Run OS_impl_queue_internal_record_t :=
  let _unused := flags
  if impl.current_size = queue.max_depth then
    { rc := some OS_QUEUE_FULL, state := impl,
      calls := [.mutexLock impl.lock, .mutexUnlock impl.lock] }
  else
    -- impl->tail = (impl->tail + 1) % queue->max_depth;
    let tail := (impl.tail + 1) % queue.max_depth
    -- msg->size = size; msg->data = data_block + (impl->tail * queue->max_size);
    let msg : OS_impl_queue_internal_message_t :=
      { size := size, data := tail.toNat * queue.max_size }
    -- memcpy(msg->data, data, size); impl->current_size++;
    { rc := some OS_SUCCESS,
      state := { impl with
        tail := tail
        messages := impl.messages.set tail.toNat msg
        data_block := memcpyInto impl.data_block msg.data data size
        current_size := impl.current_size + 1 },
      calls := [.mutexLock impl.lock, .condSignal impl.cond, .mutexUnlock impl.lock] }

/-- Lines 165-171 of `OS_QueueGet_Impl`: the oldest message is copied out, `head`
advances and `current_size` decreases.  Returns the record, `*size_copied` and the
bytes copied to `data`. -/
def OS_QueueGet_deliver (queue : OS_queue_internal_record_t)
    (impl : OS_impl_queue_internal_record_t) :
    OS_impl_queue_internal_record_t × Nat × List Nat :=
  let msg := impl.messages.getD impl.head.toNat { size := 0, data := 0 }
  ({ impl with
      head := (impl.head + 1) % queue.max_depth
      current_size := impl.current_size - 1 },
   msg.size, memcpyFrom impl.data_block msg.data msg.size)

/-- What another thread does to the queue while a getter has released the lock
inside `condWait`: a put, or a get (which changes the record only when it finds
a message). -/
inductive QueueEnv where
  | put (data : List Nat) (size : Nat)
  | get
  deriving DecidableEq, Repr

/-- The effect of one operation of another thread on the record. -/
def QueueEnv.apply (queue : OS_queue_internal_record_t) :
    QueueEnv → OS_impl_queue_internal_record_t → OS_impl_queue_internal_record_t
  | .put data size, impl => (OS_QueuePut_Impl queue impl data size 0).state
  | .get, impl => if impl.current_size = 0 then impl else (OS_QueueGet_deliver queue impl).1

/-- The answer of the kernel to one `condWait` of a getter. -/
structure QueueWake where
  status : Int
  env : List QueueEnv
  deriving DecidableEq, Repr

/-- The record a getter finds when `condWait` returns. -/
def QueueWake.wake (queue : OS_queue_internal_record_t) (w : QueueWake)
    (impl : OS_impl_queue_internal_record_t) : OS_impl_queue_internal_record_t :=
  w.env.foldl (fun s e => e.apply queue s) impl

/-- How the wait loop of `OS_QueueGet_Impl` ends: the queue has a message, the
function has returned `OS_QUEUE_TIMEOUT`, or the thread is blocked in `condWait`. -/
inductive QueueWaitExit where
  | ready
  | timedOut
  | blocked
  deriving DecidableEq, Repr

/-- The `while (impl->current_size == 0)` loop of `OS_QueueGet_Impl` (lines
156-163). -/
def OS_QueueGet_loop (queue : OS_queue_internal_record_t) (timeoutUs : Int)
    (impl : OS_impl_queue_internal_record_t) (waits : List QueueWake) :
    QueueWaitExit × OS_impl_queue_internal_record_t × List KCall :=
  if impl.current_size = 0 then
    -- if (condWait(impl->cond, impl->lock, timeoutUs) == -ETIME)
    match waits with
    | [] => (.blocked, impl, [.condWait impl.cond impl.lock timeoutUs])
    | w :: ws =>
      if w.status = -ETIME then
        (.timedOut, w.wake queue impl,
          [.condWait impl.cond impl.lock timeoutUs, .mutexUnlock impl.lock])
      else
        let r := OS_QueueGet_loop queue timeoutUs (w.wake queue impl) ws
        (r.1, r.2.1, .condWait impl.cond impl.lock timeoutUs :: r.2.2)
  else
    (.ready, impl, [])

/-- The local `timeoutUs` of `OS_QueueGet_Impl` (lines 146-153), `timeout` being an
`int32`. -/
def OS_QueueGet_timeoutUs (timeout : Int) : Int :=
  if timeout ≠ OS_PEND then wrapInt32 (timeout * 1000) else 0

/-- `OS_QueueGet_Impl(token, data, size, size_copied, timeout)`.  `impl` is the
record as the call finds it once it holds the lock, `waits` the answers of the
kernel to the successive `condWait` calls.  Besides the run, the result has what
the call stored through `size_copied` and `data` (`none` when it stored
nothing). -/
def OS_QueueGet_Impl (queue : OS_queue_internal_record_t)
    (impl : OS_impl_queue_internal_record_t) (size : Nat) (timeout : Int)
    (waits : List QueueWake) :
    Run OS_impl_queue_internal_record_t × Option (Nat × List Nat) :=
  let _unused := size
  let timeoutUs := OS_QueueGet_timeoutUs timeout
  let l := OS_QueueGet_loop queue timeoutUs impl waits
  match l.1 with
  | .blocked =>
    ({ rc := none, state := l.2.1, calls := .mutexLock impl.lock :: l.2.2 }, none)
  | .timedOut =>
    ({ rc := some OS_QUEUE_TIMEOUT, state := l.2.1,
       calls := .mutexLock impl.lock :: l.2.2 }, none)
  | .ready =>
    let d := OS_QueueGet_deliver queue l.2.1
    ({ rc := some OS_SUCCESS, state := d.1,
       calls := .mutexLock impl.lock :: (l.2.2 ++ [.mutexUnlock impl.lock]) },
     some d.2)

/-! ## Counting semaphore (os-impl-countsem.c) -/

/-- The constant `SEM_VALUE_MAX` defined in os-impl-countsem.c. -/
def SEM_VALUE_MAX : Nat := 0x7FFFFFFF

/-- The per-semaphore record `OS_impl_countsem_internal_record_t`: the kernel
semaphore object `id`, seen as the content the kernel library keeps in it. -/
structure OS_impl_countsem_internal_record_t where
  id : Nat
  deriving DecidableEq, Repr

/-- `OS_CountSemCreate_Impl(token, sem_initial_value, options)`.  `ksem` is the
answer of `semaphoreCreate`: its return value and the content of `impl->id` after
the call. -/
def OS_CountSemCreate_Impl (impl : OS_impl_countsem_internal_record_t)
    (sem_initial_value options : Nat) (ksem : KCreate) :
    Run OS_impl_countsem_internal_record_t :=
  let _unused := options
  if sem_initial_value > SEM_VALUE_MAX then
    { rc := some OS_INVALID_SEM_VALUE, state := impl, calls := [] }
  else if ksem.ret < 0 then
    { rc := some OS_SEM_FAILURE, state := { impl with id := ksem.handle },
      calls := [.semaphoreCreate ksem.ret sem_initial_value] }
  else
    { rc := some OS_SUCCESS, state := { impl with id := ksem.handle },
      calls := [.semaphoreCreate ksem.ret sem_initial_value] }

/-! ## Timebase (os-impl-timebase.c, os-impl-timebase.h) -/

/-- The timer sub-record `OS_impl_timebase_internal_timer_t`. -/
structure OS_impl_timebase_internal_timer_t where
  active : Bool
  finished : Bool
  finish_rq : Bool
  start_time : Int
  interval_time : Int
  mutex : Nat
  cond : Nat
  deriving DecidableEq, Repr

/-- The per-timebase record `OS_impl_timebase_internal_record_t`.  The semaphore
object `tick_sem` and the two stacks are storage used by the kernel only; the
calls on `tick_sem` appear in the runs. -/
structure OS_impl_timebase_internal_record_t where
  handler_thread : Int
  timer_thread : Int
  handler_mutex : Nat
  reset_flag : Bool
  simulate_flag : Bool
  timer : OS_impl_timebase_internal_timer_t
  deriving DecidableEq, Repr

/-- A value of the function pointer `external_sync`: a function supplied by the
application, or `OS_TimeBase_WaitImpl` of this backend. -/
inductive SyncFn where
  | external
  | waitImpl
  deriving DecidableEq, Repr

/-- The fields of the shared-layer record `OS_timebase_internal_record_t` that the
backend reads and writes; `external_sync = none` is the `NULL` pointer and
`accuracy_usec` is a `uint32`. -/
structure OS_timebase_internal_record_t where
  external_sync : Option SyncFn
  accuracy_usec : Int
  deriving DecidableEq, Repr

/-- What a timebase call did to the two records of the slot. -/
structure TimeBaseRun where
  rc : Option Int
  state : OS_impl_timebase_internal_record_t
  timebase : OS_timebase_internal_record_t
  calls : List KCall
  deriving DecidableEq, Repr

/-- The answer of the kernel to `beginthreadex`: the return value and the thread
id it stored. -/
structure KSpawn where
  ret : Int
  tid : Int
  deriving DecidableEq, Repr

/-- The answers of the kernel to the calls `OS_TimeBaseCreate_Impl` can make. -/
structure TimeBaseCreateKernel where
  handler_mutex : KCreate
  tick_sem : Int
  timer_mutex : KCreate
  timer_cond : KCreate
  timer_thread : KSpawn
  handler_thread : KSpawn
  deriving DecidableEq, Repr

/-- Lines 336-358 of `OS_TimeBaseCreate_Impl`: the handler thread is spawned when
`status == 0`, and a nonzero `status` after that releases the resources.  `calls`
are the kernel calls made before; `local_` is the variable `local` of the source
(a reserved word here). -/
def OS_TimeBaseCreate_spawn (local_ : OS_impl_timebase_internal_record_t)
    (timebase : OS_timebase_internal_record_t) (status : Int) (calls : List KCall)
    (k : TimeBaseCreateKernel) : TimeBaseRun :=
  -- if (status == 0) status = beginthreadex(OS_TimeBase_CallbackThreadEntry, 0, ...);
  let local2 :=
    if status = 0 then { local_ with handler_thread := k.handler_thread.tid } else local_
  let calls2 :=
    if status = 0 then
      calls ++ [.beginthreadex false 0 k.handler_thread.ret k.handler_thread.tid]
    else calls
  let status2 := if status = 0 then k.handler_thread.ret else status
  if status2 ≠ 0 then
    -- resourceDestroy(local->handler_mutex); if (local->simulate_flag) { ... }
    { rc := some OS_TIMER_ERR_INTERNAL, state := local2, timebase := timebase,
      calls := calls2 ++ [.resourceDestroy local2.handler_mutex] ++
        (if local2.simulate_flag then
          [.semaphoreDone, .resourceDestroy local2.timer.mutex,
           .resourceDestroy local2.timer.cond]
         else []) }
  else
    { rc := some OS_SUCCESS, state := local2, timebase := timebase, calls := calls2 }

/-- `OS_TimeBaseCreate_Impl(token)`.  `slot` is the previous content of the
record, `timebase` the shared-layer record, `k` the answers of the kernel. -/
def OS_TimeBaseCreate_Impl (slot : OS_impl_timebase_internal_record_t)
    (timebase : OS_timebase_internal_record_t) (k : TimeBaseCreateKernel) : TimeBaseRun :=
  -- status = mutexCreate(&local->handler_mutex);
  let l1 := { slot with handler_mutex := k.handler_mutex.handle }
  let c1 : List KCall := [.mutexCreate k.handler_mutex.ret k.handler_mutex.handle]
  if k.handler_mutex.ret ≠ 0 then
    { rc := some OS_TIMER_ERR_INTERNAL, state := l1, timebase := timebase, calls := c1 }
  else
    -- local->simulate_flag = (timebase->external_sync == NULL);
    let l2 := { l1 with simulate_flag := decide (timebase.external_sync = none) }
    if l2.simulate_flag then
      -- timebase->external_sync = OS_TimeBase_WaitImpl;
      let tb := { timebase with external_sync := some SyncFn.waitImpl }
      -- status = semaphoreCreate(&local->tick_sem, 0);
      let c2 := c1 ++ [.semaphoreCreate k.tick_sem 0]
      if k.tick_sem ≠ 0 then
        { rc := some OS_TIMER_ERR_INTERNAL, state := l2, timebase := tb, calls := c2 }
      else
        -- status = mutexCreate(&local->timer.mutex);
        let l3 := { l2 with timer := { l2.timer with mutex := k.timer_mutex.handle } }
        let c3 := c2 ++ [.mutexCreate k.timer_mutex.ret k.timer_mutex.handle]
        if k.timer_mutex.ret ≠ 0 then
          { rc := some OS_TIMER_ERR_INTERNAL, state := l3, timebase := tb, calls := c3 }
        else
          -- status = condCreate(&local->timer.cond);
          let l4 := { l3 with timer := { l3.timer with cond := k.timer_cond.handle } }
          let c4 := c3 ++ [.condCreate k.timer_cond.ret k.timer_cond.handle]
          if k.timer_cond.ret ≠ 0 then
            { rc := some OS_TIMER_ERR_INTERNAL, state := l4, timebase := tb, calls := c4 }
          else
            -- local->timer.active = false; ...finish_rq = false; ...finished = false;
            let l5 := { l4 with
              timer := { l4.timer with active := false, finish_rq := false,
                                       finished := false } }
            -- status = beginthreadex(OS_TimeBase_TimerThread, 1, ..., &local->timer_thread);
            let l6 := { l5 with timer_thread := k.timer_thread.tid }
            let c6 := c4 ++ [.beginthreadex true 1 k.timer_thread.ret k.timer_thread.tid]
            OS_TimeBaseCreate_spawn l6 tb k.timer_thread.ret c6 k
    else
      OS_TimeBaseCreate_spawn l2 timebase k.handler_mutex.ret c1 k

/-- `OS_TimeBaseSet_Impl(token, start_time, interval_time)`, the two times being
`uint32`.  `local_` is the record as the call finds it once it holds the timer
lock. -/
def OS_TimeBaseSet_Impl (local_ : OS_impl_timebase_internal_record_t)
    (timebase : OS_timebase_internal_record_t) (start_time interval_time : Nat) :
    TimeBaseRun :=
  -- if (local->simulate_flag) { mutexLock(local->timer.mutex); ... }
  let interval_time := if local_.simulate_flag ∧ start_time ≤ 0 then 0 else interval_time
  let timer1 :=
    if local_.simulate_flag then
      -- local->timer.interval_time = interval_time;
      let t := { local_.timer with interval_time := (interval_time : Int) }
      -- if (start_time > 0) local->timer.start_time = start_time;
      if start_time > 0 then { t with start_time := (start_time : Int) } else t
    else local_.timer
  let timebase1 :=
    if local_.simulate_flag then
      if timer1.interval_time > 0 then
        { timebase with accuracy_usec := timer1.interval_time % 2 ^ 32 }
      else
        { timebase with accuracy_usec := timer1.start_time % 2 ^ 32 }
    else timebase
  -- if (!local->reset_flag) local->reset_flag = true;
  let reset_flag := if !local_.reset_flag then true else local_.reset_flag
  -- if (local->simulate_flag) { local->timer.active = true; condSignal; mutexUnlock }
  let timer2 := if local_.simulate_flag then { timer1 with active := true } else timer1
  { rc := some OS_SUCCESS,
    state := { local_ with reset_flag := reset_flag, timer := timer2 },
    timebase := timebase1,
    calls :=
      if local_.simulate_flag then
        [.mutexLock local_.timer.mutex, .condSignal local_.timer.cond,
         .mutexUnlock local_.timer.mutex]
      else [] }

/-- The result of `OS_TimeBase_WaitImpl`: the tick duration it returns, the record
it leaves and its kernel calls. -/
structure TickRun where
  tick_time : Nat
  state : OS_impl_timebase_internal_record_t
  calls : List KCall
  deriving DecidableEq, Repr

/-- `OS_TimeBase_WaitImpl(timebase_id)`.  `lookup` is the return value of
`OS_ObjectIdGetById`, `impl` the record as found when `semaphoreDown` returns;
`tick_time` is a `uint32`. -/
def OS_TimeBase_WaitImpl (impl : OS_impl_timebase_internal_record_t) (lookup : Int) :
    TickRun :=
  if lookup = OS_SUCCESS then
    -- semaphoreDown(&impl->tick_sem, 0);
    if impl.reset_flag = false then
      { tick_time := (impl.timer.interval_time % 2 ^ 32).toNat, state := impl,
        calls := [.semaphoreDown 0] }
    else
      { tick_time := (impl.timer.start_time % 2 ^ 32).toNat,
        state := { impl with reset_flag := false }, calls := [.semaphoreDown 0] }
  else
    { tick_time := 0, state := impl, calls := [] }

/-- The tick durations the first `n` calls of `OS_TimeBase_WaitImpl` return, from
the record `impl`, the timebase id resolving each time. -/
def tickTimes : Nat → OS_impl_timebase_internal_record_t → List Nat
  | 0, _ => []
  | n + 1, impl =>
    (OS_TimeBase_WaitImpl impl OS_SUCCESS).tick_time ::
      tickTimes n (OS_TimeBase_WaitImpl impl OS_SUCCESS).state

/-- A write another thread makes to the timebase record while a thread has
released the timer mutex: those of a set (lines 384-414), of the first critical
section of a delete (lines 438-439), of the exit of the timer thread (line 209)
and of the tick-wait helper (line 135). -/
inductive TimerEnv where
  | set (start_time interval_time : Nat)
  | deleteRq
  | threadExit
  | tickTaken
  deriving DecidableEq, Repr

/-- The effect of one write of another thread on the record. -/
def TimerEnv.apply : TimerEnv → OS_impl_timebase_internal_record_t →
    OS_impl_timebase_internal_record_t
  | .set start_time interval_time, impl =>
    (OS_TimeBaseSet_Impl impl { external_sync := none, accuracy_usec := 0 }
      start_time interval_time).state
  | .deleteRq, impl =>
    { impl with timer := { impl.timer with active := false, finish_rq := true } }
  | .threadExit, impl => { impl with timer := { impl.timer with finished := true } }
  | .tickTaken, impl => { impl with reset_flag := false }

/-- The answer of the kernel to one `condWait` on the timer condition. -/
structure TimerWake where
  status : Int
  env : List TimerEnv
  deriving DecidableEq, Repr

/-- The record a waiter finds when `condWait` returns. -/
def TimerWake.wake (w : TimerWake) (impl : OS_impl_timebase_internal_record_t) :
    OS_impl_timebase_internal_record_t :=
  w.env.foldl (fun s e => e.apply s) impl

/-- What the timer thread did: whether it has reached `endthread` (otherwise it is
blocked in its last `condWait`), the record it leaves and its kernel calls. -/
structure ThreadRun where
  ended : Bool
  state : OS_impl_timebase_internal_record_t
  calls : List KCall
  deriving DecidableEq, Repr

/-- Lines 209-213 of `OS_TimeBase_TimerThread`: the exit of the thread. -/
def OS_TimeBase_TimerThread_exit (impl : OS_impl_timebase_internal_record_t) : ThreadRun :=
  { ended := true,
    state := { impl with timer := { impl.timer with finished := true } },
    calls := [.condSignal impl.timer.cond, .mutexUnlock impl.timer.mutex, .endthread] }

/-- Lines 196-204: the interval loop, then the exit. -/
def OS_TimeBase_TimerThread_interval (impl : OS_impl_timebase_internal_record_t)
    (waits : List TimerWake) : ThreadRun :=
  if impl.timer.active = true ∧ impl.timer.interval_time > 0 then
    -- status = condWait(timer->cond, timer->mutex, timer->interval_time);
    match waits with
    | [] =>
      { ended := false, state := impl,
        calls := [.condWait impl.timer.cond impl.timer.mutex impl.timer.interval_time] }
    | w :: ws =>
      let r := OS_TimeBase_TimerThread_interval (w.wake impl) ws
      { r with
        calls := .condWait impl.timer.cond impl.timer.mutex impl.timer.interval_time ::
          ((if w.status = -ETIME then [KCall.semaphoreUp] else []) ++ r.calls) }
  else
    OS_TimeBase_TimerThread_exit impl

/-- Lines 187-207: the wait of the start delay and what follows it. -/
def OS_TimeBase_TimerThread_start (impl : OS_impl_timebase_internal_record_t)
    (waits : List TimerWake) : ThreadRun :=
  if impl.timer.finish_rq = false then
    -- status = condWait(timer->cond, timer->mutex, timer->start_time);
    match waits with
    | [] =>
      { ended := false, state := impl,
        calls := [.condWait impl.timer.cond impl.timer.mutex impl.timer.start_time] }
    | w :: ws =>
      let r :=
        if w.status = -ETIME ∧ (w.wake impl).timer.active = true then
          let r := OS_TimeBase_TimerThread_interval (w.wake impl) ws
          { r with calls := .semaphoreUp :: r.calls }
        else
          OS_TimeBase_TimerThread_exit (w.wake impl)
      { r with
        calls := .condWait impl.timer.cond impl.timer.mutex impl.timer.start_time ::
          r.calls }
  else
    OS_TimeBase_TimerThread_exit impl

/-- Lines 181-185 and what follows: the idle loop
`while (!timer->active && !timer->finish_rq)`. -/
def OS_TimeBase_TimerThread_idle (impl : OS_impl_timebase_internal_record_t)
    (waits : List TimerWake) : ThreadRun :=
  if impl.timer.active = false ∧ impl.timer.finish_rq = false then
    -- condWait(timer->cond, timer->mutex, 0);
    match waits with
    | [] =>
      { ended := false, state := impl,
        calls := [.condWait impl.timer.cond impl.timer.mutex 0] }
    | w :: ws =>
      let r := OS_TimeBase_TimerThread_idle (w.wake impl) ws
      { r with calls := .condWait impl.timer.cond impl.timer.mutex 0 :: r.calls }
  else
    OS_TimeBase_TimerThread_start impl waits

/-- `OS_TimeBase_TimerThread(arg)`.  `impl` is the record as the thread finds it
once it holds the timer mutex, `waits` the answers of the kernel to its successive
`condWait` calls. -/
def OS_TimeBase_TimerThread (impl : OS_impl_timebase_internal_record_t)
    (waits : List TimerWake) : ThreadRun :=
  let r := OS_TimeBase_TimerThread_idle impl waits
  { r with calls := .mutexLock impl.timer.mutex :: r.calls }

/-- The loop `while (!local->timer.finished) condWait(...)` of
`OS_TimeBaseDelete_Impl` (lines 455-458).  The run has a return code when the
loop has exited. -/
def OS_TimeBaseDelete_wait (local_ : OS_impl_timebase_internal_record_t)
    (waits : List TimerWake) : Run OS_impl_timebase_internal_record_t :=
  if local_.timer.finished = false then
    match waits with
    | [] =>
      { rc := none, state := local_,
        calls := [.condWait local_.timer.cond local_.timer.mutex 0] }
    | w :: ws =>
      let r := OS_TimeBaseDelete_wait (w.wake local_) ws
      { r with calls := .condWait local_.timer.cond local_.timer.mutex 0 :: r.calls }
  else
    { rc := some OS_SUCCESS, state := local_, calls := [] }

/-- `OS_TimeBaseDelete_Impl(token)`.  `local_` is the record as the call finds it,
`mid` what the other threads write between the first unlock and the second lock
of the timer mutex, `waits` the answers of the kernel to the `condWait` calls. -/
def OS_TimeBaseDelete_Impl (local_ : OS_impl_timebase_internal_record_t)
    (mid : List TimerEnv) (waits : List TimerWake) :
    Run OS_impl_timebase_internal_record_t :=
  if local_.simulate_flag then
    -- mutexLock; active = false; finish_rq = true; condSignal; mutexUnlock
    let l1 := { local_ with timer := { local_.timer with active := false, finish_rq := true } }
    let c1 : List KCall :=
      [.mutexLock local_.timer.mutex, .condSignal local_.timer.cond,
       .mutexUnlock local_.timer.mutex,
       -- signalPost(getpid(), local->handler_thread, signal_cancel);
       .signalPost local_.handler_thread,
       -- resourceDestroy(local->handler_mutex);
       .resourceDestroy local_.handler_mutex,
       .mutexLock local_.timer.mutex]
    let l2 := mid.foldl (fun s e => e.apply s) l1
    let r := OS_TimeBaseDelete_wait l2 waits
    match r.rc with
    | none => { rc := none, state := r.state, calls := c1 ++ r.calls }
    | some _ =>
      { rc := some OS_SUCCESS, state := r.state,
        calls := c1 ++ r.calls ++
          [.mutexUnlock local_.timer.mutex, .semaphoreDone,
           .resourceDestroy local_.timer.mutex, .resourceDestroy local_.timer.cond] }
  else
    { rc := some OS_SUCCESS, state := local_,
      calls := [.signalPost local_.handler_thread, .resourceDestroy local_.handler_mutex] }

/-- Whether the call releases a kernel object: `resourceDestroy` or
`semaphoreDone`. -/
def KCall.isRelease : KCall → Bool
  | .resourceDestroy _ => true
  | .semaphoreDone => true
  | _ => false

/-- Whether the call spawns the timer thread. -/
def KCall.isTimerSpawn : KCall → Bool
  | .beginthreadex true _ _ _ => true
  | _ => false

/-- A kernel resource a timebase holds: a mutex or condition handle, the tick
semaphore, a running thread. -/
inductive KRes where
  | handle (h : Nat)
  | semaphore
  | thread (tid : Int)
  deriving DecidableEq, Repr

/-- The resources a sequence of kernel calls leaves behind: those a create or
spawn call returned with status 0 and no later `resourceDestroy` or
`semaphoreDone` released (nothing in these sequences ends a spawned thread). -/
def held (calls : List KCall) : List KRes :=
  calls.foldl
    (fun live c =>
      match c with
      | .mutexCreate ret h => if ret = 0 then live ++ [.handle h] else live
      | .condCreate ret h => if ret = 0 then live ++ [.handle h] else live
      | .semaphoreCreate ret _ => if ret = 0 then live ++ [.semaphore] else live
      | .beginthreadex _ _ ret tid => if ret = 0 then live ++ [.thread tid] else live
      | .resourceDestroy h => live.filter (fun x => x ≠ .handle h)
      | .semaphoreDone => live.filter (fun x => x ≠ .semaphore)
      | _ => live)
    []

/-- The record after a sequence of puts, each given as (data, size, flags). -/
def runPuts (queue : OS_queue_internal_record_t) (impl : OS_impl_queue_internal_record_t)
    (puts : List (List Nat × Nat × Nat)) : OS_impl_queue_internal_record_t :=
  puts.foldl (fun s p => (OS_QueuePut_Impl queue s p.1 p.2.1 p.2.2).state) impl

/-- One operation on a queue, with the answers of the kernel to it. -/
inductive QueueOp where
  | put (data : List Nat) (size : Nat) (flags : Nat)
  | get (size : Nat) (timeout : Int) (waits : List QueueWake)
  deriving DecidableEq, Repr

/-- Running one operation on the record. -/
def QueueOp.run (queue : OS_queue_internal_record_t) :
    QueueOp → OS_impl_queue_internal_record_t → Run OS_impl_queue_internal_record_t
  | .put data size flags, impl => OS_QueuePut_Impl queue impl data size flags
  | .get size timeout waits, impl => (OS_QueueGet_Impl queue impl size timeout waits).1

/-- The record after a sequence of operations. -/
def runQueueOps (queue : OS_queue_internal_record_t)
    (impl : OS_impl_queue_internal_record_t) (ops : List QueueOp) :
    OS_impl_queue_internal_record_t :=
  ops.foldl (fun s op => (op.run queue s).state) impl

/-- The number of stored messages is between 0 and `max_depth`. -/
def QueueSizeInv (queue : OS_queue_internal_record_t)
    (impl : OS_impl_queue_internal_record_t) : Prop :=
  0 ≤ impl.current_size ∧ impl.current_size ≤ (queue.max_depth : Int)

/-- The bytes a put of `size` bytes takes from the buffer `data`. -/
def putBytes (data : List Nat) (size : Nat) : List Nat :=
  (List.range size).map (fun i => data.getD i 0)

/-- What a successful put stored, or a successful get returned: the size and the
bytes of a message. -/
inductive QueueEvent where
  | put (size : Nat) (bytes : List Nat)
  | got (size : Nat) (bytes : List Nat)
  deriving DecidableEq, Repr

/-- The messages of the successful puts of a log, in order. -/
def putsOf (log : List QueueEvent) : List (Nat × List Nat) :=
  log.filterMap (fun e => match e with
    | .put size bytes => some (size, bytes)
    | .got _ _ => none)

/-- The messages of the successful gets of a log, in order. -/
def gotsOf (log : List QueueEvent) : List (Nat × List Nat) :=
  log.filterMap (fun e => match e with
    | .put _ _ => none
    | .got size bytes => some (size, bytes))

/-- The event of a put on the record `impl`: the message, when the put returns
`OS_SUCCESS`. -/
def putEvents (queue : OS_queue_internal_record_t) (impl : OS_impl_queue_internal_record_t)
    (data : List Nat) (size flags : Nat) : List QueueEvent :=
  if (OS_QueuePut_Impl queue impl data size flags).rc = some OS_SUCCESS then
    [.put size (putBytes data size)]
  else []

/-- The events of the operations of other threads during one wait, from the
record `impl`. -/
def envEvents (queue : OS_queue_internal_record_t) :
    List QueueEnv → OS_impl_queue_internal_record_t → List QueueEvent
  | [], _ => []
  | .put data size :: es, impl =>
    putEvents queue impl data size 0 ++
      envEvents queue es ((QueueEnv.put data size).apply queue impl)
  | .get :: es, impl =>
    (if impl.current_size = 0 then []
     else [.got (OS_QueueGet_deliver queue impl).2.1 (OS_QueueGet_deliver queue impl).2.2]) ++
      envEvents queue es (QueueEnv.get.apply queue impl)

/-- The events of the other threads during the waits the loop of
`OS_QueueGet_Impl` goes through. -/
def OS_QueueGet_loop_events (queue : OS_queue_internal_record_t)
    (impl : OS_impl_queue_internal_record_t) (waits : List QueueWake) : List QueueEvent :=
  if impl.current_size = 0 then
    match waits with
    | [] => []
    | w :: ws =>
      envEvents queue w.env impl ++
        (if w.status = -ETIME then []
         else OS_QueueGet_loop_events queue (w.wake queue impl) ws)
  else []

/-- The events of one operation: for a put, the message when it returns
`OS_SUCCESS`; for a get, the events of the other threads during its waits, then
what it stored through `size_copied` and `data` when it returns a message. -/
def QueueOp.events (queue : OS_queue_internal_record_t) :
    QueueOp → OS_impl_queue_internal_record_t → List QueueEvent
  | .put data size flags, impl => putEvents queue impl data size flags
  | .get size timeout waits, impl =>
    OS_QueueGet_loop_events queue impl waits ++
      (match (OS_QueueGet_Impl queue impl size timeout waits).2 with
       | some m => [.got m.1 m.2]
       | none => [])

/-- The log of a sequence of operations from the record `impl`. -/
def queueLog (queue : OS_queue_internal_record_t) :
    OS_impl_queue_internal_record_t → List QueueOp → List QueueEvent
  | _, [] => []
  | impl, op :: ops => op.events queue impl ++ queueLog queue (op.run queue impl).state ops

/-- Whether the operation of another thread, if a put, has a size of at most
`max_size`. -/
def QueueEnv.sizeOk (max_size : Nat) : QueueEnv → Bool
  | .put _ size => decide (size ≤ max_size)
  | .get => true

/-- Whether every put of the operation, its own or one of another thread during
its waits, has a size of at most `max_size`. -/
def QueueOp.sizesOk (max_size : Nat) : QueueOp → Bool
  | .put _ size _ => decide (size ≤ max_size)
  | .get _ _ waits => waits.all (fun w => w.env.all (QueueEnv.sizeOk max_size))


/-- The ring buffer `impl` holds the messages `pending`, oldest first: the slots
from `head` on hold their sizes and point to their bytes, and `tail` is the slot
before the next free one. -/
def QueueRep (queue : OS_queue_internal_record_t) (impl : OS_impl_queue_internal_record_t)
    (pending : List (Nat × List Nat)) : Prop :=
  1 ≤ queue.max_depth ∧
  impl.messages.length = queue.max_depth ∧
  impl.data_block.length = queue.max_depth * queue.max_size ∧
  0 ≤ impl.head ∧ impl.head < (queue.max_depth : Int) ∧
  impl.current_size = (pending.length : Int) ∧
  pending.length ≤ queue.max_depth ∧
  (impl.tail + 1) % (queue.max_depth : Int)
    = (impl.head + (pending.length : Int)) % (queue.max_depth : Int) ∧
  ∀ i m, pending[i]? = some m →
    impl.messages[(impl.head.toNat + i) % queue.max_depth]?
      = some ⟨m.1, (impl.head.toNat + i) % queue.max_depth * queue.max_size⟩ ∧
    m.1 ≤ queue.max_size ∧
    memcpyFrom impl.data_block ((impl.head.toNat + i) % queue.max_depth * queue.max_size) m.1
      = m.2

/-- The log agrees with the ring buffer: the record holds some messages
`pending`, and the messages put so far are those gotten so far followed by
`pending`. -/
def QueueLogInv (queue : OS_queue_internal_record_t)
    (impl : OS_impl_queue_internal_record_t) (log : List QueueEvent) : Prop :=
  ∃ pending, QueueRep queue impl pending ∧ putsOf log = gotsOf log ++ pending

/-! ## Tasks (os-impl-tasks.c) -/

/-- The constant `OS_PHOENIX_MAX_PRIORITY` defined in os-impl-tasks.c. -/
def OS_PHOENIX_MAX_PRIORITY : Nat := 7

/-- `OS_PriorityRemap(InputPri)`.  The configuration constant
`OS_MAX_TASK_PRIORITY` (osconfig.h) is a parameter. -/
def OS_PriorityRemap (OS_MAX_TASK_PRIORITY : Nat) (InputPri : Nat) : Int :=
  ((InputPri / ((OS_MAX_TASK_PRIORITY + 1) / (OS_PHOENIX_MAX_PRIORITY + 1)) : Nat) : Int)

/-- The per-task record `OS_impl_task_internal_record_t`: the thread id and the
heap block kept for the stack (`none` is `NULL`, otherwise its address). -/
structure OS_impl_task_internal_record_t where
  id : Int
  heap_block : Option Nat
  heap_block_size : Nat
  deriving DecidableEq, Repr

/-- The fields of the shared-layer record `OS_task_internal_record_t` that
`OS_TaskCreate_Impl` reads and writes. -/
structure OS_task_internal_record_t where
  stack_pointer : Option Nat
  stack_size : Nat
  priority : Nat
  deriving DecidableEq, Repr

/-- What `OS_TaskCreate_Impl` did to the two records of the slot. -/
structure TaskRun where
  rc : Option Int
  state : OS_impl_task_internal_record_t
  task : OS_task_internal_record_t
  calls : List KCall
  deriving DecidableEq, Repr

/-- `OS_TaskCreate_Impl(token, flags)`.  `kmalloc` is the answer of `malloc`
(`none` for `NULL`), `kspawn` the answer of `beginthreadex`. -/
def OS_TaskCreate_Impl (OS_MAX_TASK_PRIORITY : Nat) (impl : OS_impl_task_internal_record_t)
    (task : OS_task_internal_record_t) (flags : Nat) (kmalloc : Option Nat)
    (kspawn : KSpawn) : TaskRun :=
  let _unused := flags
  -- if (task->stack_pointer == NULL) { if (task->stack_size > impl->heap_block_size) ...
  if task.stack_pointer = none ∧ task.stack_size > impl.heap_block_size then
    -- free(impl->heap_block); impl->heap_block_size = 0;
    -- impl->heap_block = malloc(task->stack_size);
    let c1 : List KCall := [.free impl.heap_block, .malloc task.stack_size kmalloc]
    match kmalloc with
    | none =>
      { rc := some OS_ERROR,
        state := { impl with heap_block := none, heap_block_size := 0 },
        task := task, calls := c1 }
    | some block =>
      -- impl->heap_block_size = task->stack_size; task->stack_pointer = impl->heap_block;
      let impl1 := { impl with heap_block := some block, heap_block_size := task.stack_size }
      let task1 := { task with stack_pointer := some block }
      -- result = beginthreadex(OS_PhoenixTaskEntry, priority, task->stack_pointer, ...);
      { rc := some (if kspawn.ret ≠ 0 then OS_ERROR else OS_SUCCESS),
        state := { impl1 with id := kspawn.tid },
        task := task1,
        calls := c1 ++
          [.beginthreadexTask (OS_PriorityRemap OS_MAX_TASK_PRIORITY task1.priority)
            task1.stack_pointer task1.stack_size kspawn.ret kspawn.tid] }
  else
    { rc := some (if kspawn.ret ≠ 0 then OS_ERROR else OS_SUCCESS),
      state := { impl with id := kspawn.tid },
      task := task,
      calls :=
        [.beginthreadexTask (OS_PriorityRemap OS_MAX_TASK_PRIORITY task.priority)
          task.stack_pointer task.stack_size kspawn.ret kspawn.tid] }

/-- Whether, in a sequence of kernel calls of the timer thread answered by
`waits`, every `semaphoreUp` comes right after a `condWait` that returned
`-ETIME`.  `last` is the return value of the wait that was the previous call
(`none` when the previous call was not a wait that returned). -/
def ticksFollowTimeouts : List KCall → List TimerWake → Option Int → Bool
  | [], _, _ => true
  | .condWait _ _ _ :: cs, w :: ws, _ => ticksFollowTimeouts cs ws (some w.status)
  | .condWait _ _ _ :: cs, [], _ => ticksFollowTimeouts cs [] none
  | .semaphoreUp :: cs, ws, last =>
    decide (last = some (-ETIME)) && ticksFollowTimeouts cs ws none
  | _ :: cs, ws, _ => ticksFollowTimeouts cs ws none

/-- The number of ticks posted in a sequence of kernel calls. -/
def tickCount (calls : List KCall) : Nat :=
  (calls.filter (fun c => decide (c = KCall.semaphoreUp))).length

/-- The number of waits that returned the timeout status. -/
def timeoutCount (waits : List TimerWake) : Nat :=
  (waits.filter (fun w => decide (w.status = -ETIME))).length

/-- The indices of the ring buffer are in range: `current_size` is between 0 and
`max_depth`, the message array has `max_depth` slots and, when `max_depth ≥ 1`,
`head` is a slot, `tail` is a slot or the initial -1 (only on a queue no put has
reached), and `head`, `tail` and `current_size` agree modulo `max_depth`. -/
def QueueIdxInv (queue : OS_queue_internal_record_t)
    (impl : OS_impl_queue_internal_record_t) : Prop :=
  0 ≤ impl.current_size ∧ impl.current_size ≤ (queue.max_depth : Int) ∧
  impl.messages.length = queue.max_depth ∧
  (1 ≤ queue.max_depth →
    0 ≤ impl.head ∧ impl.head < (queue.max_depth : Int) ∧
    -1 ≤ impl.tail ∧ impl.tail < (queue.max_depth : Int) ∧
    (impl.tail = -1 → impl.current_size = 0) ∧
    (impl.head + impl.current_size) % (queue.max_depth : Int)
      = (impl.tail + 1) % (queue.max_depth : Int))

/-- The timeouts of the condition waits of a sequence of kernel calls, in order. -/
def requestedTimeouts (calls : List KCall) : List Int :=
  calls.filterMap (fun c => match c with
    | .condWait _ _ timeout => some timeout
    | _ => none)

/-! ## Theorems: binary semaphore -/

theorem BinSemEnv.apply_inv (e : BinSemEnv) (sem : OS_impl_binsem_internal_record_t)
    (h : BinSemInv sem) : BinSemInv (e.apply sem) := by
  cases e
  · right; simp [BinSemEnv.apply, OS_BinSemGive_Impl]
  · simpa [BinSemEnv.apply, OS_BinSemFlush_Impl, BinSemInv] using h
  · left; simp [BinSemEnv.apply]

theorem Wake.wake_inv (w : Wake) (sem : OS_impl_binsem_internal_record_t)
    (h : BinSemInv sem) : BinSemInv (w.wake sem) := by
  unfold Wake.wake
  generalize w.env = env
  induction env generalizing sem with
  | nil => simpa using h
  | cons e es ih => exact ih _ (BinSemEnv.apply_inv e sem h)

theorem OS_GenericBinSemTake_loop_inv (timeoutUs : Int) (indefinite : Bool)
    (flush_count : Int) (waits : List Wake) :
    ∀ (sem : OS_impl_binsem_internal_record_t) (return_code : Int), BinSemInv sem →
      BinSemInv
        (OS_GenericBinSemTake_loop timeoutUs indefinite flush_count sem return_code waits).state := by
  induction waits with
  | nil =>
    intro sem return_code h
    unfold OS_GenericBinSemTake_loop
    split_ifs <;> exact h
  | cons w ws ih =>
    intro sem return_code h
    unfold OS_GenericBinSemTake_loop
    split_ifs
    · exact ih _ _ (Wake.wake_inv w sem h)
    · exact h
    · exact ih _ _ (Wake.wake_inv w sem h)
    · exact h

theorem OS_GenericBinSemTake_Impl_inv (sem : OS_impl_binsem_internal_record_t)
    (timeoutUs : Int) (indefinite : Bool) (lockRet : Int) (waits : List Wake)
    (h : BinSemInv sem) :
    BinSemInv (OS_GenericBinSemTake_Impl sem timeoutUs indefinite lockRet waits).state := by
  have hl := OS_GenericBinSemTake_loop_inv timeoutUs indefinite sem.flush_request waits
    sem OS_SUCCESS h
  unfold OS_GenericBinSemTake_Impl
  split_ifs
  · exact h
  · simp only
    split
    · exact hl
    · split_ifs
      · left; rfl
      · exact hl

theorem BinSemOp.run_inv (op : BinSemOp) (sem : OS_impl_binsem_internal_record_t)
    (h : BinSemInv sem) : BinSemInv (op.run sem).state := by
  cases op with
  | give lockRet =>
    simp only [BinSemOp.run, OS_BinSemGive_Impl]
    split_ifs
    · exact h
    · right; rfl
  | flush lockRet =>
    simp only [BinSemOp.run, OS_BinSemFlush_Impl]
    split_ifs
    · exact h
    · exact h
  | take lockRet waits => exact OS_GenericBinSemTake_Impl_inv sem 0 true lockRet waits h
  | timedWait msecs lockRet waits =>
    exact OS_GenericBinSemTake_Impl_inv sem _ false lockRet waits h

theorem runOps_inv (ops : List BinSemOp) :
    ∀ sem : OS_impl_binsem_internal_record_t, BinSemInv sem → BinSemInv (runOps sem ops) := by
  induction ops with
  | nil => intro sem h; exact h
  | cons op ops ih => intro sem h; exact ih _ (BinSemOp.run_inv op sem h)

theorem OS_BinSemCreate_Impl_value (slot : OS_impl_binsem_internal_record_t)
    (initial_value options : Nat) (kmut kcv : KCreate)
    (h : (OS_BinSemCreate_Impl slot initial_value options kmut kcv).rc = some OS_SUCCESS) :
    (OS_BinSemCreate_Impl slot initial_value options kmut kcv).state.current_value
      = ((min initial_value 1 : Nat) : Int) := by
  unfold OS_BinSemCreate_Impl at h ⊢
  simp only at h ⊢
  split_ifs at h ⊢ <;> simp_all [OS_SEM_FAILURE, OS_SUCCESS]
  omega

/-- C1: after a successful `OS_BinSemCreate_Impl`, for every requested initial
value, `current_value` is 0 or 1, and it is still 0 or 1 after every sequence of
gives, flushes, blocking takes and timed takes, whatever the kernel answers to
the lock and wait calls and whatever other threads give, flush or take during the
waits. -/
theorem C1_binsem_value_invariant (slot : OS_impl_binsem_internal_record_t)
    (initial_value options : Nat) (kmut kcv : KCreate)
    (h : (OS_BinSemCreate_Impl slot initial_value options kmut kcv).rc = some OS_SUCCESS) :
    BinSemInv (OS_BinSemCreate_Impl slot initial_value options kmut kcv).state ∧
    ∀ ops : List BinSemOp,
      BinSemInv (runOps (OS_BinSemCreate_Impl slot initial_value options kmut kcv).state ops) := by
  have h0 : BinSemInv (OS_BinSemCreate_Impl slot initial_value options kmut kcv).state := by
    have hv := OS_BinSemCreate_Impl_value slot initial_value options kmut kcv h
    unfold BinSemInv
    rw [hv]
    rcases Nat.lt_or_ge initial_value 1 with hlt | hge
    · left; simp [Nat.min_eq_left (Nat.le_of_lt hlt)]; omega
    · right; simp [Nat.min_eq_right hge]
  exact ⟨h0, fun ops => runOps_inv ops _ h0⟩

/-- Witness of C1: a create asking for 5, then a flush, a take that is woken by a
give, a give and a timed take. -/
theorem C1_binsem_value_invariant_witness :
    (OS_BinSemCreate_Impl ⟨9, 9, 9, 9⟩ 5 0 ⟨0, 3⟩ ⟨0, 4⟩).rc = some OS_SUCCESS ∧
    BinSemInv (runOps (OS_BinSemCreate_Impl ⟨9, 9, 9, 9⟩ 5 0 ⟨0, 3⟩ ⟨0, 4⟩).state
      [.flush 0, .take 0 [], .take 0 [⟨0, [.give]⟩], .give 0, .timedWait 7 0 []]) :=
  ⟨by decide,
   (C1_binsem_value_invariant ⟨9, 9, 9, 9⟩ 5 0 ⟨0, 3⟩ ⟨0, 4⟩ (by decide)).2
     [.flush 0, .take 0 [], .take 0 [⟨0, [.give]⟩], .give 0, .timedWait 7 0 []]⟩

/-- Counterexample to C2 as stated: a timed take (1 ms) on an empty semaphore whose
wait returns `-ETIME` while another thread has flushed finds the generation
changed, and returns `OS_SEM_TIMEOUT`, not `OS_SUCCESS`. -/
theorem C2_flush_release_counterexample :
    ((⟨-ETIME, [.flush]⟩ : Wake).wake ⟨1, 2, 0, 0⟩).flush_request
        ≠ (⟨1, 2, 0, 0⟩ : OS_impl_binsem_internal_record_t).flush_request ∧
    (OS_BinSemTimedWait_Impl ⟨1, 2, 0, 0⟩ 1 0 [⟨-ETIME, [.flush]⟩]).calls
        = [.mutexLock 1, .condWait 2 1 1000, .mutexUnlock 1] ∧
    (OS_BinSemTimedWait_Impl ⟨1, 2, 0, 0⟩ 1 0 [⟨-ETIME, [.flush]⟩]).rc = some OS_SEM_TIMEOUT ∧
    (OS_BinSemTimedWait_Impl ⟨1, 2, 0, 0⟩ 1 0 [⟨-ETIME, [.flush]⟩]).rc ≠ some OS_SUCCESS := by
  decide

theorem OS_GenericBinSemTake_loop_exit (timeoutUs : Int) (indefinite : Bool)
    (flush_count : Int) (sem : OS_impl_binsem_internal_record_t) (return_code : Int)
    (waits : List Wake)
    (h : ¬ (sem.current_value = 0 ∧ sem.flush_request = flush_count ∧
      return_code = OS_SUCCESS)) :
    OS_GenericBinSemTake_loop timeoutUs indefinite flush_count sem return_code waits
      = { rc := some return_code, state := sem, calls := [] } := by
  cases waits <;> (unfold OS_GenericBinSemTake_loop; rw [if_neg h])

theorem OS_GenericBinSemTake_loop_flushed (timeoutUs : Int) (indefinite : Bool) (g : Int)
    (hcan : indefinite = true ∨ timeoutUs ≠ 0) (pre : List Wake) :
    ∀ (sem : OS_impl_binsem_internal_record_t) (w : Wake) (post : List Wake),
      sem.current_value = 0 → sem.flush_request = g →
      stillWaiting indefinite g sem pre = true →
      (w.wake (wakeAll sem pre)).flush_request ≠ g →
      (OS_GenericBinSemTake_loop timeoutUs indefinite g sem OS_SUCCESS (pre ++ w :: post)).rc
          = some (if indefinite = false ∧ w.status = -ETIME then OS_SEM_TIMEOUT
              else OS_SUCCESS) ∧
      (OS_GenericBinSemTake_loop timeoutUs indefinite g sem OS_SUCCESS
          (pre ++ w :: post)).state = w.wake (wakeAll sem pre) := by
  induction pre with
  | nil =>
    intro sem w post hv hg _ hfl
    have hne : ∀ rc : Int, ¬ ((w.wake sem).current_value = 0 ∧
        (w.wake sem).flush_request = g ∧ rc = OS_SUCCESS) := fun rc hh => hfl hh.2.1
    simp only [wakeAll, List.foldl_nil, List.nil_append] at hfl ⊢
    unfold OS_GenericBinSemTake_loop
    rw [if_pos ⟨hv, hg, rfl⟩]
    rcases hcan with hi | ht
    · subst hi
      simp [OS_GenericBinSemTake_loop_exit _ _ _ _ _ _ (hne _)]
    · cases indefinite
      · simp [ht, OS_GenericBinSemTake_loop_exit _ _ _ _ _ _ (hne _)]
      · simp [OS_GenericBinSemTake_loop_exit _ _ _ _ _ _ (hne _)]
  | cons w1 pre ih =>
    intro sem w post hv hg hs hfl
    simp only [stillWaiting, Bool.and_eq_true, decide_eq_true_eq, Bool.or_eq_true] at hs
    obtain ⟨⟨⟨hv1, hg1⟩, hst⟩, hrest⟩ := hs
    have hfl1 : (w.wake (wakeAll (w1.wake sem) pre)).flush_request ≠ g := by
      simpa [wakeAll] using hfl
    have := ih (w1.wake sem) w post hv1 hg1 hrest hfl1
    have hw : wakeAll sem (w1 :: pre) = wakeAll (w1.wake sem) pre := by simp [wakeAll]
    rw [hw]
    rw [List.cons_append]
    unfold OS_GenericBinSemTake_loop
    rw [if_pos ⟨hv, hg, rfl⟩]
    rcases hst with hi | hne
    · subst hi
      simpa using this
    · cases indefinite
      · rcases hcan with hc | hc
        · cases hc
        · simpa [hc, hne] using this
      · simpa using this

/-- C2 (amended): a take, blocking or timed, that took the snapshot `g` of the
flush generation and, on returning from a kernel wait, finds the generation
different from `g` leaves the record exactly as it found it on waking (it does not
reset `current_value`), whatever gives happened meanwhile; it returns
`OS_SUCCESS`, except that a timed take whose wait returned `-ETIME` returns
`OS_SEM_TIMEOUT`. -/
theorem C2_flush_release_amended (sem : OS_impl_binsem_internal_record_t) (timeoutUs : Int)
    (indefinite : Bool) (lockRet : Int) (pre : List Wake) (w : Wake) (post : List Wake)
    (hlock : 0 ≤ lockRet) (hv : sem.current_value = 0)
    (hcan : indefinite = true ∨ timeoutUs ≠ 0)
    (hpre : stillWaiting indefinite sem.flush_request sem pre = true)
    (hfl : (w.wake (wakeAll sem pre)).flush_request ≠ sem.flush_request) :
    (OS_GenericBinSemTake_Impl sem timeoutUs indefinite lockRet (pre ++ w :: post)).rc
        = some (if indefinite = false ∧ w.status = -ETIME then OS_SEM_TIMEOUT
            else OS_SUCCESS) ∧
    (OS_GenericBinSemTake_Impl sem timeoutUs indefinite lockRet (pre ++ w :: post)).state
        = w.wake (wakeAll sem pre) := by
  obtain ⟨h1, h2⟩ := OS_GenericBinSemTake_loop_flushed timeoutUs indefinite
    sem.flush_request hcan pre sem w post hv rfl hpre hfl
  unfold OS_GenericBinSemTake_Impl
  rw [if_neg (not_lt.mpr hlock)]
  simp only [h1, h2]
  rw [if_neg (fun hh => hfl hh.2)]
  exact ⟨trivial, rfl⟩

/-- Witness of C2 (amended): a blocking take is woken once by a give taken by
another thread, then by a flush together with a give. -/
theorem C2_flush_release_amended_witness :
    (OS_GenericBinSemTake_Impl ⟨1, 2, 5, 0⟩ 0 true 0
        ([⟨0, [.give, .take]⟩] ++ ⟨0, [.flush, .give]⟩ :: [])).rc
        = some (if true = false ∧ (⟨0, [.flush, .give]⟩ : Wake).status = -ETIME
            then OS_SEM_TIMEOUT else OS_SUCCESS) ∧
    (OS_GenericBinSemTake_Impl ⟨1, 2, 5, 0⟩ 0 true 0
        ([⟨0, [.give, .take]⟩] ++ ⟨0, [.flush, .give]⟩ :: [])).state
        = (⟨0, [.flush, .give]⟩ : Wake).wake (wakeAll ⟨1, 2, 5, 0⟩ [⟨0, [.give, .take]⟩]) :=
  C2_flush_release_amended ⟨1, 2, 5, 0⟩ 0 true 0 [⟨0, [.give, .take]⟩] ⟨0, [.flush, .give]⟩ []
    (by decide) (by decide) (by decide) (by decide) (by decide)

theorem BinSemEnv.apply_noFlush (e : BinSemEnv) (sem : OS_impl_binsem_internal_record_t)
    (h : e ≠ .flush) : (e.apply sem).flush_request = sem.flush_request := by
  cases e
  · simp [BinSemEnv.apply, OS_BinSemGive_Impl]
  · exact absurd rfl h
  · simp [BinSemEnv.apply]

theorem Wake.wake_noFlush (w : Wake) (sem : OS_impl_binsem_internal_record_t)
    (h : w.env.all (fun e => decide (e ≠ .flush)) = true) :
    (w.wake sem).flush_request = sem.flush_request := by
  unfold Wake.wake
  generalize w.env = env at h
  induction env generalizing sem with
  | nil => rfl
  | cons e es ih =>
    simp only [List.all_cons, Bool.and_eq_true, decide_eq_true_eq] at h
    rw [List.foldl_cons, ih _ h.2, BinSemEnv.apply_noFlush e sem h.1]

theorem OS_GenericBinSemTake_loop_noFlush (timeoutUs : Int) (indefinite : Bool)
    (flush_count : Int) (waits : List Wake) :
    ∀ (sem : OS_impl_binsem_internal_record_t) (return_code : Int),
      waits.all (fun w => w.env.all (fun e => decide (e ≠ .flush))) = true →
      (OS_GenericBinSemTake_loop timeoutUs indefinite flush_count sem return_code
        waits).state.flush_request = sem.flush_request := by
  induction waits with
  | nil =>
    intro sem return_code _
    unfold OS_GenericBinSemTake_loop
    split_ifs <;> rfl
  | cons w ws ih =>
    intro sem return_code h
    simp only [List.all_cons, Bool.and_eq_true] at h
    unfold OS_GenericBinSemTake_loop
    split_ifs
    · exact (ih _ _ h.2).trans (Wake.wake_noFlush w sem h.1)
    · rfl
    · exact (ih _ _ h.2).trans (Wake.wake_noFlush w sem h.1)
    · rfl

theorem OS_GenericBinSemTake_Impl_noFlush (sem : OS_impl_binsem_internal_record_t)
    (timeoutUs : Int) (indefinite : Bool) (lockRet : Int) (waits : List Wake)
    (hlock : 0 ≤ lockRet)
    (hnf : waits.all (fun w => w.env.all (fun e => decide (e ≠ .flush))) = true)
    (hrc : (OS_GenericBinSemTake_Impl sem timeoutUs indefinite lockRet waits).rc
      = some OS_SUCCESS) :
    (OS_GenericBinSemTake_Impl sem timeoutUs indefinite lockRet waits).state.current_value
      = 0 := by
  have hf := OS_GenericBinSemTake_loop_noFlush timeoutUs indefinite sem.flush_request waits
    sem OS_SUCCESS hnf
  unfold OS_GenericBinSemTake_Impl at hrc ⊢
  rw [if_neg (not_lt.mpr hlock)] at hrc ⊢
  simp only at hrc ⊢
  split at hrc
  · simp at hrc
  · next return_code hl =>
    simp only [Option.some.injEq] at hrc
    subst hrc
    rw [if_pos ⟨rfl, hf⟩]

/-- C3: in every sequence of give and take operations (blocking or timed) in which
no flush takes part and every lock acquisition succeeds, from any record,
`current_value` is 1 after every give and 0 after every take that returns
`OS_SUCCESS`. -/
theorem C3_give_take_alternation (sem : OS_impl_binsem_internal_record_t)
    (ops : List BinSemOp) (op : BinSemOp)
    (h : ∀ o ∈ ops ++ [op], o.noFlush = true ∧ o.lockOk = true) :
    (op.isGive = true → (op.run (runOps sem ops)).state.current_value = 1) ∧
    (op.isTake = true → (op.run (runOps sem ops)).rc = some OS_SUCCESS →
      (op.run (runOps sem ops)).state.current_value = 0) := by
  have hop := h op (by simp)
  generalize runOps sem ops = s
  cases op with
  | give lockRet =>
    have hl : 0 ≤ lockRet := by simpa [BinSemOp.lockOk] using hop.2
    refine ⟨fun _ => ?_, fun hh => by simp [BinSemOp.isTake] at hh⟩
    simp [BinSemOp.run, OS_BinSemGive_Impl, not_lt.mpr hl]
  | flush lockRet => simp [BinSemOp.noFlush] at hop
  | take lockRet waits =>
    have hl : 0 ≤ lockRet := by simpa [BinSemOp.lockOk] using hop.2
    refine ⟨fun hh => by simp [BinSemOp.isGive] at hh, fun _ hrc => ?_⟩
    exact OS_GenericBinSemTake_Impl_noFlush s 0 true lockRet waits hl hop.1 hrc
  | timedWait msecs lockRet waits =>
    have hl : 0 ≤ lockRet := by simpa [BinSemOp.lockOk] using hop.2
    refine ⟨fun hh => by simp [BinSemOp.isGive] at hh, fun _ hrc => ?_⟩
    exact OS_GenericBinSemTake_Impl_noFlush s _ false lockRet waits hl hop.1 hrc

/-- Witness of C3: give, take, then a take that blocks until another thread gives. -/
theorem C3_give_take_alternation_witness :
    ((BinSemOp.take 0 [⟨0, [.give]⟩]).isGive = true →
      ((BinSemOp.take 0 [⟨0, [.give]⟩]).run
        (runOps ⟨1, 2, 0, 0⟩ [.give 0, .take 0 []])).state.current_value = 1) ∧
    ((BinSemOp.take 0 [⟨0, [.give]⟩]).isTake = true →
      ((BinSemOp.take 0 [⟨0, [.give]⟩]).run
        (runOps ⟨1, 2, 0, 0⟩ [.give 0, .take 0 []])).rc = some OS_SUCCESS →
      ((BinSemOp.take 0 [⟨0, [.give]⟩]).run
        (runOps ⟨1, 2, 0, 0⟩ [.give 0, .take 0 []])).state.current_value = 0) :=
  C3_give_take_alternation ⟨1, 2, 0, 0⟩ [.give 0, .take 0 []] (.take 0 [⟨0, [.give]⟩])
    (by decide)

/-- C4: once it has acquired the lock, `OS_BinSemTake_Impl` makes a kernel
condition wait if and only if `current_value` is 0; when `current_value` is 1 it
returns `OS_SUCCESS` having made no kernel call but the lock and the unlock. -/
theorem C4_take_blocks_iff_zero (sem : OS_impl_binsem_internal_record_t) (lockRet : Int)
    (waits : List Wake) (hlock : 0 ≤ lockRet) :
    ((OS_BinSemTake_Impl sem lockRet waits).calls.any KCall.isCondWait = true
      ↔ sem.current_value = 0) ∧
    (sem.current_value = 1 →
      (OS_BinSemTake_Impl sem lockRet waits).rc = some OS_SUCCESS ∧
      (OS_BinSemTake_Impl sem lockRet waits).calls
        = [.mutexLock sem.mtx, .mutexUnlock sem.mtx]) := by
  have hexit : sem.current_value ≠ 0 →
      OS_BinSemTake_Impl sem lockRet waits
        = { rc := some OS_SUCCESS, state := { sem with current_value := 0 },
            calls := [.mutexLock sem.mtx, .mutexUnlock sem.mtx] } := by
    intro hne
    unfold OS_BinSemTake_Impl OS_GenericBinSemTake_Impl
    rw [if_neg (not_lt.mpr hlock)]
    simp only
    rw [OS_GenericBinSemTake_loop_exit _ _ _ _ _ _ (fun hh => hne hh.1)]
    simp
  refine ⟨⟨fun hany => ?_, fun hz => ?_⟩, fun h1 => ?_⟩
  · by_contra hne
    rw [hexit hne] at hany
    simp [KCall.isCondWait] at hany
  · unfold OS_BinSemTake_Impl OS_GenericBinSemTake_Impl
    rw [if_neg (not_lt.mpr hlock)]
    simp only
    cases waits with
    | nil =>
      unfold OS_GenericBinSemTake_loop
      rw [if_pos ⟨hz, rfl, rfl⟩]
      simp [KCall.isCondWait]
    | cons w ws =>
      unfold OS_GenericBinSemTake_loop
      rw [if_pos ⟨hz, rfl, rfl⟩]
      simp only [if_true]
      split <;> simp [KCall.isCondWait]
  · have hne : sem.current_value ≠ 0 := by rw [h1]; decide
    rw [hexit hne]
    exact ⟨rfl, rfl⟩

/-- Witness of C4: an empty semaphore, a take that nothing wakes. -/
theorem C4_take_blocks_iff_zero_witness :
    ((OS_BinSemTake_Impl ⟨1, 2, 0, 0⟩ 0 []).calls.any KCall.isCondWait = true
      ↔ (⟨1, 2, 0, 0⟩ : OS_impl_binsem_internal_record_t).current_value = 0) ∧
    ((⟨1, 2, 0, 0⟩ : OS_impl_binsem_internal_record_t).current_value = 1 →
      (OS_BinSemTake_Impl ⟨1, 2, 0, 0⟩ 0 []).rc = some OS_SUCCESS ∧
      (OS_BinSemTake_Impl ⟨1, 2, 0, 0⟩ 0 []).calls
        = [.mutexLock (⟨1, 2, 0, 0⟩ : OS_impl_binsem_internal_record_t).mtx,
           .mutexUnlock (⟨1, 2, 0, 0⟩ : OS_impl_binsem_internal_record_t).mtx]) :=
  C4_take_blocks_iff_zero ⟨1, 2, 0, 0⟩ 0 [] (by decide)

/-- Counterexample to C5 as stated: at the top of the range of the counter,
`flush_request = 2147483647`, a flush that acquires the lock leaves
`flush_request = -2147483648`: the counter has not increased by 1. -/
theorem C5_flush_effect_counterexample :
    (OS_BinSemFlush_Impl ⟨1, 2, 2147483647, 1⟩ 0).rc = some OS_SUCCESS ∧
    (OS_BinSemFlush_Impl ⟨1, 2, 2147483647, 1⟩ 0).state.flush_request = -2147483648 ∧
    (OS_BinSemFlush_Impl ⟨1, 2, 2147483647, 1⟩ 0).state.flush_request
      ≠ (⟨1, 2, 2147483647, 1⟩ : OS_impl_binsem_internal_record_t).flush_request + 1 := by
  decide

/-- C5 (amended): whenever `OS_BinSemFlush_Impl` acquires the lock, on a record
whose `flush_request` is a value of the 32-bit counter, it increases
`flush_request` by exactly 1 when it is below 2147483647 and wraps it to
-2147483648 when it is 2147483647; in both cases the new generation is a value
of the counter different from the old one, `current_value` (and the two handles)
are unchanged, and the call returns `OS_SUCCESS`. -/
theorem C5_flush_effect_amended (sem : OS_impl_binsem_internal_record_t) (lockRet : Int)
    (hlock : 0 ≤ lockRet) (hlo : -2147483648 ≤ sem.flush_request)
    (hhi : sem.flush_request ≤ 2147483647) :
    (sem.flush_request < 2147483647 →
      (OS_BinSemFlush_Impl sem lockRet).state.flush_request = sem.flush_request + 1) ∧
    (sem.flush_request = 2147483647 →
      (OS_BinSemFlush_Impl sem lockRet).state.flush_request = -2147483648) ∧
    (OS_BinSemFlush_Impl sem lockRet).state.flush_request ≠ sem.flush_request ∧
    -2147483648 ≤ (OS_BinSemFlush_Impl sem lockRet).state.flush_request ∧
    (OS_BinSemFlush_Impl sem lockRet).state.flush_request ≤ 2147483647 ∧
    (OS_BinSemFlush_Impl sem lockRet).state.current_value = sem.current_value ∧
    (OS_BinSemFlush_Impl sem lockRet).state.mtx = sem.mtx ∧
    (OS_BinSemFlush_Impl sem lockRet).state.cv = sem.cv ∧
    (OS_BinSemFlush_Impl sem lockRet).rc = some OS_SUCCESS := by
  have hw : (OS_BinSemFlush_Impl sem lockRet).state.flush_request
      = (sem.flush_request + 1 + 2147483648) % 4294967296 - 2147483648 := by
    unfold OS_BinSemFlush_Impl
    rw [if_neg (not_lt.mpr hlock)]
    simp only [wrapInt32]
    norm_num
  refine ⟨fun h => ?_, fun h => ?_, ?_, ?_, ?_, ?_, ?_, ?_, ?_⟩
  · rw [hw]; omega
  · rw [hw]; omega
  · rw [hw]; omega
  · rw [hw]; omega
  · rw [hw]; omega
  · unfold OS_BinSemFlush_Impl
    rw [if_neg (not_lt.mpr hlock)]
  · unfold OS_BinSemFlush_Impl
    rw [if_neg (not_lt.mpr hlock)]
  · unfold OS_BinSemFlush_Impl
    rw [if_neg (not_lt.mpr hlock)]
  · unfold OS_BinSemFlush_Impl
    rw [if_neg (not_lt.mpr hlock)]

/-- Witness of C5 (amended): a flush of a full semaphore at generation 41, and one
at the top of the range. -/
theorem C5_flush_effect_amended_witness :
    (OS_BinSemFlush_Impl ⟨1, 2, 41, 1⟩ 0).state.flush_request
      = (⟨1, 2, 41, 1⟩ : OS_impl_binsem_internal_record_t).flush_request + 1 ∧
    (OS_BinSemFlush_Impl ⟨1, 2, 2147483647, 1⟩ 0).state.flush_request = -2147483648 ∧
    (OS_BinSemFlush_Impl ⟨1, 2, 41, 1⟩ 0).state.current_value
      = (⟨1, 2, 41, 1⟩ : OS_impl_binsem_internal_record_t).current_value ∧
    (OS_BinSemFlush_Impl ⟨1, 2, 41, 1⟩ 0).rc = some OS_SUCCESS :=
  ⟨(C5_flush_effect_amended ⟨1, 2, 41, 1⟩ 0 (by decide) (by decide) (by decide)).1
      (by decide),
   (C5_flush_effect_amended ⟨1, 2, 2147483647, 1⟩ 0 (by decide) (by decide)
      (by decide)).2.1 (by decide),
   (C5_flush_effect_amended ⟨1, 2, 41, 1⟩ 0 (by decide) (by decide)
      (by decide)).2.2.2.2.2.1,
   (C5_flush_effect_amended ⟨1, 2, 41, 1⟩ 0 (by decide) (by decide)
      (by decide)).2.2.2.2.2.2.2.2⟩

/-- C6: for every `initial_value > 1`, whatever the options and the previous
content of the slot, `OS_BinSemCreate_Impl` gives the same run (return code,
record, kernel calls) as a create with `initial_value = 1` under the same answers
of the kernel, and when it succeeds the record has `current_value = 1` and
`flush_request = 0`; for every `initial_value`, `current_value` after a
successful create is `min initial_value 1`. -/
theorem C6_create_clamps (slot slot1 : OS_impl_binsem_internal_record_t)
    (initial_value options options1 : Nat) (kmut kcv : KCreate) :
    (1 < initial_value →
      OS_BinSemCreate_Impl slot initial_value options kmut kcv
        = OS_BinSemCreate_Impl slot1 1 options1 kmut kcv) ∧
    (1 < initial_value →
      (OS_BinSemCreate_Impl slot initial_value options kmut kcv).rc = some OS_SUCCESS →
      (OS_BinSemCreate_Impl slot initial_value options kmut kcv).state.current_value = 1 ∧
      (OS_BinSemCreate_Impl slot initial_value options kmut kcv).state.flush_request = 0) ∧
    ((OS_BinSemCreate_Impl slot initial_value options kmut kcv).rc = some OS_SUCCESS →
      (OS_BinSemCreate_Impl slot initial_value options kmut kcv).state.current_value
        = ((min initial_value 1 : Nat) : Int)) := by
  refine ⟨fun h => ?_, fun h hrc => ⟨?_, ?_⟩,
    OS_BinSemCreate_Impl_value slot initial_value options kmut kcv⟩
  · unfold OS_BinSemCreate_Impl
    simp [h]
  · rw [OS_BinSemCreate_Impl_value slot initial_value options kmut kcv hrc,
      Nat.min_eq_right (Nat.le_of_lt h)]
    rfl
  · unfold OS_BinSemCreate_Impl
    simp only
    split_ifs <;> rfl

/-- Witness of C6: a create asking for 5 on a slot with old content, against a
create asking for 1 on a zeroed slot with other options. -/
theorem C6_create_clamps_witness :
    OS_BinSemCreate_Impl ⟨9, 9, 9, 9⟩ 5 3 ⟨0, 11⟩ ⟨0, 12⟩
      = OS_BinSemCreate_Impl ⟨0, 0, 0, 0⟩ 1 0 ⟨0, 11⟩ ⟨0, 12⟩ ∧
    (OS_BinSemCreate_Impl ⟨9, 9, 9, 9⟩ 5 3 ⟨0, 11⟩ ⟨0, 12⟩).state.current_value = 1 ∧
    (OS_BinSemCreate_Impl ⟨9, 9, 9, 9⟩ 5 3 ⟨0, 11⟩ ⟨0, 12⟩).state.flush_request = 0 ∧
    (OS_BinSemCreate_Impl ⟨9, 9, 9, 9⟩ 5 3 ⟨0, 11⟩ ⟨0, 12⟩).state.current_value
      = ((min 5 1 : Nat) : Int) :=
  ⟨(C6_create_clamps ⟨9, 9, 9, 9⟩ ⟨0, 0, 0, 0⟩ 5 3 0 ⟨0, 11⟩ ⟨0, 12⟩).1 (by decide),
   ((C6_create_clamps ⟨9, 9, 9, 9⟩ ⟨0, 0, 0, 0⟩ 5 3 0 ⟨0, 11⟩ ⟨0, 12⟩).2.1 (by decide)
      (by decide)).1,
   ((C6_create_clamps ⟨9, 9, 9, 9⟩ ⟨0, 0, 0, 0⟩ 5 3 0 ⟨0, 11⟩ ⟨0, 12⟩).2.1 (by decide)
      (by decide)).2,
   (C6_create_clamps ⟨9, 9, 9, 9⟩ ⟨0, 0, 0, 0⟩ 5 3 0 ⟨0, 11⟩ ⟨0, 12⟩).2.2 (by decide)⟩

/-- C7: `OS_BinSemTimedWait_Impl` with `msecs = 0` never makes a kernel condition
wait, whatever the record and the answer of the lock; once it holds the lock it
returns `OS_SUCCESS` and resets the value to 0 if `current_value` was nonzero,
and returns `OS_SEM_TIMEOUT`, the record unchanged, if it was 0. -/
theorem C7_zero_timeout_take (sem : OS_impl_binsem_internal_record_t) (lockRet : Int)
    (waits : List Wake) :
    (OS_BinSemTimedWait_Impl sem 0 lockRet waits).calls.any KCall.isCondWait = false ∧
    (0 ≤ lockRet → sem.current_value ≠ 0 →
      (OS_BinSemTimedWait_Impl sem 0 lockRet waits).rc = some OS_SUCCESS ∧
      (OS_BinSemTimedWait_Impl sem 0 lockRet waits).state
        = { sem with current_value := 0 }) ∧
    (0 ≤ lockRet → sem.current_value = 0 →
      (OS_BinSemTimedWait_Impl sem 0 lockRet waits).rc = some OS_SEM_TIMEOUT ∧
      (OS_BinSemTimedWait_Impl sem 0 lockRet waits).state = sem) := by
  have ht : OS_BinSemTimedWait_timeoutUs 0 = 0 := by decide
  have hloop : OS_GenericBinSemTake_loop 0 false sem.flush_request sem OS_SUCCESS waits
      = if sem.current_value = 0 then
          { rc := some OS_SEM_TIMEOUT, state := sem, calls := [] }
        else { rc := some OS_SUCCESS, state := sem, calls := [] } := by
    by_cases hz : sem.current_value = 0
    · rw [if_pos hz]
      cases waits <;>
        (unfold OS_GenericBinSemTake_loop; rw [if_pos ⟨hz, rfl, rfl⟩]; simp)
    · rw [if_neg hz]
      exact OS_GenericBinSemTake_loop_exit _ _ _ _ _ _ (fun hh => hz hh.1)
  unfold OS_BinSemTimedWait_Impl OS_GenericBinSemTake_Impl
  simp only [ht, hloop]
  refine ⟨?_, fun hl hne => ?_, fun hl hz => ?_⟩
  · split_ifs <;> simp [KCall.isCondWait]
  · rw [if_neg (not_lt.mpr hl), if_neg hne]
    simp
  · rw [if_neg (not_lt.mpr hl), if_pos hz]
    simp [OS_SEM_TIMEOUT, OS_SUCCESS]

/-- Witness of C7: a zero-timeout take of a full and of an empty semaphore. -/
theorem C7_zero_timeout_take_witness :
    (OS_BinSemTimedWait_Impl ⟨1, 2, 3, 1⟩ 0 0 []).rc = some OS_SUCCESS ∧
    (OS_BinSemTimedWait_Impl ⟨1, 2, 3, 1⟩ 0 0 []).state = ⟨1, 2, 3, 0⟩ ∧
    (OS_BinSemTimedWait_Impl ⟨1, 2, 3, 0⟩ 0 0 []).rc = some OS_SEM_TIMEOUT ∧
    (OS_BinSemTimedWait_Impl ⟨1, 2, 3, 0⟩ 0 0 []).state = ⟨1, 2, 3, 0⟩ :=
  ⟨((C7_zero_timeout_take ⟨1, 2, 3, 1⟩ 0 []).2.1 (by decide) (by decide)).1,
   ((C7_zero_timeout_take ⟨1, 2, 3, 1⟩ 0 []).2.1 (by decide) (by decide)).2,
   ((C7_zero_timeout_take ⟨1, 2, 3, 0⟩ 0 []).2.2 (by decide) (by decide)).1,
   ((C7_zero_timeout_take ⟨1, 2, 3, 0⟩ 0 []).2.2 (by decide) (by decide)).2⟩

/-! ## Theorems: timed waits and creation failures -/

/-- The timeout `OS_QueueGet_Impl` computes for `timeout = 0` is the one it
computes for `OS_PEND`, so the two calls are the same run for every queue and
every behaviour of the kernel. -/
theorem OS_QueueGet_Impl_check_eq_pend (queue : OS_queue_internal_record_t)
    (impl : OS_impl_queue_internal_record_t) (size : Nat) (waits : List QueueWake) :
    OS_QueueGet_Impl queue impl size OS_CHECK waits
      = OS_QueueGet_Impl queue impl size OS_PEND waits := by
  have h : OS_QueueGet_timeoutUs OS_CHECK = OS_QueueGet_timeoutUs OS_PEND := by decide
  unfold OS_QueueGet_Impl
  rw [h]

theorem OS_QueueGet_loop_not_timedOut (queue : OS_queue_internal_record_t)
    (timeoutUs : Int) (waits : List QueueWake) :
    ∀ impl : OS_impl_queue_internal_record_t, (∀ w ∈ waits, w.status ≠ -ETIME) →
      (OS_QueueGet_loop queue timeoutUs impl waits).1 ≠ .timedOut := by
  induction waits with
  | nil =>
    intro impl _
    unfold OS_QueueGet_loop
    split_ifs <;> simp
  | cons w ws ih =>
    intro impl h
    unfold OS_QueueGet_loop
    have hw : w.status ≠ -ETIME := h w (by simp)
    by_cases hz : impl.current_size = 0
    · rw [if_pos hz]
      simp only [if_neg hw]
      exact ih _ (fun x hx => h x (by simp [hx]))
    · rw [if_neg hz]
      simp

/-- As long as the kernel does not report a timeout for the unbounded wait,
`OS_QueueGet_Impl` with `timeout = 0` never returns `OS_QUEUE_TIMEOUT`, also on an
empty queue. -/
theorem OS_QueueGet_Impl_check_no_timeout (queue : OS_queue_internal_record_t)
    (impl : OS_impl_queue_internal_record_t) (size : Nat) (waits : List QueueWake)
    (h : ∀ w ∈ waits, w.status ≠ -ETIME) :
    (OS_QueueGet_Impl queue impl size OS_CHECK waits).1.rc ≠ some OS_QUEUE_TIMEOUT := by
  have hl := OS_QueueGet_loop_not_timedOut queue (OS_QueueGet_timeoutUs OS_CHECK) waits impl h
  unfold OS_QueueGet_Impl
  simp only
  split
  · simp
  · next heq => exact absurd heq hl
  · simp [OS_SUCCESS, OS_QUEUE_TIMEOUT]

/-- C8, the code at the failing input: on an empty queue of depth 4,
`OS_QueueGet_Impl` with `timeout = 0` calls `condWait` with the timeout 0, the
unbounded wait (the one the blocking semaphore take makes), exactly as with
`OS_PEND`, and has not returned as long as nothing wakes it; a put by another
thread makes it return `OS_SUCCESS`. -/
theorem C8_zero_timeout_queue_get_waits :
    OS_QueueGet_timeoutUs 0 = 0 ∧ OS_QueueGet_timeoutUs OS_PEND = 0 ∧
    (OS_QueueGet_Impl ⟨4, 2⟩ ⟨[⟨0, 0⟩, ⟨0, 0⟩, ⟨0, 0⟩, ⟨0, 0⟩], [0, 0, 0, 0, 0, 0, 0, 0],
        5, 6, 0, -1, 0⟩ 2 0 []).1.rc = none ∧
    (OS_QueueGet_Impl ⟨4, 2⟩ ⟨[⟨0, 0⟩, ⟨0, 0⟩, ⟨0, 0⟩, ⟨0, 0⟩], [0, 0, 0, 0, 0, 0, 0, 0],
        5, 6, 0, -1, 0⟩ 2 0 []).1.calls = [.mutexLock 6, .condWait 5 6 0] ∧
    (OS_BinSemTake_Impl ⟨6, 5, 0, 0⟩ 0 []).calls = [.mutexLock 6, .condWait 5 6 0] ∧
    OS_QueueGet_Impl ⟨4, 2⟩ ⟨[⟨0, 0⟩, ⟨0, 0⟩, ⟨0, 0⟩, ⟨0, 0⟩], [0, 0, 0, 0, 0, 0, 0, 0],
        5, 6, 0, -1, 0⟩ 2 0 []
      = OS_QueueGet_Impl ⟨4, 2⟩ ⟨[⟨0, 0⟩, ⟨0, 0⟩, ⟨0, 0⟩, ⟨0, 0⟩], [0, 0, 0, 0, 0, 0, 0, 0],
        5, 6, 0, -1, 0⟩ 2 OS_PEND [] ∧
    (OS_QueueGet_Impl ⟨4, 2⟩ ⟨[⟨0, 0⟩, ⟨0, 0⟩, ⟨0, 0⟩, ⟨0, 0⟩], [0, 0, 0, 0, 0, 0, 0, 0],
        5, 6, 0, -1, 0⟩ 2 0 [⟨0, [.put [7, 8] 2]⟩]).1.rc = some OS_SUCCESS ∧
    (OS_QueueGet_Impl ⟨4, 2⟩ ⟨[⟨0, 0⟩, ⟨0, 0⟩, ⟨0, 0⟩, ⟨0, 0⟩], [0, 0, 0, 0, 0, 0, 0, 0],
        5, 6, 0, -1, 0⟩ 2 0 [⟨0, [.put [7, 8] 2]⟩]).2 = some (2, [7, 8]) := by
  decide

/-- C9, the code at the failing inputs: `msecs * 1000` is reduced modulo `2 ^ 32`.
With `msecs = 4294968` the timeout is 704 microseconds, not 4294968000; with
`msecs = 2 ^ 29` the timeout is 0, and the timed take of an empty semaphore
returns `OS_SEM_TIMEOUT` without any wait. -/
theorem C9_msecs_conversion_wraps :
    OS_BinSemTimedWait_timeoutUs 4294968 = 704 ∧
    OS_BinSemTimedWait_timeoutUs 4294968 ≠ 4294968 * 1000 ∧
    536870912 < 2 ^ 32 ∧
    OS_BinSemTimedWait_timeoutUs 536870912 = 0 ∧
    (OS_BinSemTimedWait_Impl ⟨1, 2, 0, 0⟩ 536870912 0 []).rc = some OS_SEM_TIMEOUT ∧
    (OS_BinSemTimedWait_Impl ⟨1, 2, 0, 0⟩ 536870912 0 []).calls
      = [.mutexLock 1, .mutexUnlock 1] := by
  decide

/-- Below the wrap-around the conversion is exact: for `msecs ≤ 4294967` the
timeout is `msecs * 1000`. -/
theorem OS_BinSemTimedWait_timeoutUs_exact (msecs : Nat) (h : msecs ≤ 4294967) :
    OS_BinSemTimedWait_timeoutUs msecs = (msecs : Int) * 1000 := by
  unfold OS_BinSemTimedWait_timeoutUs
  rw [Nat.mod_eq_of_lt (by omega)]
  push_cast
  rfl

/-- When `mutexCreate` succeeds and `condCreate` fails, `OS_BinSemCreate_Impl`
returns `OS_SEM_FAILURE` having made no `resourceDestroy` call: the mutex stays
allocated. -/
theorem OS_BinSemCreate_Impl_cond_failure (slot : OS_impl_binsem_internal_record_t)
    (initial_value options hmut : Nat) (kcv : KCreate) (h : kcv.ret ≠ 0) :
    (OS_BinSemCreate_Impl slot initial_value options ⟨0, hmut⟩ kcv).rc
      = some OS_SEM_FAILURE ∧
    (OS_BinSemCreate_Impl slot initial_value options ⟨0, hmut⟩ kcv).calls.any KCall.isDestroy
      = false ∧
    allocated (OS_BinSemCreate_Impl slot initial_value options ⟨0, hmut⟩ kcv).calls
      = [hmut] := by
  unfold OS_BinSemCreate_Impl
  simp [h, allocated, KCall.isDestroy]

/-- C10, the code at the failing input: `mutexCreate` succeeds with handle 7 and
`condCreate` fails with -12; `OS_BinSemCreate_Impl` returns `OS_SEM_FAILURE`, its
only kernel calls are the two creates, and the mutex 7 is still allocated. -/
theorem C10_create_leaks_mutex :
    (OS_BinSemCreate_Impl ⟨0, 0, 0, 0⟩ 1 0 ⟨0, 7⟩ ⟨-12, 0⟩).rc = some OS_SEM_FAILURE ∧
    (OS_BinSemCreate_Impl ⟨0, 0, 0, 0⟩ 1 0 ⟨0, 7⟩ ⟨-12, 0⟩).calls
      = [.mutexCreate 0 7, .condCreate (-12) 0] ∧
    allocated (OS_BinSemCreate_Impl ⟨0, 0, 0, 0⟩ 1 0 ⟨0, 7⟩ ⟨-12, 0⟩).calls = [7] := by
  decide

/-! ## Theorems: timebase and counting semaphore -/

theorem tickTimes_interval (n : Nat) :
    ∀ impl : OS_impl_timebase_internal_record_t, impl.reset_flag = false →
      tickTimes n impl
        = List.replicate n ((impl.timer.interval_time % 2 ^ 32).toNat) := by
  induction n with
  | zero => intro impl _; rfl
  | succ n ih =>
    intro impl h
    have hw : OS_TimeBase_WaitImpl impl OS_SUCCESS
        = { tick_time := (impl.timer.interval_time % 2 ^ 32).toNat, state := impl,
            calls := [.semaphoreDown 0] } := by
      unfold OS_TimeBase_WaitImpl
      rw [if_pos rfl, if_pos h]
    simp only [tickTimes, hw, List.replicate_succ]
    rw [ih impl h]

/-- C11: on a simulating timebase, after `OS_TimeBaseSet_Impl` with `start_time = T`
and `interval_time = I`, both positive `uint32` values, and no further set, the
tick durations the successive calls of `OS_TimeBase_WaitImpl` return (the
timebase id resolving) are `T`, then `I` for every later tick, and the first call
clears `reset_flag`. -/
theorem C11_tick_durations (local_ : OS_impl_timebase_internal_record_t)
    (timebase : OS_timebase_internal_record_t) (T I n : Nat)
    (hsim : local_.simulate_flag = true) (hT : 0 < T) (hT32 : T < 2 ^ 32)
    (hI : 0 < I) (hI32 : I < 2 ^ 32) :
    tickTimes (n + 1) (OS_TimeBaseSet_Impl local_ timebase T I).state
      = T :: List.replicate n I ∧
    (OS_TimeBaseSet_Impl local_ timebase T I).state.reset_flag = true ∧
    (OS_TimeBase_WaitImpl (OS_TimeBaseSet_Impl local_ timebase T I).state
      OS_SUCCESS).state.reset_flag = false := by
  have hT0 : ¬ T ≤ 0 := by omega
  have hset : (OS_TimeBaseSet_Impl local_ timebase T I).state
      = { local_ with
          reset_flag := true
          timer := { local_.timer with
            interval_time := (I : Int), start_time := (T : Int), active := true } } := by
    unfold OS_TimeBaseSet_Impl
    simp only [hsim, hT0, hT, and_false, if_false, if_true]
    cases local_.reset_flag <;> rfl
  have hTm : (((T : Int) % 2 ^ 32).toNat) = T := by
    have : ((T : Int) % 2 ^ 32) = (T : Int) := Int.emod_eq_of_lt (by omega) (by omega)
    rw [this]; simp
  have hIm : (((I : Int) % 2 ^ 32).toNat) = I := by
    have : ((I : Int) % 2 ^ 32) = (I : Int) := Int.emod_eq_of_lt (by omega) (by omega)
    rw [this]; simp
  rw [hset]
  refine ⟨?_, rfl, ?_⟩
  · simp only [tickTimes, OS_TimeBase_WaitImpl, if_true]
    simp only [Bool.true_eq_false, if_false, hTm]
    rw [tickTimes_interval n _ rfl]
    simp only [hIm]
  · simp [OS_TimeBase_WaitImpl]

/-- Witness of C11: a set of 1000 and 500 microseconds, four ticks. -/
theorem C11_tick_durations_witness :
    tickTimes (3 + 1)
        (OS_TimeBaseSet_Impl ⟨11, 10, 1, false, true, ⟨false, false, false, 0, 0, 2, 3⟩⟩
          ⟨some .waitImpl, 0⟩ 1000 500).state
      = 1000 :: List.replicate 3 500 ∧
    (OS_TimeBaseSet_Impl ⟨11, 10, 1, false, true, ⟨false, false, false, 0, 0, 2, 3⟩⟩
      ⟨some .waitImpl, 0⟩ 1000 500).state.reset_flag = true ∧
    (OS_TimeBase_WaitImpl
      (OS_TimeBaseSet_Impl ⟨11, 10, 1, false, true, ⟨false, false, false, 0, 0, 2, 3⟩⟩
        ⟨some .waitImpl, 0⟩ 1000 500).state OS_SUCCESS).state.reset_flag = false :=
  C11_tick_durations ⟨11, 10, 1, false, true, ⟨false, false, false, 0, 0, 2, 3⟩⟩
    ⟨some .waitImpl, 0⟩ 1000 500 3 (by decide) (by decide) (by decide) (by decide)
    (by decide)

/-- C12: for every record, simulating or not, and every `interval_time`,
`OS_TimeBaseSet_Impl` with `start_time = 0` gives the same run (return code,
record, accuracy and kernel calls) as with `start_time = 0` and
`interval_time = 0`. -/
theorem C12_interval_forced_zero (local_ : OS_impl_timebase_internal_record_t)
    (timebase : OS_timebase_internal_record_t) (I : Nat) :
    OS_TimeBaseSet_Impl local_ timebase 0 I = OS_TimeBaseSet_Impl local_ timebase 0 0 := by
  unfold OS_TimeBaseSet_Impl
  cases hs : local_.simulate_flag <;> simp

/-- C20: for every `sem_initial_value` greater than `SEM_VALUE_MAX`,
`OS_CountSemCreate_Impl` returns `OS_INVALID_SEM_VALUE`, makes no kernel call
and leaves the record unchanged. -/
theorem C20_countsem_rejects_value (impl : OS_impl_countsem_internal_record_t)
    (sem_initial_value options : Nat) (ksem : KCreate)
    (h : sem_initial_value > SEM_VALUE_MAX) :
    (OS_CountSemCreate_Impl impl sem_initial_value options ksem).rc
      = some OS_INVALID_SEM_VALUE ∧
    (OS_CountSemCreate_Impl impl sem_initial_value options ksem).calls = [] ∧
    (OS_CountSemCreate_Impl impl sem_initial_value options ksem).state = impl := by
  unfold OS_CountSemCreate_Impl
  rw [if_pos h]
  exact ⟨rfl, rfl, rfl⟩

/-- Witness of C20: the first value above `SEM_VALUE_MAX`, and the value below
it that is accepted. -/
theorem C20_countsem_rejects_value_witness :
    ((OS_CountSemCreate_Impl ⟨5⟩ 0x80000000 0 ⟨0, 9⟩).rc = some OS_INVALID_SEM_VALUE ∧
     (OS_CountSemCreate_Impl ⟨5⟩ 0x80000000 0 ⟨0, 9⟩).calls = [] ∧
     (OS_CountSemCreate_Impl ⟨5⟩ 0x80000000 0 ⟨0, 9⟩).state = ⟨5⟩) ∧
    (OS_CountSemCreate_Impl ⟨5⟩ 0x7FFFFFFF 0 ⟨0, 9⟩).rc = some OS_SUCCESS :=
  ⟨C20_countsem_rejects_value ⟨5⟩ 0x80000000 0 ⟨0, 9⟩ (by decide), by decide⟩

/-- C13, the code at the failing inputs, on a created simulating timebase (timer
mutex 2, condition 3).  A set of (1000, 500) wakes the idle thread, which starts
the wait of 1000; a second set of (2000, 700) then signals it during that wait:
the thread sets `finished` and reaches `endthread`, with no wait of 2000.  When
the second set arrives during an interval wait instead, the next wait is the new
interval 700, not the new start time 2000.  After a one-shot tick (interval 0)
the thread has ended, so no later set can reach it. -/
theorem C13_set_during_wait_ends_thread :
    (OS_TimeBase_TimerThread ⟨11, 10, 1, false, true, ⟨false, false, false, 0, 0, 2, 3⟩⟩
        [⟨0, [.set 1000 500]⟩, ⟨0, [.set 2000 700]⟩]).ended = true ∧
    (OS_TimeBase_TimerThread ⟨11, 10, 1, false, true, ⟨false, false, false, 0, 0, 2, 3⟩⟩
        [⟨0, [.set 1000 500]⟩, ⟨0, [.set 2000 700]⟩]).calls
      = [.mutexLock 2, .condWait 3 2 0, .condWait 3 2 1000, .condSignal 3,
         .mutexUnlock 2, .endthread] ∧
    (OS_TimeBase_TimerThread ⟨11, 10, 1, false, true, ⟨false, false, false, 0, 0, 2, 3⟩⟩
        [⟨0, [.set 1000 500]⟩, ⟨0, [.set 2000 700]⟩]).state.timer
      = ⟨true, true, false, 2000, 700, 2, 3⟩ ∧
    (OS_TimeBase_TimerThread ⟨11, 10, 1, false, true, ⟨false, false, false, 0, 0, 2, 3⟩⟩
        [⟨0, [.set 1000 500]⟩, ⟨-ETIME, []⟩, ⟨0, [.set 2000 700]⟩]).calls
      = [.mutexLock 2, .condWait 3 2 0, .condWait 3 2 1000, .semaphoreUp,
         .condWait 3 2 500, .condWait 3 2 700] ∧
    (OS_TimeBase_TimerThread ⟨11, 10, 1, false, true, ⟨false, false, false, 0, 0, 2, 3⟩⟩
        [⟨0, [.set 1000 0]⟩, ⟨-ETIME, []⟩]).ended = true ∧
    (OS_TimeBase_TimerThread ⟨11, 10, 1, false, true, ⟨false, false, false, 0, 0, 2, 3⟩⟩
        [⟨0, [.set 1000 0]⟩, ⟨-ETIME, []⟩]).calls
      = [.mutexLock 2, .condWait 3 2 0, .condWait 3 2 1000, .semaphoreUp, .condSignal 3,
         .mutexUnlock 2, .endthread] := by
  decide

/-- From the idle loop the set does re-arm the thread: a set with `start_time = T`
that wakes the idle thread of a live timebase makes it begin a wait of `T`. -/
theorem OS_TimeBase_TimerThread_idle_set (impl : OS_impl_timebase_internal_record_t)
    (T I : Nat) (status : Int) (hsim : impl.simulate_flag = true)
    (hact : impl.timer.active = false) (hfin : impl.timer.finish_rq = false) (hT : 0 < T) :
    (OS_TimeBase_TimerThread impl [⟨status, [.set T I]⟩]).ended = false ∧
    (OS_TimeBase_TimerThread impl [⟨status, [.set T I]⟩]).calls
      = [.mutexLock impl.timer.mutex, .condWait impl.timer.cond impl.timer.mutex 0,
         .condWait impl.timer.cond impl.timer.mutex (T : Int)] := by
  have hT0 : ¬ T ≤ 0 := by omega
  have hw : (⟨status, [.set T I]⟩ : TimerWake).wake impl
      = { impl with
          reset_flag := true
          timer := { impl.timer with
            interval_time := (I : Int), start_time := (T : Int), active := true } } := by
    simp only [TimerWake.wake, List.foldl_cons, List.foldl_nil, TimerEnv.apply,
      OS_TimeBaseSet_Impl, hsim, hT0, hT, and_false, if_false, if_true]
    cases impl.reset_flag <;> rfl
  unfold OS_TimeBase_TimerThread OS_TimeBase_TimerThread_idle
  rw [if_pos ⟨hact, hfin⟩]
  simp only [hw]
  unfold OS_TimeBase_TimerThread_idle
  simp only [Bool.true_eq_false, false_and, if_false]
  unfold OS_TimeBase_TimerThread_start
  simp [hfin]

theorem OS_TimeBaseDelete_wait_spec (waits : List TimerWake) :
    ∀ local_ : OS_impl_timebase_internal_record_t,
      (OS_TimeBaseDelete_wait local_ waits).calls.filter KCall.isRelease = [] ∧
      (∀ rc, (OS_TimeBaseDelete_wait local_ waits).rc = some rc →
        (OS_TimeBaseDelete_wait local_ waits).state.timer.finished = true) := by
  induction waits with
  | nil =>
    intro local_
    unfold OS_TimeBaseDelete_wait
    by_cases h : local_.timer.finished = false
    · rw [if_pos h]
      simp [KCall.isRelease]
    · rw [if_neg h]
      simpa using h
  | cons w ws ih =>
    intro local_
    unfold OS_TimeBaseDelete_wait
    by_cases h : local_.timer.finished = false
    · rw [if_pos h]
      obtain ⟨h1, h2⟩ := ih (w.wake local_)
      refine ⟨?_, fun rc hrc => h2 rc hrc⟩
      simpa [KCall.isRelease] using h1
    · rw [if_neg h]
      simpa using h

/-- C14: in every execution of `OS_TimeBaseDelete_Impl` on a simulating timebase,
whatever the other threads do and whatever the waits return: as long as the
deleter has not left its wait loop, the only object it has released is the handler
mutex; when it returns, the record it observed under the timer lock has
`finished = true`, and the tick semaphore, the timer mutex and the timer
condition are released by its last three calls, after that observation. -/
theorem C14_delete_waits_for_finished (local_ : OS_impl_timebase_internal_record_t)
    (mid : List TimerEnv) (waits : List TimerWake) (hsim : local_.simulate_flag = true) :
    ((OS_TimeBaseDelete_Impl local_ mid waits).rc = none →
      (OS_TimeBaseDelete_Impl local_ mid waits).calls.filter KCall.isRelease
        = [.resourceDestroy local_.handler_mutex]) ∧
    (∀ rc, (OS_TimeBaseDelete_Impl local_ mid waits).rc = some rc →
      rc = OS_SUCCESS ∧
      (OS_TimeBaseDelete_Impl local_ mid waits).state.timer.finished = true ∧
      ∃ before,
        (OS_TimeBaseDelete_Impl local_ mid waits).calls
          = before ++ [.mutexUnlock local_.timer.mutex, .semaphoreDone,
              .resourceDestroy local_.timer.mutex, .resourceDestroy local_.timer.cond] ∧
        before.filter KCall.isRelease = [.resourceDestroy local_.handler_mutex]) := by
  obtain ⟨h1, h2⟩ := OS_TimeBaseDelete_wait_spec waits
    (mid.foldl (fun s e => e.apply s)
      { local_ with timer := { local_.timer with active := false, finish_rq := true } })
  unfold OS_TimeBaseDelete_Impl
  rw [if_pos hsim]
  simp only
  split
  · next hrc =>
    refine ⟨fun _ => ?_, fun rc h => by simp at h⟩
    simp [List.filter_append, h1, KCall.isRelease]
  · next rc0 hrc =>
    refine ⟨fun h => by simp at h, fun rc h => ?_⟩
    simp only [Option.some.injEq] at h
    refine ⟨h.symm, h2 rc0 hrc, _, rfl, ?_⟩
    simp [List.filter_append, h1, KCall.isRelease]

/-- Witness of C14: the timer thread exits while the deleter waits. -/
theorem C14_delete_waits_for_finished_witness :
    (OS_TimeBaseDelete_Impl ⟨11, 10, 1, false, true, ⟨true, false, false, 1000, 500, 2, 3⟩⟩
        [] [⟨0, []⟩, ⟨0, [.threadExit]⟩]).rc = some OS_SUCCESS ∧
    (OS_TimeBaseDelete_Impl ⟨11, 10, 1, false, true, ⟨true, false, false, 1000, 500, 2, 3⟩⟩
        [] [⟨0, []⟩, ⟨0, [.threadExit]⟩]).state.timer.finished = true ∧
    (OS_TimeBaseDelete_Impl ⟨11, 10, 1, false, true, ⟨true, false, false, 1000, 500, 2, 3⟩⟩
        [] [⟨0, []⟩, ⟨0, [.threadExit]⟩]).calls
      = [.mutexLock 2, .condSignal 3, .mutexUnlock 2, .signalPost 11, .resourceDestroy 1,
         .mutexLock 2, .condWait 3 2 0, .condWait 3 2 0, .mutexUnlock 2, .semaphoreDone,
         .resourceDestroy 2, .resourceDestroy 3] ∧
    (OS_TimeBaseDelete_Impl ⟨11, 10, 1, false, true, ⟨true, false, false, 1000, 500, 2, 3⟩⟩
        [] [⟨0, []⟩]).calls.filter KCall.isRelease = [.resourceDestroy 1] :=
  ⟨by decide,
   ((C14_delete_waits_for_finished
      ⟨11, 10, 1, false, true, ⟨true, false, false, 1000, 500, 2, 3⟩⟩
      [] [⟨0, []⟩, ⟨0, [.threadExit]⟩] (by decide)).2 OS_SUCCESS (by decide)).2.1,
   by decide,
   (C14_delete_waits_for_finished
      ⟨11, 10, 1, false, true, ⟨true, false, false, 1000, 500, 2, 3⟩⟩
      [] [⟨0, []⟩] (by decide)).1 (by decide)⟩

/-- C15, the code at the failing inputs (no external sync function, so the
timebase simulates).  When `semaphoreCreate` fails, the handler mutex 1 created
before stays allocated; when `condCreate` fails, the handler mutex, the tick
semaphore and the timer mutex 2 stay allocated; when the spawn of the handler
thread fails, the handles are released but the timer thread 10 spawned before is
left running.  Only the failure of the timer-thread spawn releases everything. -/
theorem C15_create_failure_leaks :
    (OS_TimeBaseCreate_Impl ⟨0, 0, 0, false, false, ⟨false, false, false, 0, 0, 0, 0⟩⟩
        ⟨none, 0⟩ ⟨⟨0, 1⟩, -12, ⟨0, 2⟩, ⟨0, 3⟩, ⟨0, 10⟩, ⟨0, 11⟩⟩).rc
      = some OS_TIMER_ERR_INTERNAL ∧
    held (OS_TimeBaseCreate_Impl ⟨0, 0, 0, false, false, ⟨false, false, false, 0, 0, 0, 0⟩⟩
        ⟨none, 0⟩ ⟨⟨0, 1⟩, -12, ⟨0, 2⟩, ⟨0, 3⟩, ⟨0, 10⟩, ⟨0, 11⟩⟩).calls
      = [.handle 1] ∧
    (OS_TimeBaseCreate_Impl ⟨0, 0, 0, false, false, ⟨false, false, false, 0, 0, 0, 0⟩⟩
        ⟨none, 0⟩ ⟨⟨0, 1⟩, 0, ⟨0, 2⟩, ⟨-12, 0⟩, ⟨0, 10⟩, ⟨0, 11⟩⟩).rc
      = some OS_TIMER_ERR_INTERNAL ∧
    held (OS_TimeBaseCreate_Impl ⟨0, 0, 0, false, false, ⟨false, false, false, 0, 0, 0, 0⟩⟩
        ⟨none, 0⟩ ⟨⟨0, 1⟩, 0, ⟨0, 2⟩, ⟨-12, 0⟩, ⟨0, 10⟩, ⟨0, 11⟩⟩).calls
      = [.handle 1, .semaphore, .handle 2] ∧
    (OS_TimeBaseCreate_Impl ⟨0, 0, 0, false, false, ⟨false, false, false, 0, 0, 0, 0⟩⟩
        ⟨none, 0⟩ ⟨⟨0, 1⟩, 0, ⟨0, 2⟩, ⟨0, 3⟩, ⟨0, 10⟩, ⟨-12, 0⟩⟩).rc
      = some OS_TIMER_ERR_INTERNAL ∧
    (OS_TimeBaseCreate_Impl ⟨0, 0, 0, false, false, ⟨false, false, false, 0, 0, 0, 0⟩⟩
        ⟨none, 0⟩ ⟨⟨0, 1⟩, 0, ⟨0, 2⟩, ⟨0, 3⟩, ⟨0, 10⟩, ⟨-12, 0⟩⟩).calls
      = [.mutexCreate 0 1, .semaphoreCreate 0 0, .mutexCreate 0 2, .condCreate 0 3,
         .beginthreadex true 1 0 10, .beginthreadex false 0 (-12) 0, .resourceDestroy 1,
         .semaphoreDone, .resourceDestroy 2, .resourceDestroy 3] ∧
    held (OS_TimeBaseCreate_Impl ⟨0, 0, 0, false, false, ⟨false, false, false, 0, 0, 0, 0⟩⟩
        ⟨none, 0⟩ ⟨⟨0, 1⟩, 0, ⟨0, 2⟩, ⟨0, 3⟩, ⟨0, 10⟩, ⟨-12, 0⟩⟩).calls
      = [.thread 10] ∧
    held (OS_TimeBaseCreate_Impl ⟨0, 0, 0, false, false, ⟨false, false, false, 0, 0, 0, 0⟩⟩
        ⟨none, 0⟩ ⟨⟨0, 1⟩, 0, ⟨0, 2⟩, ⟨0, 3⟩, ⟨-12, 0⟩, ⟨0, 11⟩⟩).calls
      = [] := by
  decide

/-- On a simulating timebase, a failure of `semaphoreCreate`, of the timer
`mutexCreate` or of `condCreate` returns `OS_TIMER_ERR_INTERNAL` without any
release call. -/
theorem OS_TimeBaseCreate_Impl_early_return (slot : OS_impl_timebase_internal_record_t)
    (accuracy : Int) (k : TimeBaseCreateKernel) (hm : k.handler_mutex.ret = 0)
    (hfail : k.tick_sem ≠ 0 ∨ k.timer_mutex.ret ≠ 0 ∨ k.timer_cond.ret ≠ 0) :
    (OS_TimeBaseCreate_Impl slot ⟨none, accuracy⟩ k).rc = some OS_TIMER_ERR_INTERNAL ∧
    (OS_TimeBaseCreate_Impl slot ⟨none, accuracy⟩ k).calls.filter KCall.isRelease = [] := by
  unfold OS_TimeBaseCreate_Impl
  simp only [hm, ne_eq, not_true_eq_false, if_false, decide_True, if_true]
  by_cases h1 : k.tick_sem = 0
  · by_cases h2 : k.timer_mutex.ret = 0
    · have h3 : k.timer_cond.ret ≠ 0 := by
        rcases hfail with h | h | h
        · exact absurd h1 h
        · exact absurd h2 h
        · exact h
      simp [h1, h2, h3, KCall.isRelease]
    · simp [h1, h2, KCall.isRelease]
  · simp [h1, KCall.isRelease]

/-- C16: for every record with `simulate_flag = false`, `OS_TimeBaseSet_Impl`
leaves the Timer sub-record unchanged and makes no kernel call at all,
`OS_TimeBaseDelete_Impl` leaves the whole record unchanged and its only kernel
calls are the cancel signal to the handler thread and the release of the handler
mutex; and `OS_TimeBaseCreate_Impl` with an external sync function supplied
makes no timer-thread spawn, no call on the tick semaphore, and leaves the Timer
sub-record as it found it. -/
theorem C16_non_simulating_frame (local_ slot : OS_impl_timebase_internal_record_t)
    (timebase : OS_timebase_internal_record_t) (accuracy : Int) (f : SyncFn)
    (start_time interval_time : Nat) (mid : List TimerEnv) (waits : List TimerWake)
    (k : TimeBaseCreateKernel) (hsim : local_.simulate_flag = false) :
    (OS_TimeBaseSet_Impl local_ timebase start_time interval_time).state.timer
      = local_.timer ∧
    (OS_TimeBaseSet_Impl local_ timebase start_time interval_time).calls = [] ∧
    (OS_TimeBaseDelete_Impl local_ mid waits).state = local_ ∧
    (OS_TimeBaseDelete_Impl local_ mid waits).calls
      = [.signalPost local_.handler_thread, .resourceDestroy local_.handler_mutex] ∧
    (OS_TimeBaseCreate_Impl slot ⟨some f, accuracy⟩ k).calls.any KCall.isTimerSpawn
      = false ∧
    (∀ c ∈ (OS_TimeBaseCreate_Impl slot ⟨some f, accuracy⟩ k).calls,
      c = .mutexCreate k.handler_mutex.ret k.handler_mutex.handle ∨
      c = .beginthreadex false 0 k.handler_thread.ret k.handler_thread.tid ∨
      c = .resourceDestroy k.handler_mutex.handle) ∧
    (OS_TimeBaseCreate_Impl slot ⟨some f, accuracy⟩ k).state.timer = slot.timer := by
  refine ⟨?_, ?_, ?_, ?_, ?_, ?_, ?_⟩
  · simp [OS_TimeBaseSet_Impl, hsim]
  · simp [OS_TimeBaseSet_Impl, hsim]
  · simp [OS_TimeBaseDelete_Impl, hsim]
  · simp [OS_TimeBaseDelete_Impl, hsim]
  · unfold OS_TimeBaseCreate_Impl OS_TimeBaseCreate_spawn
    by_cases hm : k.handler_mutex.ret = 0
    · by_cases hh : k.handler_thread.ret = 0 <;> simp [hm, hh, KCall.isTimerSpawn]
    · simp [hm, KCall.isTimerSpawn]
  · unfold OS_TimeBaseCreate_Impl OS_TimeBaseCreate_spawn
    by_cases hm : k.handler_mutex.ret = 0
    · by_cases hh : k.handler_thread.ret = 0 <;> simp [hm, hh]
    · simp [hm]
  · unfold OS_TimeBaseCreate_Impl OS_TimeBaseCreate_spawn
    by_cases hm : k.handler_mutex.ret = 0
    · by_cases hh : k.handler_thread.ret = 0 <;> simp [hm, hh]
    · simp [hm]

/-- Witness of C16: a timebase driven by an external sync function. -/
theorem C16_non_simulating_frame_witness :
    (OS_TimeBaseSet_Impl ⟨11, 0, 1, false, false, ⟨false, false, false, 7, 8, 0, 0⟩⟩
        ⟨some .external, 0⟩ 1000 500).state.timer = ⟨false, false, false, 7, 8, 0, 0⟩ ∧
    (OS_TimeBaseSet_Impl ⟨11, 0, 1, false, false, ⟨false, false, false, 7, 8, 0, 0⟩⟩
        ⟨some .external, 0⟩ 1000 500).calls = [] ∧
    (OS_TimeBaseDelete_Impl ⟨11, 0, 1, false, false, ⟨false, false, false, 7, 8, 0, 0⟩⟩
        [] []).calls = [.signalPost 11, .resourceDestroy 1] ∧
    (OS_TimeBaseCreate_Impl ⟨0, 0, 0, false, true, ⟨true, true, true, 7, 8, 5, 6⟩⟩
        ⟨some .external, 0⟩ ⟨⟨0, 1⟩, 0, ⟨0, 2⟩, ⟨0, 3⟩, ⟨0, 10⟩, ⟨0, 11⟩⟩).calls
      = [.mutexCreate 0 1, .beginthreadex false 0 0 11] :=
  ⟨(C16_non_simulating_frame ⟨11, 0, 1, false, false, ⟨false, false, false, 7, 8, 0, 0⟩⟩
      ⟨0, 0, 0, false, true, ⟨true, true, true, 7, 8, 5, 6⟩⟩ ⟨some .external, 0⟩ 0 .external
      1000 500 [] [] ⟨⟨0, 1⟩, 0, ⟨0, 2⟩, ⟨0, 3⟩, ⟨0, 10⟩, ⟨0, 11⟩⟩ (by decide)).1,
   (C16_non_simulating_frame ⟨11, 0, 1, false, false, ⟨false, false, false, 7, 8, 0, 0⟩⟩
      ⟨0, 0, 0, false, true, ⟨true, true, true, 7, 8, 5, 6⟩⟩ ⟨some .external, 0⟩ 0 .external
      1000 500 [] [] ⟨⟨0, 1⟩, 0, ⟨0, 2⟩, ⟨0, 3⟩, ⟨0, 10⟩, ⟨0, 11⟩⟩ (by decide)).2.1,
   (C16_non_simulating_frame ⟨11, 0, 1, false, false, ⟨false, false, false, 7, 8, 0, 0⟩⟩
      ⟨0, 0, 0, false, true, ⟨true, true, true, 7, 8, 5, 6⟩⟩ ⟨some .external, 0⟩ 0 .external
      1000 500 [] [] ⟨⟨0, 1⟩, 0, ⟨0, 2⟩, ⟨0, 3⟩, ⟨0, 10⟩, ⟨0, 11⟩⟩ (by decide)).2.2.2.1,
   by decide⟩

/-! ## Theorems: message queue -/

theorem OS_QueueCreate_Impl_fresh (queue : OS_queue_internal_record_t)
    (slot : OS_impl_queue_internal_record_t) (flags : Nat)
    (mMessages : Option (List OS_impl_queue_internal_message_t))
    (mData : Option (List Nat)) (kcond klock : KCreate)
    (h : (OS_QueueCreate_Impl queue slot flags mMessages mData kcond klock).rc
      = some OS_SUCCESS) :
    (OS_QueueCreate_Impl queue slot flags mMessages mData kcond klock).state.head = 0 ∧
    (OS_QueueCreate_Impl queue slot flags mMessages mData kcond klock).state.tail = -1 ∧
    (OS_QueueCreate_Impl queue slot flags mMessages mData kcond klock).state.current_size
      = 0 ∧
    (OS_QueueCreate_Impl queue slot flags mMessages mData kcond klock).state.messages.length
      = queue.max_depth ∧
    (OS_QueueCreate_Impl queue slot flags mMessages mData kcond klock).state.data_block.length
      = queue.max_depth * queue.max_size := by
  unfold OS_QueueCreate_Impl at h ⊢
  cases mMessages with
  | none => simp [OS_ERROR, OS_SUCCESS] at h
  | some found =>
    cases mData with
    | none => simp [OS_ERROR, OS_SUCCESS] at h
    | some found2 =>
      simp only at h ⊢
      split_ifs at h ⊢
      · simp [OS_ERROR, OS_SUCCESS] at h
      · simp [OS_ERROR, OS_SUCCESS] at h
      · simp

theorem runPuts_size (queue : OS_queue_internal_record_t)
    (puts : List (List Nat × Nat × Nat)) :
    ∀ impl : OS_impl_queue_internal_record_t,
      0 ≤ impl.current_size →
      impl.current_size + puts.length ≤ (queue.max_depth : Int) →
      (runPuts queue impl puts).current_size = impl.current_size + puts.length := by
  induction puts with
  | nil => intro impl _ _; simp [runPuts]
  | cons p ps ih =>
    intro impl h0 hle
    simp only [List.length_cons, Nat.cast_add, Nat.cast_one] at hle
    have hne : impl.current_size ≠ (queue.max_depth : Int) := by omega
    have hput : (OS_QueuePut_Impl queue impl p.1 p.2.1 p.2.2).state.current_size
        = impl.current_size + 1 := by
      unfold OS_QueuePut_Impl
      simp [hne]
    have := ih (OS_QueuePut_Impl queue impl p.1 p.2.1 p.2.2).state (by omega) (by omega)
    simp only [runPuts, List.foldl_cons, List.length_cons, Nat.cast_add, Nat.cast_one]
      at this ⊢
    rw [this, hput]
    omega

/-- C17: for every `max_depth` N (0 included), on a queue that
`OS_QueueCreate_Impl` has just created, a put that follows fewer than N puts (and
no get) returns `OS_SUCCESS`, and the put that follows N puts returns
`OS_QUEUE_FULL`, having only taken and released the lock. -/
theorem C17_queue_capacity (queue : OS_queue_internal_record_t)
    (slot : OS_impl_queue_internal_record_t) (flags : Nat)
    (mMessages : Option (List OS_impl_queue_internal_message_t))
    (mData : Option (List Nat)) (kcond klock : KCreate)
    (puts : List (List Nat × Nat × Nat)) (data : List Nat) (size flags1 : Nat)
    (hc : (OS_QueueCreate_Impl queue slot flags mMessages mData kcond klock).rc
      = some OS_SUCCESS) :
    (puts.length < queue.max_depth →
      (OS_QueuePut_Impl queue
        (runPuts queue
          (OS_QueueCreate_Impl queue slot flags mMessages mData kcond klock).state puts)
        data size flags1).rc = some OS_SUCCESS) ∧
    (puts.length = queue.max_depth →
      (OS_QueuePut_Impl queue
        (runPuts queue
          (OS_QueueCreate_Impl queue slot flags mMessages mData kcond klock).state puts)
        data size flags1).rc = some OS_QUEUE_FULL ∧
      (OS_QueuePut_Impl queue
        (runPuts queue
          (OS_QueueCreate_Impl queue slot flags mMessages mData kcond klock).state puts)
        data size flags1).calls.any KCall.isCondWait = false) := by
  obtain ⟨_, _, hs, _, _⟩ :=
    OS_QueueCreate_Impl_fresh queue slot flags mMessages mData kcond klock hc
  generalize (OS_QueueCreate_Impl queue slot flags mMessages mData kcond klock).state
    = s0 at hs
  constructor
  · intro hlt
    have hsz := runPuts_size queue puts s0 (by omega) (by rw [hs]; omega)
    have hne : (runPuts queue s0 puts).current_size ≠ (queue.max_depth : Int) := by
      rw [hsz, hs]; omega
    unfold OS_QueuePut_Impl
    simp [hne]
  · intro heq
    have hsz := runPuts_size queue puts s0 (by omega) (by rw [hs]; omega)
    have hfull : (runPuts queue s0 puts).current_size = (queue.max_depth : Int) := by
      rw [hsz, hs]; omega
    unfold OS_QueuePut_Impl
    simp [hfull, KCall.isCondWait]

/-- Witness of C17: depth 2, the third put is refused; depth 0, the first one is. -/
theorem C17_queue_capacity_witness :
    (OS_QueuePut_Impl ⟨2, 1⟩
      (runPuts ⟨2, 1⟩
        (OS_QueueCreate_Impl ⟨2, 1⟩ ⟨[], [], 0, 0, 5, 5, 5⟩ 0 (some []) (some [])
          ⟨0, 5⟩ ⟨0, 6⟩).state [([7], 1, 0)])
      [8] 1 0).rc = some OS_SUCCESS ∧
    (OS_QueuePut_Impl ⟨2, 1⟩
      (runPuts ⟨2, 1⟩
        (OS_QueueCreate_Impl ⟨2, 1⟩ ⟨[], [], 0, 0, 5, 5, 5⟩ 0 (some []) (some [])
          ⟨0, 5⟩ ⟨0, 6⟩).state [([7], 1, 0), ([8], 1, 0)])
      [9] 1 0).rc = some OS_QUEUE_FULL ∧
    (OS_QueuePut_Impl ⟨0, 1⟩
      (runPuts ⟨0, 1⟩
        (OS_QueueCreate_Impl ⟨0, 1⟩ ⟨[], [], 0, 0, 5, 5, 5⟩ 0 (some []) (some [])
          ⟨0, 5⟩ ⟨0, 6⟩).state [])
      [9] 1 0).rc = some OS_QUEUE_FULL :=
  ⟨(C17_queue_capacity ⟨2, 1⟩ ⟨[], [], 0, 0, 5, 5, 5⟩ 0 (some []) (some []) ⟨0, 5⟩ ⟨0, 6⟩
      [([7], 1, 0)] [8] 1 0 (by decide)).1 (by decide),
   ((C17_queue_capacity ⟨2, 1⟩ ⟨[], [], 0, 0, 5, 5, 5⟩ 0 (some []) (some []) ⟨0, 5⟩ ⟨0, 6⟩
      [([7], 1, 0), ([8], 1, 0)] [9] 1 0 (by decide)).2 (by decide)).1,
   ((C17_queue_capacity ⟨0, 1⟩ ⟨[], [], 0, 0, 5, 5, 5⟩ 0 (some []) (some []) ⟨0, 5⟩ ⟨0, 6⟩
      [] [9] 1 0 (by decide)).2 (by decide)).1⟩

theorem OS_QueuePut_Impl_sizeInv (queue : OS_queue_internal_record_t)
    (impl : OS_impl_queue_internal_record_t) (data : List Nat) (size flags : Nat)
    (h : QueueSizeInv queue impl) :
    QueueSizeInv queue (OS_QueuePut_Impl queue impl data size flags).state := by
  unfold OS_QueuePut_Impl QueueSizeInv at *
  by_cases hf : impl.current_size = (queue.max_depth : Int)
  · simp [hf]
  · simp only [hf, if_false]
    constructor <;> omega

theorem OS_QueueGet_deliver_sizeInv (queue : OS_queue_internal_record_t)
    (impl : OS_impl_queue_internal_record_t) (h : QueueSizeInv queue impl)
    (hne : impl.current_size ≠ 0) :
    QueueSizeInv queue (OS_QueueGet_deliver queue impl).1 := by
  unfold OS_QueueGet_deliver QueueSizeInv at *
  simp only
  constructor <;> omega

theorem QueueWake.wake_sizeInv (queue : OS_queue_internal_record_t) (w : QueueWake)
    (impl : OS_impl_queue_internal_record_t) (h : QueueSizeInv queue impl) :
    QueueSizeInv queue (w.wake queue impl) := by
  unfold QueueWake.wake
  generalize w.env = env
  induction env generalizing impl with
  | nil => exact h
  | cons e es ih =>
    apply ih
    cases e with
    | put data size => exact OS_QueuePut_Impl_sizeInv queue impl data size 0 h
    | get =>
      simp only [QueueEnv.apply]
      split_ifs with hz
      · exact h
      · exact OS_QueueGet_deliver_sizeInv queue impl h hz

theorem OS_QueueGet_loop_sizeInv (queue : OS_queue_internal_record_t) (timeoutUs : Int)
    (waits : List QueueWake) :
    ∀ impl : OS_impl_queue_internal_record_t, QueueSizeInv queue impl →
      QueueSizeInv queue (OS_QueueGet_loop queue timeoutUs impl waits).2.1 ∧
      ((OS_QueueGet_loop queue timeoutUs impl waits).1 = .ready →
        (OS_QueueGet_loop queue timeoutUs impl waits).2.1.current_size ≠ 0) := by
  induction waits with
  | nil =>
    intro impl h
    unfold OS_QueueGet_loop
    by_cases hz : impl.current_size = 0
    · simp [hz, h]
    · simp [hz, h]
  | cons w ws ih =>
    intro impl h
    unfold OS_QueueGet_loop
    by_cases hz : impl.current_size = 0
    · rw [if_pos hz]
      by_cases ht : w.status = -ETIME
      · simp only [if_pos ht]
        exact ⟨QueueWake.wake_sizeInv queue w impl h, fun hh => by simp at hh⟩
      · simp only [if_neg ht]
        exact ih _ (QueueWake.wake_sizeInv queue w impl h)
    · rw [if_neg hz]
      exact ⟨h, fun _ => hz⟩

theorem OS_QueueGet_Impl_state (queue : OS_queue_internal_record_t)
    (impl : OS_impl_queue_internal_record_t) (size : Nat) (timeout : Int)
    (waits : List QueueWake) :
    ((OS_QueueGet_Impl queue impl size timeout waits).1.rc = some OS_SUCCESS →
      (OS_QueueGet_loop queue (OS_QueueGet_timeoutUs timeout) impl waits).1 = .ready ∧
      (OS_QueueGet_Impl queue impl size timeout waits).1.state
        = (OS_QueueGet_deliver queue
            (OS_QueueGet_loop queue (OS_QueueGet_timeoutUs timeout) impl waits).2.1).1) ∧
    ((OS_QueueGet_Impl queue impl size timeout waits).1.rc ≠ some OS_SUCCESS →
      (OS_QueueGet_Impl queue impl size timeout waits).1.state
        = (OS_QueueGet_loop queue (OS_QueueGet_timeoutUs timeout) impl waits).2.1) := by
  unfold OS_QueueGet_Impl
  simp only
  split
  · next h => simp
  · next h => simp [OS_SUCCESS, OS_QUEUE_TIMEOUT]
  · next h => simp [h]

theorem QueueOp.run_sizeInv (queue : OS_queue_internal_record_t) (op : QueueOp)
    (impl : OS_impl_queue_internal_record_t) (h : QueueSizeInv queue impl) :
    QueueSizeInv queue (op.run queue impl).state := by
  cases op with
  | put data size flags => exact OS_QueuePut_Impl_sizeInv queue impl data size flags h
  | get size timeout waits =>
    simp only [QueueOp.run]
    obtain ⟨hl, hr⟩ := OS_QueueGet_loop_sizeInv queue (OS_QueueGet_timeoutUs timeout) waits
      impl h
    obtain ⟨h1, h2⟩ := OS_QueueGet_Impl_state queue impl size timeout waits
    by_cases hrc : (OS_QueueGet_Impl queue impl size timeout waits).1.rc = some OS_SUCCESS
    · rw [(h1 hrc).2]
      exact OS_QueueGet_deliver_sizeInv queue _ hl (hr (h1 hrc).1)
    · rw [h2 hrc]
      exact hl

theorem runQueueOps_sizeInv (queue : OS_queue_internal_record_t) (ops : List QueueOp) :
    ∀ impl : OS_impl_queue_internal_record_t, QueueSizeInv queue impl →
      QueueSizeInv queue (runQueueOps queue impl ops) := by
  induction ops with
  | nil => intro impl h; exact h
  | cons op ops ih => intro impl h; exact ih _ (QueueOp.run_sizeInv queue op impl h)

theorem OS_QueueGet_loop_quiet (queue : OS_queue_internal_record_t) (timeoutUs : Int)
    (waits : List QueueWake) (impl : OS_impl_queue_internal_record_t)
    (h : ∀ w ∈ waits, w.env = []) :
    (OS_QueueGet_loop queue timeoutUs impl waits).2.1 = impl := by
  induction waits with
  | nil =>
    unfold OS_QueueGet_loop
    split_ifs <;> rfl
  | cons w ws ih =>
    have hw : w.wake queue impl = impl := by
      simp [QueueWake.wake, h w (by simp)]
    unfold OS_QueueGet_loop
    by_cases hz : impl.current_size = 0
    · rw [if_pos hz]
      by_cases ht : w.status = -ETIME
      · simp only [if_pos ht, hw]
      · simp only [if_neg ht, hw]
        exact ih (fun x hx => h x (by simp [hx]))
    · rw [if_neg hz]

/-- C19: (1) after a successful create and after every sequence of puts and gets,
whatever the kernel answers and whatever other threads put or get during the
waits, `0 ≤ current_size ≤ max_depth`; (2) a put never changes `head`, and a put
that does not return `OS_SUCCESS` (`OS_QUEUE_FULL`) leaves the whole record
unchanged; (3) a get writes neither `tail` nor the stored messages, and a get
that does not return `OS_SUCCESS` (`OS_QUEUE_TIMEOUT`, or still blocked) leaves
the record exactly as its wait loop found it, which (4) is the record it started
from when no other thread touched the queue meanwhile. -/
theorem C19_queue_ring_invariant (queue : OS_queue_internal_record_t)
    (slot impl : OS_impl_queue_internal_record_t) (flags : Nat)
    (mMessages : Option (List OS_impl_queue_internal_message_t))
    (mData : Option (List Nat)) (kcond klock : KCreate) (ops : List QueueOp)
    (data : List Nat) (size flags1 : Nat) (timeout : Int) (waits : List QueueWake) :
    ((OS_QueueCreate_Impl queue slot flags mMessages mData kcond klock).rc
        = some OS_SUCCESS →
      QueueSizeInv queue (runQueueOps queue
        (OS_QueueCreate_Impl queue slot flags mMessages mData kcond klock).state ops)) ∧
    ((OS_QueuePut_Impl queue impl data size flags1).state.head = impl.head ∧
      ((OS_QueuePut_Impl queue impl data size flags1).rc ≠ some OS_SUCCESS →
        (OS_QueuePut_Impl queue impl data size flags1).rc = some OS_QUEUE_FULL ∧
        (OS_QueuePut_Impl queue impl data size flags1).state = impl)) ∧
    ((OS_QueueGet_Impl queue impl size timeout waits).1.state.tail
        = (OS_QueueGet_loop queue (OS_QueueGet_timeoutUs timeout) impl waits).2.1.tail ∧
      (OS_QueueGet_Impl queue impl size timeout waits).1.state.messages
        = (OS_QueueGet_loop queue (OS_QueueGet_timeoutUs timeout) impl waits).2.1.messages ∧
      (OS_QueueGet_Impl queue impl size timeout waits).1.state.data_block
        = (OS_QueueGet_loop queue (OS_QueueGet_timeoutUs timeout) impl waits).2.1.data_block ∧
      ((OS_QueueGet_Impl queue impl size timeout waits).1.rc ≠ some OS_SUCCESS →
        (OS_QueueGet_Impl queue impl size timeout waits).1.state
          = (OS_QueueGet_loop queue (OS_QueueGet_timeoutUs timeout) impl waits).2.1)) ∧
    ((∀ w ∈ waits, w.env = []) →
      (OS_QueueGet_loop queue (OS_QueueGet_timeoutUs timeout) impl waits).2.1 = impl) := by
  refine ⟨fun hc => ?_, ⟨?_, fun hrc => ?_⟩, ?_, fun hq => OS_QueueGet_loop_quiet _ _ _ _ hq⟩
  · obtain ⟨_, _, hs, _, _⟩ :=
      OS_QueueCreate_Impl_fresh queue slot flags mMessages mData kcond klock hc
    apply runQueueOps_sizeInv
    unfold QueueSizeInv
    rw [hs]
    exact ⟨le_refl 0, by omega⟩
  · unfold OS_QueuePut_Impl
    split_ifs <;> rfl
  · unfold OS_QueuePut_Impl at hrc ⊢
    by_cases hf : impl.current_size = (queue.max_depth : Int)
    · simp [hf]
    · simp [hf] at hrc
  · obtain ⟨h1, h2⟩ := OS_QueueGet_Impl_state queue impl size timeout waits
    by_cases hrc : (OS_QueueGet_Impl queue impl size timeout waits).1.rc = some OS_SUCCESS
    · rw [(h1 hrc).2]
      exact ⟨rfl, rfl, rfl, fun hn => absurd hrc hn⟩
    · rw [h2 hrc]
      exact ⟨rfl, rfl, rfl, fun _ => rfl⟩

/-- Witness of C19: depth 2; a put, a refused get attempt by time-out on the
emptied queue, puts up to the refusal. -/
theorem C19_queue_ring_invariant_witness :
    QueueSizeInv ⟨2, 1⟩ (runQueueOps ⟨2, 1⟩
      (OS_QueueCreate_Impl ⟨2, 1⟩ ⟨[], [], 0, 0, 5, 5, 5⟩ 0 (some []) (some [])
        ⟨0, 5⟩ ⟨0, 6⟩).state
      [.put [7] 1 0, .get 1 10 [], .get 1 10 [⟨-ETIME, []⟩], .put [8] 1 0, .put [9] 1 0,
       .put [4] 1 0]) ∧
    (OS_QueueGet_loop ⟨2, 1⟩ (OS_QueueGet_timeoutUs 10) ⟨[⟨0, 0⟩, ⟨0, 0⟩], [0, 0], 5, 6, 0, -1, 0⟩
      [⟨-ETIME, []⟩]).2.1 = ⟨[⟨0, 0⟩, ⟨0, 0⟩], [0, 0], 5, 6, 0, -1, 0⟩ :=
  ⟨(C19_queue_ring_invariant ⟨2, 1⟩ ⟨[], [], 0, 0, 5, 5, 5⟩
      ⟨[⟨0, 0⟩, ⟨0, 0⟩], [0, 0], 5, 6, 0, -1, 0⟩ 0 (some []) (some []) ⟨0, 5⟩ ⟨0, 6⟩
      [.put [7] 1 0, .get 1 10 [], .get 1 10 [⟨-ETIME, []⟩], .put [8] 1 0, .put [9] 1 0,
       .put [4] 1 0] [7] 1 0 10 [⟨-ETIME, []⟩]).1 (by decide),
   (C19_queue_ring_invariant ⟨2, 1⟩ ⟨[], [], 0, 0, 5, 5, 5⟩
      ⟨[⟨0, 0⟩, ⟨0, 0⟩], [0, 0], 5, 6, 0, -1, 0⟩ 0 (some []) (some []) ⟨0, 5⟩ ⟨0, 6⟩
      [.put [7] 1 0, .get 1 10 [], .get 1 10 [⟨-ETIME, []⟩], .put [8] 1 0, .put [9] 1 0,
       .put [4] 1 0] [7] 1 0 10 [⟨-ETIME, []⟩]).2.2.2 (by decide)⟩

theorem memcpyInto_succ (block : List Nat) (off : Nat) (data : List Nat) (size : Nat) :
    memcpyInto block off data (size + 1)
      = (memcpyInto block off data size).set (off + size) (data.getD size 0) := by
  simp [memcpyInto, List.range_succ, List.foldl_append]

theorem memcpyInto_length (block : List Nat) (off : Nat) (data : List Nat) (size : Nat) :
    (memcpyInto block off data size).length = block.length := by
  induction size with
  | zero => simp [memcpyInto]
  | succ n ih => rw [memcpyInto_succ, List.length_set, ih]

theorem memcpyInto_getD (block : List Nat) (off : Nat) (data : List Nat) (size j : Nat) :
    (memcpyInto block off data size).getD j 0
      = if off ≤ j ∧ j < off + size ∧ j < block.length then data.getD (j - off) 0
        else block.getD j 0 := by
  induction size with
  | zero =>
    rw [if_neg (by omega)]
    simp [memcpyInto]
  | succ n ih =>
    rw [memcpyInto_succ, List.getD_eq_getElem?_getD, List.getElem?_set, memcpyInto_length]
    by_cases hj : off + n = j
    · subst hj
      by_cases hl : off + n < block.length
      · simp [hl]
      · have : block.length ≤ off + n := by omega
        simp [hl, List.getElem?_eq_none this]
    · rw [if_neg hj, ← List.getD_eq_getElem?_getD, ih]
      by_cases hc : off ≤ j ∧ j < off + n ∧ j < block.length
      · rw [if_pos hc, if_pos ⟨hc.1, by omega, hc.2.2⟩]
      · rw [if_neg hc, if_neg]
        intro hh
        exact hc ⟨hh.1, by omega, hh.2.2⟩

theorem memcpyFrom_memcpyInto_same (block : List Nat) (off : Nat) (data : List Nat)
    (size : Nat) (h : off + size ≤ block.length) :
    memcpyFrom (memcpyInto block off data size) off size
      = (List.range size).map (fun i => data.getD i 0) := by
  unfold memcpyFrom
  apply List.map_congr_left
  intro i hi
  rw [List.mem_range] at hi
  rw [memcpyInto_getD, if_pos ⟨by omega, by omega, by omega⟩]
  simp

theorem memcpyFrom_memcpyInto_disjoint (block : List Nat) (off off1 : Nat) (data : List Nat)
    (size size1 : Nat) (h : off1 + size1 ≤ off ∨ off + size ≤ off1) :
    memcpyFrom (memcpyInto block off data size) off1 size1 = memcpyFrom block off1 size1 := by
  unfold memcpyFrom
  apply List.map_congr_left
  intro i hi
  rw [List.mem_range] at hi
  rw [memcpyInto_getD, if_neg]
  intro hh
  omega

theorem slot_ne (h i len N : Nat) (hi : i < len) (hlen : len < N) :
    (h + i) % N ≠ (h + len) % N := by
  intro heq
  have h1 : (h + len) % N = ((h + i) % N + (len - i)) % N := by
    rw [Nat.mod_add_mod]; congr 1; omega
  rw [heq] at h1
  have h2 : ((h + len) % N + (len - i)) % N = (h + len) % N := h1.symm
  have hlt : (h + len) % N < N := Nat.mod_lt _ (by omega)
  by_cases hc : (h + len) % N + (len - i) < N
  · rw [Nat.mod_eq_of_lt hc] at h2; omega
  · have : ((h + len) % N + (len - i)) % N = (h + len) % N + (len - i) - N := by
      rw [Nat.mod_eq_sub_mod (by omega), Nat.mod_eq_of_lt (by omega)]
    rw [this] at h2; omega

theorem slot_ranges_disjoint (a b M sa sb : Nat) (hne : a ≠ b) (ha : sa ≤ M) (hb : sb ≤ M) :
    a * M + sa ≤ b * M ∨ b * M + sb ≤ a * M := by
  rcases Nat.lt_or_gt_of_ne hne with h | h
  · left
    have : (a + 1) * M ≤ b * M := Nat.mul_le_mul_right M h
    rw [Nat.succ_mul] at this
    omega
  · right
    have : (b + 1) * M ≤ a * M := Nat.mul_le_mul_right M h
    rw [Nat.succ_mul] at this
    omega
theorem OS_QueuePut_Impl_rep (queue : OS_queue_internal_record_t)
    (impl : OS_impl_queue_internal_record_t) (pending : List (Nat × List Nat))
    (data : List Nat) (size flags : Nat) (h : QueueRep queue impl pending)
    (hsize : size ≤ queue.max_size) (hroom : impl.current_size ≠ (queue.max_depth : Int)) :
    QueueRep queue (OS_QueuePut_Impl queue impl data size flags).state
      (pending ++ [(size, putBytes data size)]) := by
  obtain ⟨hN, hml, hdl, hh0, hhN, hcs, hlen, htail, hslots⟩ := h
  obtain ⟨hd, hhd⟩ := Int.eq_ofNat_of_zero_le hh0
  have hlenlt : pending.length < queue.max_depth := by
    rw [hcs] at hroom
    have : (pending.length : Int) ≠ (queue.max_depth : Int) := hroom
    have : pending.length ≠ queue.max_depth := fun hh => this (by rw [hh])
    omega
  have hhdN : hd < queue.max_depth := by rw [hhd] at hhN; exact_mod_cast hhN
  have htoNat : impl.head.toNat = hd := by rw [hhd]; simp
  -- the slot written
  have htl : (impl.tail + 1) % (queue.max_depth : Int)
      = (((hd + pending.length) % queue.max_depth : Nat) : Int) := by
    rw [htail, hhd]; push_cast; rfl
  have htlNat : ((impl.tail + 1) % (queue.max_depth : Int)).toNat
      = (hd + pending.length) % queue.max_depth := by rw [htl, Int.toNat_ofNat]
  have hslotlt : (hd + pending.length) % queue.max_depth < queue.max_depth :=
    Nat.mod_lt _ (by omega)
  have hfit : (hd + pending.length) % queue.max_depth * queue.max_size + size
      ≤ impl.data_block.length := by
    rw [hdl]
    have : ((hd + pending.length) % queue.max_depth + 1) * queue.max_size
        ≤ queue.max_depth * queue.max_size := Nat.mul_le_mul_right _ hslotlt
    rw [Nat.succ_mul] at this
    omega
  unfold OS_QueuePut_Impl
  rw [if_neg hroom]
  simp only [htlNat]
  refine ⟨hN, ?_, ?_, hh0, hhN, ?_, ?_, ?_, ?_⟩
  · simp [hml]
  · simp [memcpyInto_length, hdl]
  · simp [hcs]
  · simp; omega
  · simp only [List.length_append, List.length_singleton, Nat.cast_add, Nat.cast_one]
    rw [htail, Int.emod_add_emod]
    congr 1
    ring
  · intro i m hi
    simp only [htoNat]
    by_cases hil : i < pending.length
    · rw [List.getElem?_append_left hil] at hi
      obtain ⟨h1, h2, h3⟩ := hslots i m hi
      rw [htoNat] at h1 h3
      have hne : (hd + pending.length) % queue.max_depth ≠ (hd + i) % queue.max_depth :=
        fun hh => slot_ne hd i pending.length queue.max_depth hil hlenlt hh.symm
      refine ⟨?_, h2, ?_⟩
      · rw [List.getElem?_set_ne hne]; exact h1
      · rw [memcpyFrom_memcpyInto_disjoint _ _ _ _ _ _
          (slot_ranges_disjoint _ _ _ _ _ (Ne.symm hne) h2 hsize)]
        exact h3
    · have hieq : i = pending.length := by
        have hlt : i < (pending ++ [(size, putBytes data size)]).length := by
          by_contra hc
          rw [List.getElem?_eq_none (by omega)] at hi
          exact absurd hi (by simp)
        simp at hlt
        omega
      subst hieq
      rw [List.getElem?_append_right (le_refl _)] at hi
      simp at hi
      subst hi
      refine ⟨?_, hsize, ?_⟩
      · rw [List.getElem?_set_self (by rw [hml]; exact hslotlt)]
      · exact memcpyFrom_memcpyInto_same _ _ _ _ hfit

theorem OS_QueueGet_deliver_rep (queue : OS_queue_internal_record_t)
    (impl : OS_impl_queue_internal_record_t) (m : Nat × List Nat)
    (rest : List (Nat × List Nat)) (h : QueueRep queue impl (m :: rest)) :
    (OS_QueueGet_deliver queue impl).2 = m ∧
    QueueRep queue (OS_QueueGet_deliver queue impl).1 rest := by
  obtain ⟨hN, hml, hdl, hh0, hhN, hcs, hlen, htail, hslots⟩ := h
  obtain ⟨hd, hhd⟩ := Int.eq_ofNat_of_zero_le hh0
  have hhdN : hd < queue.max_depth := by rw [hhd] at hhN; exact_mod_cast hhN
  have htoNat : impl.head.toNat = hd := by rw [hhd]; simp
  have hnew : (impl.head + 1) % (queue.max_depth : Int)
      = (((hd + 1) % queue.max_depth : Nat) : Int) := by
    rw [hhd]; push_cast; rfl
  obtain ⟨h01, h02, h03⟩ := hslots 0 m (by simp)
  rw [htoNat, Nat.add_zero, Nat.mod_eq_of_lt hhdN] at h01 h03
  unfold OS_QueueGet_deliver
  simp only [htoNat, List.getD_eq_getElem?_getD, h01, Option.getD_some]
  refine ⟨?_, hN, hml, hdl, ?_, ?_, ?_, ?_, ?_, ?_⟩
  · rw [h03]
  · exact Int.emod_nonneg _ (by omega)
  · exact Int.emod_lt_of_pos _ (by omega)
  · rw [hcs]; simp
  · simp at hlen; omega
  · rw [htail, Int.emod_add_emod]
    congr 1
    simp only [List.length_cons, Nat.cast_add, Nat.cast_one]
    ring
  · intro i mi hi
    have := hslots (i + 1) mi (by simpa using hi)
    rw [htoNat] at this
    rw [hnew]
    simp only [Int.toNat_ofNat]
    have hs : ((hd + 1) % queue.max_depth + i) % queue.max_depth
        = (hd + (i + 1)) % queue.max_depth := by
      rw [Nat.mod_add_mod]; congr 1; omega
    rw [hs]
    exact this
theorem QueueLogInv_put (queue : OS_queue_internal_record_t)
    (impl : OS_impl_queue_internal_record_t) (log : List QueueEvent) (data : List Nat)
    (size flags : Nat) (h : QueueLogInv queue impl log) (hsize : size ≤ queue.max_size) :
    QueueLogInv queue (OS_QueuePut_Impl queue impl data size flags).state
      (log ++ putEvents queue impl data size flags) := by
  obtain ⟨pending, hrep, hlog⟩ := h
  by_cases hfull : impl.current_size = (queue.max_depth : Int)
  · have hst : (OS_QueuePut_Impl queue impl data size flags).state = impl := by
      unfold OS_QueuePut_Impl; simp [hfull]
    have hev : putEvents queue impl data size flags = [] := by
      unfold putEvents OS_QueuePut_Impl; simp [hfull, OS_QUEUE_FULL, OS_SUCCESS]
    rw [hst, hev, List.append_nil]
    exact ⟨pending, hrep, hlog⟩
  · have hev : putEvents queue impl data size flags = [.put size (putBytes data size)] := by
      unfold putEvents OS_QueuePut_Impl; simp [hfull]
    rw [hev]
    refine ⟨pending ++ [(size, putBytes data size)],
      OS_QueuePut_Impl_rep queue impl pending data size flags hrep hsize hfull, ?_⟩
    simp only [putsOf, gotsOf, List.filterMap_append] at hlog ⊢
    rw [hlog]
    simp

theorem QueueLogInv_deliver (queue : OS_queue_internal_record_t)
    (impl : OS_impl_queue_internal_record_t) (log : List QueueEvent)
    (h : QueueLogInv queue impl log) (hne : impl.current_size ≠ 0) :
    QueueLogInv queue (OS_QueueGet_deliver queue impl).1
      (log ++ [.got (OS_QueueGet_deliver queue impl).2.1
        (OS_QueueGet_deliver queue impl).2.2]) := by
  obtain ⟨pending, hrep, hlog⟩ := h
  cases pending with
  | nil =>
    exfalso
    apply hne
    rw [hrep.2.2.2.2.2.1]
    rfl
  | cons m rest =>
    obtain ⟨hm, hrest⟩ := OS_QueueGet_deliver_rep queue impl m rest hrep
    refine ⟨rest, hrest, ?_⟩
    rw [hm]
    simp only [putsOf, gotsOf, List.filterMap_append] at hlog ⊢
    rw [hlog]
    simp

theorem QueueLogInv_env (queue : OS_queue_internal_record_t) (env : List QueueEnv) :
    ∀ (impl : OS_impl_queue_internal_record_t) (log : List QueueEvent),
      env.all (QueueEnv.sizeOk queue.max_size) = true → QueueLogInv queue impl log →
      QueueLogInv queue (env.foldl (fun s e => e.apply queue s) impl)
        (log ++ envEvents queue env impl) := by
  induction env with
  | nil => intro impl log _ h; simpa [envEvents] using h
  | cons e es ih =>
    intro impl log hs h
    simp only [List.all_cons, Bool.and_eq_true] at hs
    cases e with
    | put data size =>
      have hsz : size ≤ queue.max_size := by simpa [QueueEnv.sizeOk] using hs.1
      have := ih _ _ hs.2 (QueueLogInv_put queue impl log data size 0 h hsz)
      simpa [envEvents, List.append_assoc, QueueEnv.apply] using this
    | get =>
      by_cases hz : impl.current_size = 0
      · have := ih impl log hs.2 h
        simpa [envEvents, QueueEnv.apply, hz] using this
      · have := ih _ _ hs.2 (QueueLogInv_deliver queue impl log h hz)
        simpa [envEvents, QueueEnv.apply, hz, List.append_assoc] using this

theorem OS_QueueGet_loop_ready (queue : OS_queue_internal_record_t) (timeoutUs : Int)
    (waits : List QueueWake) :
    ∀ impl : OS_impl_queue_internal_record_t,
      (OS_QueueGet_loop queue timeoutUs impl waits).1 = .ready →
      (OS_QueueGet_loop queue timeoutUs impl waits).2.1.current_size ≠ 0 := by
  induction waits with
  | nil =>
    intro impl
    unfold OS_QueueGet_loop
    by_cases hz : impl.current_size = 0
    · simp [hz]
    · simp [hz]
  | cons w ws ih =>
    intro impl
    unfold OS_QueueGet_loop
    by_cases hz : impl.current_size = 0
    · rw [if_pos hz]
      by_cases ht : w.status = -ETIME
      · simp [ht]
      · simp only [if_neg ht]
        exact ih _
    · rw [if_neg hz]
      exact fun _ => hz

theorem QueueLogInv_loop (queue : OS_queue_internal_record_t) (timeoutUs : Int)
    (waits : List QueueWake) :
    ∀ (impl : OS_impl_queue_internal_record_t) (log : List QueueEvent),
      waits.all (fun w => w.env.all (QueueEnv.sizeOk queue.max_size)) = true →
      QueueLogInv queue impl log →
      QueueLogInv queue (OS_QueueGet_loop queue timeoutUs impl waits).2.1
        (log ++ OS_QueueGet_loop_events queue impl waits) := by
  induction waits with
  | nil =>
    intro impl log _ h
    unfold OS_QueueGet_loop OS_QueueGet_loop_events
    by_cases hz : impl.current_size = 0
    · simpa [hz] using h
    · simpa [hz] using h
  | cons w ws ih =>
    intro impl log hs h
    simp only [List.all_cons, Bool.and_eq_true] at hs
    have hw := QueueLogInv_env queue w.env impl log hs.1 h
    unfold OS_QueueGet_loop OS_QueueGet_loop_events
    by_cases hz : impl.current_size = 0
    · rw [if_pos hz, if_pos hz]
      by_cases ht : w.status = -ETIME
      · simp only [if_pos ht, List.append_nil]
        exact hw
      · simp only [if_neg ht]
        have := ih (w.wake queue impl) _ hs.2 hw
        simpa [List.append_assoc] using this
    · rw [if_neg hz, if_neg hz, List.append_nil]
      exact h

theorem QueueLogInv_op (queue : OS_queue_internal_record_t) (op : QueueOp)
    (impl : OS_impl_queue_internal_record_t) (log : List QueueEvent)
    (hs : op.sizesOk queue.max_size = true) (h : QueueLogInv queue impl log) :
    QueueLogInv queue (op.run queue impl).state (log ++ op.events queue impl) := by
  cases op with
  | put data size flags =>
    exact QueueLogInv_put queue impl log data size flags h
      (by simpa [QueueOp.sizesOk] using hs)
  | get size timeout waits =>
    have hl := QueueLogInv_loop queue (OS_QueueGet_timeoutUs timeout) waits impl log
      (by simpa [QueueOp.sizesOk] using hs) h
    have hr := OS_QueueGet_loop_ready queue (OS_QueueGet_timeoutUs timeout) waits impl
    simp only [QueueOp.run, QueueOp.events]
    unfold OS_QueueGet_Impl
    simp only
    split
    · next hx => simpa using hl
    · next hx => simpa using hl
    · next hx =>
      have := QueueLogInv_deliver queue _ _ hl (hr hx)
      simpa [List.append_assoc] using this

theorem QueueLogInv_ops (queue : OS_queue_internal_record_t) (ops : List QueueOp) :
    ∀ (impl : OS_impl_queue_internal_record_t) (log : List QueueEvent),
      (∀ op ∈ ops, op.sizesOk queue.max_size = true) → QueueLogInv queue impl log →
      QueueLogInv queue (runQueueOps queue impl ops) (log ++ queueLog queue impl ops) := by
  induction ops with
  | nil => intro impl log _ h; simpa [runQueueOps, queueLog] using h
  | cons op ops ih =>
    intro impl log hs h
    have h1 := QueueLogInv_op queue op impl log (hs op (by simp)) h
    have := ih _ _ (fun o ho => hs o (by simp [ho])) h1
    simpa [runQueueOps, queueLog, List.append_assoc] using this

/-- C18: on a queue created with `max_depth ≥ 1`, in every sequence of puts and
gets (with any answers of the kernel, and any puts and gets of other threads
during the waits) in which every put has a size of at most `max_size`, the k-th
successful get returns exactly the size and the bytes of the k-th successful
put. -/
theorem C18_queue_fifo (queue : OS_queue_internal_record_t)
    (slot : OS_impl_queue_internal_record_t) (flags : Nat)
    (mMessages : Option (List OS_impl_queue_internal_message_t))
    (mData : Option (List Nat)) (kcond klock : KCreate) (ops : List QueueOp) (k : Nat)
    (hc : (OS_QueueCreate_Impl queue slot flags mMessages mData kcond klock).rc
      = some OS_SUCCESS)
    (hN : 1 ≤ queue.max_depth)
    (hs : ∀ op ∈ ops, op.sizesOk queue.max_size = true)
    (hk : k < (gotsOf (queueLog queue
      (OS_QueueCreate_Impl queue slot flags mMessages mData kcond klock).state ops)).length) :
    (gotsOf (queueLog queue
      (OS_QueueCreate_Impl queue slot flags mMessages mData kcond klock).state ops))[k]?
    = (putsOf (queueLog queue
      (OS_QueueCreate_Impl queue slot flags mMessages mData kcond klock).state ops))[k]? := by
  obtain ⟨hh, ht, hcs, hml, hdl⟩ :=
    OS_QueueCreate_Impl_fresh queue slot flags mMessages mData kcond klock hc
  have h0 : QueueLogInv queue
      (OS_QueueCreate_Impl queue slot flags mMessages mData kcond klock).state [] := by
    refine ⟨[], ⟨hN, hml, hdl, ?_, ?_, ?_, ?_, ?_, ?_⟩, rfl⟩
    · rw [hh]
    · rw [hh]; exact_mod_cast hN
    · rw [hcs]; rfl
    · simp
    · rw [hh, ht]; simp
    · intro i m hi; simp at hi
  obtain ⟨pending, _, hlog⟩ := QueueLogInv_ops queue ops _ [] hs h0
  simp only [List.nil_append] at hlog
  rw [hlog, List.getElem?_append_left hk]

/-- Witness of C18: depth 2, messages of at most 2 bytes; three puts (the third
refused), a get, a put, and two gets, the last one woken by another thread's
put. -/
theorem C18_queue_fifo_witness :
    (gotsOf (queueLog ⟨2, 2⟩
      (OS_QueueCreate_Impl ⟨2, 2⟩ ⟨[], [], 0, 0, 5, 5, 5⟩ 0 (some []) (some [])
        ⟨0, 5⟩ ⟨0, 6⟩).state
      [.put [1, 2] 2 0, .put [3] 1 0, .put [4] 1 0, .get 2 0 [], .put [5, 6] 2 0,
       .get 2 0 [], .get 2 0 [], .get 2 0 [⟨0, [.put [9] 1]⟩]]))[3]?
    = (putsOf (queueLog ⟨2, 2⟩
      (OS_QueueCreate_Impl ⟨2, 2⟩ ⟨[], [], 0, 0, 5, 5, 5⟩ 0 (some []) (some [])
        ⟨0, 5⟩ ⟨0, 6⟩).state
      [.put [1, 2] 2 0, .put [3] 1 0, .put [4] 1 0, .get 2 0 [], .put [5, 6] 2 0,
       .get 2 0 [], .get 2 0 [], .get 2 0 [⟨0, [.put [9] 1]⟩]]))[3]? ∧
    gotsOf (queueLog ⟨2, 2⟩
      (OS_QueueCreate_Impl ⟨2, 2⟩ ⟨[], [], 0, 0, 5, 5, 5⟩ 0 (some []) (some [])
        ⟨0, 5⟩ ⟨0, 6⟩).state
      [.put [1, 2] 2 0, .put [3] 1 0, .put [4] 1 0, .get 2 0 [], .put [5, 6] 2 0,
       .get 2 0 [], .get 2 0 [], .get 2 0 [⟨0, [.put [9] 1]⟩]])
      = [(2, [1, 2]), (1, [3]), (2, [5, 6]), (1, [9])] :=
  ⟨C18_queue_fifo ⟨2, 2⟩ ⟨[], [], 0, 0, 5, 5, 5⟩ 0 (some []) (some []) ⟨0, 5⟩ ⟨0, 6⟩
      [.put [1, 2] 2 0, .put [3] 1 0, .put [4] 1 0, .get 2 0 [], .put [5, 6] 2 0,
       .get 2 0 [], .get 2 0 [], .get 2 0 [⟨0, [.put [9] 1]⟩]] 3
      (by decide) (by decide) (by decide) (by decide),
   by decide⟩

/-! ## Theorems: arming, budgets, tasks -/

/-- On a simulating timebase `OS_TimeBaseSet_Impl` sets `active`, whatever the
start time. -/
theorem OS_TimeBaseSet_Impl_active (local_ : OS_impl_timebase_internal_record_t)
    (timebase : OS_timebase_internal_record_t) (start_time interval_time : Nat)
    (hsim : local_.simulate_flag = true) :
    (OS_TimeBaseSet_Impl local_ timebase start_time interval_time).state.timer.active
      = true := by
  unfold OS_TimeBaseSet_Impl
  simp [hsim]

/-- C21, the code at the failing input: on a created simulating timebase with an
inactive timer, `OS_TimeBaseSet_Impl` with `start_time = 0` sets `active` to true
and signals; the idle timer thread leaves its idle loop and enters the wait of
the start delay (here with the timeout 0), and a later set of (1000, 500) then
ends the thread instead of starting the timer. -/
theorem C21_zero_start_arms_timer :
    (⟨11, 10, 1, false, true, ⟨false, false, false, 0, 0, 2, 3⟩⟩ :
      OS_impl_timebase_internal_record_t).timer.active = false ∧
    (OS_TimeBaseSet_Impl ⟨11, 10, 1, false, true, ⟨false, false, false, 0, 0, 2, 3⟩⟩
      ⟨some .waitImpl, 0⟩ 0 0).state.timer.active = true ∧
    (OS_TimeBaseSet_Impl ⟨11, 10, 1, false, true, ⟨false, false, false, 0, 0, 2, 3⟩⟩
      ⟨some .waitImpl, 0⟩ 0 0).calls = [.mutexLock 2, .condSignal 3, .mutexUnlock 2] ∧
    (OS_TimeBase_TimerThread ⟨11, 10, 1, false, true, ⟨false, false, false, 0, 0, 2, 3⟩⟩
      [⟨0, [.set 0 0]⟩]).calls = [.mutexLock 2, .condWait 3 2 0, .condWait 3 2 0] ∧
    (OS_TimeBase_TimerThread ⟨11, 10, 1, false, true, ⟨false, false, false, 0, 0, 2, 3⟩⟩
      [⟨0, [.set 0 0]⟩, ⟨0, [.set 1000 500]⟩]).ended = true ∧
    (OS_TimeBase_TimerThread ⟨11, 10, 1, false, true, ⟨false, false, false, 0, 0, 2, 3⟩⟩
      [⟨0, [.set 0 0]⟩, ⟨0, [.set 1000 500]⟩]).calls
      = [.mutexLock 2, .condWait 3 2 0, .condWait 3 2 0, .condSignal 3, .mutexUnlock 2,
         .endthread] := by
  decide

/-- C22: with `OS_MAX_TASK_PRIORITY = 255`, for every `InputPri` in [0, 255]
`OS_PriorityRemap` returns `InputPri / 32`, which lies in [0, 7]. -/
theorem C22_priority_remap_range (InputPri : Nat) (h : InputPri ≤ 255) :
    OS_PriorityRemap 255 InputPri = ((InputPri / 32 : Nat) : Int) ∧
    0 ≤ OS_PriorityRemap 255 InputPri ∧ OS_PriorityRemap 255 InputPri ≤ 7 := by
  have h32 : (255 + 1) / (OS_PHOENIX_MAX_PRIORITY + 1) = 32 := by decide
  unfold OS_PriorityRemap
  rw [h32]
  refine ⟨rfl, by omega, by omega⟩

/-- Witness of C22: the two ends of the range. -/
theorem C22_priority_remap_range_witness :
    (OS_PriorityRemap 255 255 = ((255 / 32 : Nat) : Int) ∧
      0 ≤ OS_PriorityRemap 255 255 ∧ OS_PriorityRemap 255 255 ≤ 7) ∧
    OS_PriorityRemap 255 255 = 7 ∧ OS_PriorityRemap 255 0 = 0 :=
  ⟨C22_priority_remap_range 255 (by decide), by decide, by decide⟩

theorem OS_GenericBinSemTake_loop_timeouts (timeoutUs : Int) (flush_count : Int)
    (waits : List Wake) :
    ∀ (sem : OS_impl_binsem_internal_record_t) (return_code : Int),
      ∀ t ∈ requestedTimeouts
        (OS_GenericBinSemTake_loop timeoutUs false flush_count sem return_code waits).calls,
      t = timeoutUs := by
  induction waits with
  | nil =>
    intro sem return_code t ht
    unfold OS_GenericBinSemTake_loop at ht
    by_cases hg : sem.current_value = 0 ∧ sem.flush_request = flush_count ∧
        return_code = OS_SUCCESS
    · rw [if_pos hg] at ht
      by_cases h0 : timeoutUs = 0
      · simp [h0, requestedTimeouts] at ht
      · simp [h0, requestedTimeouts] at ht
        exact ht
    · rw [if_neg hg] at ht
      simp [requestedTimeouts] at ht
  | cons w ws ih =>
    intro sem return_code t ht
    unfold OS_GenericBinSemTake_loop at ht
    by_cases hg : sem.current_value = 0 ∧ sem.flush_request = flush_count ∧
        return_code = OS_SUCCESS
    · rw [if_pos hg] at ht
      by_cases h0 : timeoutUs = 0
      · simp [h0, requestedTimeouts] at ht
      · simp only [Bool.false_eq_true, if_false, h0, requestedTimeouts,
          List.filterMap_cons, List.mem_cons] at ht
        rcases ht with ht | ht
        · exact ht
        · exact ih _ _ t ht
    · rw [if_neg hg] at ht
      simp [requestedTimeouts] at ht

/-- Every condition wait of a timed take is given the whole budget. -/
theorem OS_BinSemTimedWait_Impl_timeouts (sem : OS_impl_binsem_internal_record_t)
    (msecs : Nat) (lockRet : Int) (waits : List Wake) :
    ∀ t ∈ requestedTimeouts (OS_BinSemTimedWait_Impl sem msecs lockRet waits).calls,
      t = OS_BinSemTimedWait_timeoutUs msecs := by
  intro t ht
  have hl := OS_GenericBinSemTake_loop_timeouts (OS_BinSemTimedWait_timeoutUs msecs)
    sem.flush_request waits sem OS_SUCCESS t
  unfold OS_BinSemTimedWait_Impl OS_GenericBinSemTake_Impl at ht
  split_ifs at ht
  · simp [requestedTimeouts] at ht
  · simp only at ht
    split at ht
    · apply hl
      simpa [requestedTimeouts] using ht
    · apply hl
      simpa [requestedTimeouts, List.filterMap_append] using ht

/-- C26, the code at the failing input: a timed take of 1 ms (budget 1000
microseconds) on an empty semaphore; the first wait returns without timeout (a
give was taken by another thread), the value is still 0 and the generation
unchanged, so the take waits again, and the second wait is given 1000 again: the
timeouts requested add up to 2000. -/
theorem C26_rewait_gets_full_budget :
    OS_BinSemTimedWait_timeoutUs 1 = 1000 ∧
    (OS_BinSemTimedWait_Impl ⟨1, 2, 0, 0⟩ 1 0 [⟨0, [.give, .take]⟩, ⟨-ETIME, []⟩]).calls
      = [.mutexLock 1, .condWait 2 1 1000, .condWait 2 1 1000, .mutexUnlock 1] ∧
    requestedTimeouts
      (OS_BinSemTimedWait_Impl ⟨1, 2, 0, 0⟩ 1 0 [⟨0, [.give, .take]⟩, ⟨-ETIME, []⟩]).calls
      = [1000, 1000] ∧
    (requestedTimeouts
      (OS_BinSemTimedWait_Impl ⟨1, 2, 0, 0⟩ 1 0
        [⟨0, [.give, .take]⟩, ⟨-ETIME, []⟩]).calls).sum = 2000 ∧
    (OS_BinSemTimedWait_Impl ⟨1, 2, 0, 0⟩ 1 0 [⟨0, [.give, .take]⟩, ⟨-ETIME, []⟩]).rc
      = some OS_SEM_TIMEOUT := by
  decide

/-- When the caller supplies no stack and the leftover heap block is big enough,
`OS_TaskCreate_Impl` leaves `task->stack_pointer` at `NULL` and hands `NULL` to
`beginthreadex`. -/
theorem OS_TaskCreate_Impl_reuse (OS_MAX_TASK_PRIORITY : Nat)
    (impl : OS_impl_task_internal_record_t) (task : OS_task_internal_record_t)
    (flags : Nat) (kmalloc : Option Nat) (kspawn : KSpawn)
    (hnull : task.stack_pointer = none) (hbig : task.stack_size ≤ impl.heap_block_size) :
    (OS_TaskCreate_Impl OS_MAX_TASK_PRIORITY impl task flags kmalloc kspawn).calls
      = [.beginthreadexTask (OS_PriorityRemap OS_MAX_TASK_PRIORITY task.priority) none
          task.stack_size kspawn.ret kspawn.tid] := by
  unfold OS_TaskCreate_Impl
  have : ¬ (task.stack_pointer = none ∧ task.stack_size > impl.heap_block_size) := by
    intro hh; omega
  rw [if_neg this, hnull]

/-- C27, the code at the failing input: no stack supplied, `stack_size` 4096, a
leftover heap block of 8192 bytes at address 8192.  `OS_TaskCreate_Impl` makes
one kernel call, `beginthreadex` with the stack pointer `NULL`; the heap block is
not handed over.  With a leftover block that is too small (1024) the new block is
handed over. -/
theorem C27_leftover_stack_not_used :
    (OS_TaskCreate_Impl 255 ⟨0, some 8192, 8192⟩ ⟨none, 4096, 100⟩ 0 (some 36864)
      ⟨0, 42⟩).calls = [.beginthreadexTask 3 none 4096 0 42] ∧
    (OS_TaskCreate_Impl 255 ⟨0, some 8192, 8192⟩ ⟨none, 4096, 100⟩ 0 (some 36864)
      ⟨0, 42⟩).task.stack_pointer = none ∧
    (OS_TaskCreate_Impl 255 ⟨0, some 8192, 8192⟩ ⟨none, 4096, 100⟩ 0 (some 36864)
      ⟨0, 42⟩).rc = some OS_SUCCESS ∧
    (OS_TaskCreate_Impl 255 ⟨0, some 8192, 1024⟩ ⟨none, 4096, 100⟩ 0 (some 36864)
      ⟨0, 42⟩).calls
      = [.free (some 8192), .malloc 4096 (some 36864),
         .beginthreadexTask 3 (some 36864) 4096 0 42] := by
  decide

/-- Counterexample to C30 as stated: a slot that still holds the times 1000 and
500 and a set `reset_flag` from a previous timebase; after a successful create
the three flags of the timer are false, but `start_time` is 1000,
`interval_time` is 500 and `reset_flag` is true. -/
theorem C30_create_keeps_times_counterexample :
    (OS_TimeBaseCreate_Impl ⟨7, 8, 9, true, false, ⟨true, true, true, 1000, 500, 4, 5⟩⟩
      ⟨none, 0⟩ ⟨⟨0, 1⟩, 0, ⟨0, 2⟩, ⟨0, 3⟩, ⟨0, 10⟩, ⟨0, 11⟩⟩).rc = some OS_SUCCESS ∧
    (OS_TimeBaseCreate_Impl ⟨7, 8, 9, true, false, ⟨true, true, true, 1000, 500, 4, 5⟩⟩
      ⟨none, 0⟩ ⟨⟨0, 1⟩, 0, ⟨0, 2⟩, ⟨0, 3⟩, ⟨0, 10⟩, ⟨0, 11⟩⟩).state
      = ⟨11, 10, 1, true, true, ⟨false, false, false, 1000, 500, 2, 3⟩⟩ ∧
    (OS_TimeBaseCreate_Impl ⟨7, 8, 9, true, false, ⟨true, true, true, 1000, 500, 4, 5⟩⟩
      ⟨none, 0⟩ ⟨⟨0, 1⟩, 0, ⟨0, 2⟩, ⟨0, 3⟩, ⟨0, 10⟩, ⟨0, 11⟩⟩).state.timer.start_time
      ≠ 0 := by
  decide

/-- C30 (amended): after a successful `OS_TimeBaseCreate_Impl` on a simulating
timebase, for every previous content of the slot record, the Timer sub-record has
`active`, `finished` and `finish_rq` false; and `start_time` and `interval_time`
are 0 and `reset_flag` is false when the slot held these values before the call
(a slot left as the initialisation zeroed it). -/
theorem C30_create_idle_amended (slot : OS_impl_timebase_internal_record_t)
    (accuracy : Int) (k : TimeBaseCreateKernel)
    (hrc : (OS_TimeBaseCreate_Impl slot ⟨none, accuracy⟩ k).rc = some OS_SUCCESS) :
    (OS_TimeBaseCreate_Impl slot ⟨none, accuracy⟩ k).state.simulate_flag = true ∧
    (OS_TimeBaseCreate_Impl slot ⟨none, accuracy⟩ k).state.timer.active = false ∧
    (OS_TimeBaseCreate_Impl slot ⟨none, accuracy⟩ k).state.timer.finished = false ∧
    (OS_TimeBaseCreate_Impl slot ⟨none, accuracy⟩ k).state.timer.finish_rq = false ∧
    (slot.timer.start_time = 0 → slot.timer.interval_time = 0 → slot.reset_flag = false →
      (OS_TimeBaseCreate_Impl slot ⟨none, accuracy⟩ k).state.timer.start_time = 0 ∧
      (OS_TimeBaseCreate_Impl slot ⟨none, accuracy⟩ k).state.timer.interval_time = 0 ∧
      (OS_TimeBaseCreate_Impl slot ⟨none, accuracy⟩ k).state.reset_flag = false) := by
  unfold OS_TimeBaseCreate_Impl OS_TimeBaseCreate_spawn at hrc ⊢
  by_cases h1 : k.handler_mutex.ret = 0
  · by_cases h2 : k.tick_sem = 0
    · by_cases h3 : k.timer_mutex.ret = 0
      · by_cases h4 : k.timer_cond.ret = 0
        · by_cases h5 : k.timer_thread.ret = 0
          · by_cases h6 : k.handler_thread.ret = 0
            · simp [h1, h2, h3, h4, h5, h6]
              intro a b c; exact ⟨a, b, c⟩
            · simp [h1, h2, h3, h4, h5, h6, OS_TIMER_ERR_INTERNAL, OS_SUCCESS] at hrc
          · simp [h1, h2, h3, h4, h5, OS_TIMER_ERR_INTERNAL, OS_SUCCESS] at hrc
        · simp [h1, h2, h3, h4, OS_TIMER_ERR_INTERNAL, OS_SUCCESS] at hrc
      · simp [h1, h2, h3, OS_TIMER_ERR_INTERNAL, OS_SUCCESS] at hrc
    · simp [h1, h2, OS_TIMER_ERR_INTERNAL, OS_SUCCESS] at hrc
  · simp [h1, OS_TIMER_ERR_INTERNAL, OS_SUCCESS] at hrc

/-- Witness of C30 (amended): a create on a zeroed slot. -/
theorem C30_create_idle_amended_witness :
    (OS_TimeBaseCreate_Impl ⟨0, 0, 0, false, false, ⟨false, false, false, 0, 0, 0, 0⟩⟩
      ⟨none, 0⟩ ⟨⟨0, 1⟩, 0, ⟨0, 2⟩, ⟨0, 3⟩, ⟨0, 10⟩, ⟨0, 11⟩⟩).state.timer.active = false ∧
    (OS_TimeBaseCreate_Impl ⟨0, 0, 0, false, false, ⟨false, false, false, 0, 0, 0, 0⟩⟩
      ⟨none, 0⟩ ⟨⟨0, 1⟩, 0, ⟨0, 2⟩, ⟨0, 3⟩, ⟨0, 10⟩, ⟨0, 11⟩⟩).state.timer.start_time = 0 :=
  ⟨(C30_create_idle_amended ⟨0, 0, 0, false, false, ⟨false, false, false, 0, 0, 0, 0⟩⟩ 0
      ⟨⟨0, 1⟩, 0, ⟨0, 2⟩, ⟨0, 3⟩, ⟨0, 10⟩, ⟨0, 11⟩⟩ (by decide)).2.1,
   ((C30_create_idle_amended ⟨0, 0, 0, false, false, ⟨false, false, false, 0, 0, 0, 0⟩⟩ 0
      ⟨⟨0, 1⟩, 0, ⟨0, 2⟩, ⟨0, 3⟩, ⟨0, 10⟩, ⟨0, 11⟩⟩ (by decide)).2.2.2.2
      (by decide) (by decide) (by decide)).1⟩

theorem ticksFollowTimeouts_wait (cv mtx : Nat) (timeout : Int) (cs : List KCall)
    (w : TimerWake) (ws : List TimerWake) (last : Option Int) :
    ticksFollowTimeouts (.condWait cv mtx timeout :: cs) (w :: ws) last
      = ticksFollowTimeouts cs ws (some w.status) := by
  simp [ticksFollowTimeouts]

theorem ticksFollowTimeouts_up (cs : List KCall) (ws : List TimerWake) (last : Option Int) :
    ticksFollowTimeouts (.semaphoreUp :: cs) ws last
      = (decide (last = some (-ETIME)) && ticksFollowTimeouts cs ws none) := by
  cases ws <;> simp [ticksFollowTimeouts]

theorem tickCount_wait (cv mtx : Nat) (timeout : Int) (cs : List KCall) :
    tickCount (.condWait cv mtx timeout :: cs) = tickCount cs := by
  simp [tickCount, List.filter_cons]

theorem tickCount_up (cs : List KCall) :
    tickCount (.semaphoreUp :: cs) = tickCount cs + 1 := by
  simp [tickCount, List.filter_cons]

theorem timeoutCount_cons (w : TimerWake) (ws : List TimerWake) :
    timeoutCount (w :: ws) = timeoutCount ws + (if w.status = -ETIME then 1 else 0) := by
  by_cases h : w.status = -ETIME <;> simp [timeoutCount, List.filter_cons, h]

theorem OS_TimeBase_TimerThread_exit_ticks (impl : OS_impl_timebase_internal_record_t)
    (ws : List TimerWake) (last : Option Int) :
    ticksFollowTimeouts (OS_TimeBase_TimerThread_exit impl).calls ws last = true ∧
    tickCount (OS_TimeBase_TimerThread_exit impl).calls = 0 := by
  cases ws <;> simp [OS_TimeBase_TimerThread_exit, ticksFollowTimeouts, tickCount]

theorem OS_TimeBase_TimerThread_interval_ticks (waits : List TimerWake) :
    ∀ (impl : OS_impl_timebase_internal_record_t) (last : Option Int),
      ticksFollowTimeouts (OS_TimeBase_TimerThread_interval impl waits).calls waits last
        = true ∧
      tickCount (OS_TimeBase_TimerThread_interval impl waits).calls ≤ timeoutCount waits := by
  induction waits with
  | nil =>
    intro impl last
    unfold OS_TimeBase_TimerThread_interval
    by_cases hg : impl.timer.active = true ∧ impl.timer.interval_time > 0
    · rw [if_pos hg]
      simp [ticksFollowTimeouts, tickCount]
    · rw [if_neg hg]
      have := OS_TimeBase_TimerThread_exit_ticks impl [] last
      exact ⟨this.1, by rw [this.2]; exact Nat.zero_le _⟩
  | cons w ws ih =>
    intro impl last
    unfold OS_TimeBase_TimerThread_interval
    by_cases hg : impl.timer.active = true ∧ impl.timer.interval_time > 0
    · rw [if_pos hg]
      by_cases ht : w.status = -ETIME
      · obtain ⟨h1, h2⟩ := ih (w.wake impl) none
        have hc : ({ OS_TimeBase_TimerThread_interval (w.wake impl) ws with
            calls := KCall.condWait impl.timer.cond impl.timer.mutex impl.timer.interval_time ::
              ((if w.status = -ETIME then [KCall.semaphoreUp] else []) ++
                (OS_TimeBase_TimerThread_interval (w.wake impl) ws).calls) } : ThreadRun).calls
            = KCall.condWait impl.timer.cond impl.timer.mutex impl.timer.interval_time ::
              KCall.semaphoreUp :: (OS_TimeBase_TimerThread_interval (w.wake impl) ws).calls := by
          simp [ht]
        simp only at hc ⊢
        rw [hc, ticksFollowTimeouts_wait, ticksFollowTimeouts_up, tickCount_wait, tickCount_up,
          timeoutCount_cons, if_pos ht, h1]
        exact ⟨by simp [ht], by omega⟩
      · obtain ⟨h1, h2⟩ := ih (w.wake impl) (some w.status)
        have hc : ({ OS_TimeBase_TimerThread_interval (w.wake impl) ws with
            calls := KCall.condWait impl.timer.cond impl.timer.mutex impl.timer.interval_time ::
              ((if w.status = -ETIME then [KCall.semaphoreUp] else []) ++
                (OS_TimeBase_TimerThread_interval (w.wake impl) ws).calls) } : ThreadRun).calls
            = KCall.condWait impl.timer.cond impl.timer.mutex impl.timer.interval_time ::
              (OS_TimeBase_TimerThread_interval (w.wake impl) ws).calls := by
          simp [ht]
        simp only at hc ⊢
        rw [hc, ticksFollowTimeouts_wait, tickCount_wait, timeoutCount_cons, if_neg ht]
        exact ⟨h1, by omega⟩
    · rw [if_neg hg]
      have := OS_TimeBase_TimerThread_exit_ticks impl (w :: ws) last
      exact ⟨this.1, by rw [this.2]; exact Nat.zero_le _⟩

theorem OS_TimeBase_TimerThread_start_ticks (impl : OS_impl_timebase_internal_record_t)
    (waits : List TimerWake) (last : Option Int) :
    ticksFollowTimeouts (OS_TimeBase_TimerThread_start impl waits).calls waits last = true ∧
    tickCount (OS_TimeBase_TimerThread_start impl waits).calls ≤ timeoutCount waits := by
  unfold OS_TimeBase_TimerThread_start
  by_cases hf : impl.timer.finish_rq = false
  · rw [if_pos hf]
    cases waits with
    | nil => simp [ticksFollowTimeouts, tickCount]
    | cons w ws =>
      by_cases ht : w.status = -ETIME ∧ (w.wake impl).timer.active = true
      · obtain ⟨h1, h2⟩ := OS_TimeBase_TimerThread_interval_ticks ws (w.wake impl) none
        simp only [if_pos ht]
        rw [ticksFollowTimeouts_wait, ticksFollowTimeouts_up, tickCount_wait, tickCount_up,
          timeoutCount_cons, if_pos ht.1, h1]
        exact ⟨by simp [ht.1], by omega⟩
      · obtain ⟨h1, h2⟩ := OS_TimeBase_TimerThread_exit_ticks (w.wake impl) ws
          (some w.status)
        simp only [if_neg ht]
        rw [ticksFollowTimeouts_wait, tickCount_wait, h2]
        exact ⟨h1, Nat.zero_le _⟩
  · rw [if_neg hf]
    have := OS_TimeBase_TimerThread_exit_ticks impl waits last
    exact ⟨this.1, by rw [this.2]; exact Nat.zero_le _⟩

theorem OS_TimeBase_TimerThread_idle_ticks (waits : List TimerWake) :
    ∀ (impl : OS_impl_timebase_internal_record_t) (last : Option Int),
      ticksFollowTimeouts (OS_TimeBase_TimerThread_idle impl waits).calls waits last
        = true ∧
      tickCount (OS_TimeBase_TimerThread_idle impl waits).calls ≤ timeoutCount waits := by
  induction waits with
  | nil =>
    intro impl last
    unfold OS_TimeBase_TimerThread_idle
    by_cases hg : impl.timer.active = false ∧ impl.timer.finish_rq = false
    · rw [if_pos hg]
      simp [ticksFollowTimeouts, tickCount]
    · rw [if_neg hg]
      exact OS_TimeBase_TimerThread_start_ticks impl [] last
  | cons w ws ih =>
    intro impl last
    unfold OS_TimeBase_TimerThread_idle
    by_cases hg : impl.timer.active = false ∧ impl.timer.finish_rq = false
    · rw [if_pos hg]
      obtain ⟨h1, h2⟩ := ih (w.wake impl) (some w.status)
      simp only
      rw [ticksFollowTimeouts_wait, tickCount_wait, timeoutCount_cons]
      exact ⟨h1, by omega⟩
    · rw [if_neg hg]
      exact OS_TimeBase_TimerThread_start_ticks impl (w :: ws) last

/-- C24: in every run of the timer thread, from any record and for any answers of
the kernel and writes of other threads, every `semaphoreUp` on the tick semaphore
comes right after a `condWait` that returned `-ETIME` (so a wait that returned
because the condition was signalled posts no tick), and the number of ticks
posted is at most the number of waits that returned `-ETIME`. -/
theorem C24_ticks_only_from_timeouts (impl : OS_impl_timebase_internal_record_t)
    (waits : List TimerWake) :
    ticksFollowTimeouts (OS_TimeBase_TimerThread impl waits).calls waits none = true ∧
    tickCount (OS_TimeBase_TimerThread impl waits).calls ≤ timeoutCount waits := by
  obtain ⟨h1, h2⟩ := OS_TimeBase_TimerThread_idle_ticks waits impl none
  unfold OS_TimeBase_TimerThread
  simp only
  constructor
  · cases waits <;> simpa [ticksFollowTimeouts] using h1
  · simpa [tickCount, List.filter_cons] using h2
/-- The checker rejects a tick posted after a wait that was signalled. -/
theorem ticksFollowTimeouts_rejects :
    ticksFollowTimeouts [.condWait 3 2 1000, .semaphoreUp] [⟨0, []⟩] none = false ∧
    ticksFollowTimeouts [.condWait 3 2 1000, .semaphoreUp] [⟨-ETIME, []⟩] none = true ∧
    ticksFollowTimeouts [.condWait 3 2 1000, .mutexUnlock 2, .semaphoreUp] [⟨-ETIME, []⟩] none
      = false := by
  decide

/-- C25: once the record the timer thread finds has `finish_rq = true` and
`active = false` (the writes of the first critical section of delete), the thread
makes no further `condWait`: (1) a thread that has not started yet, (2) a thread
woken in its idle loop, (3) a thread woken in the wait of the start delay and
(4) a thread woken in an interval wait each go on to set `finished = true`,
signal the timer condition, unlock and end; in (4) a wait that returned `-ETIME`
still posts its tick first. -/
theorem C25_finish_handshake (impl : OS_impl_timebase_internal_record_t) (w : TimerWake)
    (post : List TimerWake) :
    (impl.timer.finish_rq = true → impl.timer.active = false →
      OS_TimeBase_TimerThread impl post
        = { ended := true,
            state := { impl with timer := { impl.timer with finished := true } },
            calls := [.mutexLock impl.timer.mutex, .condSignal impl.timer.cond,
                      .mutexUnlock impl.timer.mutex, .endthread] }) ∧
    ((w.wake impl).timer.finish_rq = true → (w.wake impl).timer.active = false →
      (impl.timer.active = false → impl.timer.finish_rq = false →
        OS_TimeBase_TimerThread_idle impl (w :: post)
          = { ended := true,
              state := { (w.wake impl) with
                timer := { (w.wake impl).timer with finished := true } },
              calls := [.condWait impl.timer.cond impl.timer.mutex 0,
                        .condSignal (w.wake impl).timer.cond,
                        .mutexUnlock (w.wake impl).timer.mutex, .endthread] }) ∧
      (impl.timer.finish_rq = false →
        OS_TimeBase_TimerThread_start impl (w :: post)
          = { ended := true,
              state := { (w.wake impl) with
                timer := { (w.wake impl).timer with finished := true } },
              calls := [.condWait impl.timer.cond impl.timer.mutex impl.timer.start_time,
                        .condSignal (w.wake impl).timer.cond,
                        .mutexUnlock (w.wake impl).timer.mutex, .endthread] }) ∧
      (impl.timer.active = true → impl.timer.interval_time > 0 →
        OS_TimeBase_TimerThread_interval impl (w :: post)
          = { ended := true,
              state := { (w.wake impl) with
                timer := { (w.wake impl).timer with finished := true } },
              calls := .condWait impl.timer.cond impl.timer.mutex impl.timer.interval_time ::
                ((if w.status = -ETIME then [KCall.semaphoreUp] else []) ++
                  [.condSignal (w.wake impl).timer.cond,
                   .mutexUnlock (w.wake impl).timer.mutex, .endthread]) })) := by
  have hexit_int : ∀ (s : OS_impl_timebase_internal_record_t) (ws : List TimerWake),
      s.timer.active = false →
      OS_TimeBase_TimerThread_interval s ws = OS_TimeBase_TimerThread_exit s := by
    intro s ws ha
    cases ws <;> (unfold OS_TimeBase_TimerThread_interval; simp [ha])
  have hexit_start : ∀ (s : OS_impl_timebase_internal_record_t) (ws : List TimerWake),
      s.timer.finish_rq = true →
      OS_TimeBase_TimerThread_start s ws = OS_TimeBase_TimerThread_exit s := by
    intro s ws hf
    cases ws <;> (unfold OS_TimeBase_TimerThread_start; simp [hf])
  have hexit_idle : ∀ (s : OS_impl_timebase_internal_record_t) (ws : List TimerWake),
      s.timer.finish_rq = true →
      OS_TimeBase_TimerThread_idle s ws = OS_TimeBase_TimerThread_exit s := by
    intro s ws hf
    cases ws <;> (unfold OS_TimeBase_TimerThread_idle; simp [hf, hexit_start s _ hf])
  refine ⟨fun hf _ => ?_, fun hf ha => ⟨fun hia hif => ?_, fun hif => ?_, fun hia hii => ?_⟩⟩
  · unfold OS_TimeBase_TimerThread
    rw [hexit_idle impl post hf]
    rfl
  · unfold OS_TimeBase_TimerThread_idle
    rw [if_pos ⟨hia, hif⟩]
    simp only [hexit_idle (w.wake impl) post hf]
    rfl
  · unfold OS_TimeBase_TimerThread_start
    rw [if_pos hif]
    have hn : ¬ (w.status = -ETIME ∧ (w.wake impl).timer.active = true) := by
      intro hh; rw [ha] at hh; exact absurd hh.2 (by decide)
    simp only [if_neg hn]
    rfl
  · unfold OS_TimeBase_TimerThread_interval
    rw [if_pos ⟨hia, hii⟩]
    simp only [hexit_int (w.wake impl) post ha]
    rfl

/-- Witness of C25: a running timer (start 1000, interval 500) whose interval wait
is ended by the request of delete. -/
theorem C25_finish_handshake_witness :
    OS_TimeBase_TimerThread_interval
        ⟨11, 10, 1, false, true, ⟨true, false, false, 1000, 500, 2, 3⟩⟩
        (⟨0, [.deleteRq]⟩ :: [])
      = { ended := true,
          state := ⟨11, 10, 1, false, true, ⟨false, true, true, 1000, 500, 2, 3⟩⟩,
          calls := [.condWait 3 2 500, .condSignal 3, .mutexUnlock 2, .endthread] } :=
  ((C25_finish_handshake ⟨11, 10, 1, false, true, ⟨true, false, false, 1000, 500, 2, 3⟩⟩
    ⟨0, [.deleteRq]⟩ []).2 (by decide) (by decide)).2.2 (by decide) (by decide)

theorem OS_GenericBinSemTake_loop_state (timeoutUs : Int) (indefinite : Bool)
    (flush_count : Int) (waits : List Wake) :
    ∀ (sem : OS_impl_binsem_internal_record_t) (return_code : Int),
      (OS_GenericBinSemTake_loop timeoutUs indefinite flush_count sem return_code waits).state
        = wakeAll sem (waits.take
            ((OS_GenericBinSemTake_loop timeoutUs indefinite flush_count sem return_code
              waits).calls.filter KCall.isCondWait).length) := by
  induction waits with
  | nil =>
    intro sem return_code
    simp only [List.take_nil, wakeAll, List.foldl_nil]
    unfold OS_GenericBinSemTake_loop
    split_ifs <;> rfl
  | cons w ws ih =>
    intro sem return_code
    unfold OS_GenericBinSemTake_loop
    by_cases hg : sem.current_value = 0 ∧ sem.flush_request = flush_count ∧
        return_code = OS_SUCCESS
    · rw [if_pos hg]
      cases indefinite with
      | true =>
        simp only [if_true]
        rw [ih (w.wake sem) return_code]
        simp [KCall.isCondWait, List.filter_cons, wakeAll]
      | false =>
        by_cases h0 : timeoutUs = 0
        · simp [h0, wakeAll]
        · simp only [Bool.false_eq_true, if_false, h0]
          rw [ih (w.wake sem) _]
          simp [KCall.isCondWait, List.filter_cons, wakeAll]
    · rw [if_neg hg]
      simp [wakeAll]

/-- C28: whenever `OS_GenericBinSemTake_Impl` returns `OS_SEM_TIMEOUT` (zero
budget, or a kernel wait that timed out) it has written nothing: the record it
leaves is the record it found, changed only by the writes the other threads made
during the waits it went through (the record itself when it made no wait or no
other thread wrote). -/
theorem C28_timeout_writes_nothing (sem : OS_impl_binsem_internal_record_t)
    (timeoutUs : Int) (indefinite : Bool) (lockRet : Int) (waits : List Wake)
    (hrc : (OS_GenericBinSemTake_Impl sem timeoutUs indefinite lockRet waits).rc
      = some OS_SEM_TIMEOUT) :
    (OS_GenericBinSemTake_Impl sem timeoutUs indefinite lockRet waits).state
      = wakeAll sem (waits.take
          ((OS_GenericBinSemTake_Impl sem timeoutUs indefinite lockRet waits).calls.filter
            KCall.isCondWait).length) ∧
    ((∀ w ∈ waits, w.env = []) →
      (OS_GenericBinSemTake_Impl sem timeoutUs indefinite lockRet waits).state = sem) := by
  have hl := OS_GenericBinSemTake_loop_state timeoutUs indefinite sem.flush_request waits
    sem OS_SUCCESS
  have hquiet : ∀ (ws : List Wake) (s : OS_impl_binsem_internal_record_t),
      (∀ w ∈ ws, w.env = []) → wakeAll s ws = s := by
    intro ws
    induction ws with
    | nil => intro s _; rfl
    | cons w ws ih =>
      intro s h
      have hw : w.wake s = s := by simp [Wake.wake, h w (by simp)]
      simp only [wakeAll, List.foldl_cons, hw]
      exact ih s (fun x hx => h x (by simp [hx]))
  have hmain : (OS_GenericBinSemTake_Impl sem timeoutUs indefinite lockRet waits).state
      = wakeAll sem (waits.take
          ((OS_GenericBinSemTake_Impl sem timeoutUs indefinite lockRet waits).calls.filter
            KCall.isCondWait).length) := by
    unfold OS_GenericBinSemTake_Impl at hrc ⊢
    by_cases hlock : lockRet < 0
    · rw [if_pos hlock] at hrc
      simp [OS_SEM_FAILURE, OS_SEM_TIMEOUT] at hrc
    · rw [if_neg hlock] at hrc ⊢
      simp only at hrc ⊢
      split at hrc
      · simp at hrc
      · next return_code hx =>
        simp only [Option.some.injEq] at hrc
        subst hrc
        simp only [hx]
        rw [if_neg (by simp [OS_SEM_TIMEOUT, OS_SUCCESS])]
        simp only [List.filter_cons, KCall.isCondWait, List.filter_append, List.filter_nil,
          List.append_nil, Bool.false_eq_true, if_false]
        exact hl
  refine ⟨hmain, fun hq => ?_⟩
  rw [hmain]
  exact hquiet _ sem (fun w hw => hq w (List.mem_of_mem_take hw))

/-- Witness of C28: a timed take of 1 ms whose wait times out while another thread
flushes. -/
theorem C28_timeout_writes_nothing_witness :
    (OS_GenericBinSemTake_Impl ⟨1, 2, 0, 0⟩ 1000 false 0 [⟨-ETIME, [.flush]⟩]).state
      = wakeAll ⟨1, 2, 0, 0⟩ ([⟨-ETIME, [.flush]⟩].take
          ((OS_GenericBinSemTake_Impl ⟨1, 2, 0, 0⟩ 1000 false 0
            [⟨-ETIME, [.flush]⟩]).calls.filter KCall.isCondWait).length) ∧
    (OS_GenericBinSemTake_Impl ⟨1, 2, 0, 0⟩ 1000 false 0 [⟨-ETIME, [.flush]⟩]).state
      = ⟨1, 2, 1, 0⟩ :=
  ⟨(C28_timeout_writes_nothing ⟨1, 2, 0, 0⟩ 1000 false 0 [⟨-ETIME, [.flush]⟩]
      (by decide)).1, by decide⟩
theorem OS_QueuePut_Impl_idxInv (queue : OS_queue_internal_record_t)
    (impl : OS_impl_queue_internal_record_t) (data : List Nat) (size flags : Nat)
    (h : QueueIdxInv queue impl) :
    QueueIdxInv queue (OS_QueuePut_Impl queue impl data size flags).state := by
  obtain ⟨h0, hle, hml, hrest⟩ := h
  unfold OS_QueuePut_Impl
  by_cases hf : impl.current_size = (queue.max_depth : Int)
  · rw [if_pos hf]
    exact ⟨h0, hle, hml, hrest⟩
  · rw [if_neg hf]
    have hN : 1 ≤ queue.max_depth := by omega
    have hNpos : (0 : Int) < (queue.max_depth : Int) := by omega
    obtain ⟨hh0, hhN, ht0, htN, _, hmod⟩ := hrest hN
    refine ⟨by simp only; omega, by simp only; omega, by simp [hml], fun _ => ?_⟩
    refine ⟨hh0, hhN, ?_, ?_, ?_, ?_⟩
    · have := Int.emod_nonneg (impl.tail + 1) (ne_of_gt hNpos)
      simp only; omega
    · exact Int.emod_lt_of_pos _ hNpos
    · intro hc
      have := Int.emod_nonneg (impl.tail + 1) (ne_of_gt hNpos)
      simp only at hc; omega
    · simp only
      rw [Int.emod_add_emod]
      have e1 : (impl.head + (impl.current_size + 1)) % (queue.max_depth : Int)
          = ((impl.head + impl.current_size) % (queue.max_depth : Int) + 1)
              % (queue.max_depth : Int) := by
        rw [Int.emod_add_emod]; congr 1; ring
      rw [e1, hmod, Int.emod_add_emod]

theorem OS_QueueGet_deliver_idxInv (queue : OS_queue_internal_record_t)
    (impl : OS_impl_queue_internal_record_t) (h : QueueIdxInv queue impl)
    (hne : impl.current_size ≠ 0) :
    QueueIdxInv queue (OS_QueueGet_deliver queue impl).1 := by
  obtain ⟨h0, hle, hml, hrest⟩ := h
  have hN : 1 ≤ queue.max_depth := by omega
  have hNpos : (0 : Int) < (queue.max_depth : Int) := by omega
  obtain ⟨hh0, hhN, ht0, htN, htm, hmod⟩ := hrest hN
  unfold OS_QueueGet_deliver
  refine ⟨by simp only; omega, by simp only; omega, hml, fun _ => ?_⟩
  refine ⟨Int.emod_nonneg _ (ne_of_gt hNpos), Int.emod_lt_of_pos _ hNpos, ht0, htN, ?_, ?_⟩
  · intro hc
    exact absurd (htm hc) hne
  · simp only
    rw [Int.emod_add_emod, ← hmod]
    congr 1
    ring

theorem QueueWake.wake_preserves (queue : OS_queue_internal_record_t)
    (P : OS_impl_queue_internal_record_t → Prop)
    (hput : ∀ impl data size flags, P impl → P (OS_QueuePut_Impl queue impl data size flags).state)
    (hdel : ∀ impl, P impl → impl.current_size ≠ 0 → P (OS_QueueGet_deliver queue impl).1)
    (w : QueueWake) (impl : OS_impl_queue_internal_record_t) (h : P impl) :
    P (w.wake queue impl) := by
  unfold QueueWake.wake
  generalize w.env = env
  induction env generalizing impl with
  | nil => exact h
  | cons e es ih =>
    apply ih
    cases e with
    | put data size => exact hput impl data size 0 h
    | get =>
      simp only [QueueEnv.apply]
      split_ifs with hz
      · exact h
      · exact hdel impl h hz

theorem OS_QueueGet_loop_preserves (queue : OS_queue_internal_record_t)
    (P : OS_impl_queue_internal_record_t → Prop)
    (hput : ∀ impl data size flags, P impl → P (OS_QueuePut_Impl queue impl data size flags).state)
    (hdel : ∀ impl, P impl → impl.current_size ≠ 0 → P (OS_QueueGet_deliver queue impl).1)
    (timeoutUs : Int) (waits : List QueueWake) :
    ∀ impl : OS_impl_queue_internal_record_t, P impl →
      P (OS_QueueGet_loop queue timeoutUs impl waits).2.1 := by
  induction waits with
  | nil =>
    intro impl h
    unfold OS_QueueGet_loop
    split_ifs <;> exact h
  | cons w ws ih =>
    intro impl h
    have hw := QueueWake.wake_preserves queue P hput hdel w impl h
    unfold OS_QueueGet_loop
    by_cases hz : impl.current_size = 0
    · rw [if_pos hz]
      by_cases ht : w.status = -ETIME
      · simp only [if_pos ht]; exact hw
      · simp only [if_neg ht]; exact ih _ hw
    · rw [if_neg hz]; exact h

theorem runQueueOps_preserves (queue : OS_queue_internal_record_t)
    (P : OS_impl_queue_internal_record_t → Prop)
    (hput : ∀ impl data size flags, P impl → P (OS_QueuePut_Impl queue impl data size flags).state)
    (hdel : ∀ impl, P impl → impl.current_size ≠ 0 → P (OS_QueueGet_deliver queue impl).1)
    (ops : List QueueOp) :
    ∀ impl : OS_impl_queue_internal_record_t, P impl → P (runQueueOps queue impl ops) := by
  induction ops with
  | nil => intro impl h; exact h
  | cons op ops ih =>
    intro impl h
    apply ih
    cases op with
    | put data size flags => exact hput impl data size flags h
    | get size timeout waits =>
      simp only [QueueOp.run]
      have hl := OS_QueueGet_loop_preserves queue P hput hdel (OS_QueueGet_timeoutUs timeout)
        waits impl h
      have hr := OS_QueueGet_loop_ready queue (OS_QueueGet_timeoutUs timeout) waits impl
      obtain ⟨h1, h2⟩ := OS_QueueGet_Impl_state queue impl size timeout waits
      by_cases hrc : (OS_QueueGet_Impl queue impl size timeout waits).1.rc = some OS_SUCCESS
      · rw [(h1 hrc).2]
        exact hdel _ hl (hr (h1 hrc).1)
      · rw [h2 hrc]
        exact hl

/-- C29: in every state `s` reachable from a successful create by puts and gets
(any answers of the kernel, any puts and gets of other threads during the waits),
for every `max_depth` N: (1) when N ≥ 1, `head` is in [0, N) and
`(head + current_size) mod N = (tail + 1) mod N`; (2) a put that stores a message
indexes the slot `tail`, which is then in [0, N) and within the message array;
(3) a get that returns a message indexes the slot `head` of the record its wait
loop found, where `head` and `tail` are in [0, N) and `head` is within the
message array; (4) when N = 0 a put returns `OS_QUEUE_FULL` and a get never
returns a message, so neither reaches its modulo by `max_depth`. -/
theorem C29_queue_index_safety (queue : OS_queue_internal_record_t)
    (slot : OS_impl_queue_internal_record_t) (flags : Nat)
    (mMessages : Option (List OS_impl_queue_internal_message_t))
    (mData : Option (List Nat)) (kcond klock : KCreate) (ops : List QueueOp)
    (data : List Nat) (size flags1 : Nat) (timeout : Int) (waits : List QueueWake)
    (hc : (OS_QueueCreate_Impl queue slot flags mMessages mData kcond klock).rc
      = some OS_SUCCESS) :
    (1 ≤ queue.max_depth →
      0 ≤ (runQueueOps queue
        (OS_QueueCreate_Impl queue slot flags mMessages mData kcond klock).state ops).head ∧
      (runQueueOps queue
        (OS_QueueCreate_Impl queue slot flags mMessages mData kcond klock).state ops).head
        < (queue.max_depth : Int) ∧
      ((runQueueOps queue
          (OS_QueueCreate_Impl queue slot flags mMessages mData kcond klock).state ops).head +
        (runQueueOps queue
          (OS_QueueCreate_Impl queue slot flags mMessages mData kcond klock).state
          ops).current_size) % (queue.max_depth : Int)
        = ((runQueueOps queue
          (OS_QueueCreate_Impl queue slot flags mMessages mData kcond klock).state ops).tail
          + 1) % (queue.max_depth : Int)) ∧
    ((OS_QueuePut_Impl queue (runQueueOps queue
        (OS_QueueCreate_Impl queue slot flags mMessages mData kcond klock).state ops)
        data size flags1).rc = some OS_SUCCESS →
      1 ≤ queue.max_depth ∧
      0 ≤ (OS_QueuePut_Impl queue (runQueueOps queue
        (OS_QueueCreate_Impl queue slot flags mMessages mData kcond klock).state ops)
        data size flags1).state.tail ∧
      (OS_QueuePut_Impl queue (runQueueOps queue
        (OS_QueueCreate_Impl queue slot flags mMessages mData kcond klock).state ops)
        data size flags1).state.tail < (queue.max_depth : Int) ∧
      (OS_QueuePut_Impl queue (runQueueOps queue
        (OS_QueueCreate_Impl queue slot flags mMessages mData kcond klock).state ops)
        data size flags1).state.tail.toNat
        < (runQueueOps queue
          (OS_QueueCreate_Impl queue slot flags mMessages mData kcond klock).state
          ops).messages.length) ∧
    ((OS_QueueGet_Impl queue (runQueueOps queue
        (OS_QueueCreate_Impl queue slot flags mMessages mData kcond klock).state ops)
        size timeout waits).1.rc = some OS_SUCCESS →
      1 ≤ queue.max_depth ∧
      0 ≤ (OS_QueueGet_loop queue (OS_QueueGet_timeoutUs timeout) (runQueueOps queue
        (OS_QueueCreate_Impl queue slot flags mMessages mData kcond klock).state ops)
        waits).2.1.head ∧
      (OS_QueueGet_loop queue (OS_QueueGet_timeoutUs timeout) (runQueueOps queue
        (OS_QueueCreate_Impl queue slot flags mMessages mData kcond klock).state ops)
        waits).2.1.head < (queue.max_depth : Int) ∧
      (OS_QueueGet_loop queue (OS_QueueGet_timeoutUs timeout) (runQueueOps queue
        (OS_QueueCreate_Impl queue slot flags mMessages mData kcond klock).state ops)
        waits).2.1.head.toNat
        < (OS_QueueGet_loop queue (OS_QueueGet_timeoutUs timeout) (runQueueOps queue
          (OS_QueueCreate_Impl queue slot flags mMessages mData kcond klock).state ops)
          waits).2.1.messages.length ∧
      0 ≤ (OS_QueueGet_loop queue (OS_QueueGet_timeoutUs timeout) (runQueueOps queue
        (OS_QueueCreate_Impl queue slot flags mMessages mData kcond klock).state ops)
        waits).2.1.tail ∧
      (OS_QueueGet_loop queue (OS_QueueGet_timeoutUs timeout) (runQueueOps queue
        (OS_QueueCreate_Impl queue slot flags mMessages mData kcond klock).state ops)
        waits).2.1.tail < (queue.max_depth : Int)) ∧
    (queue.max_depth = 0 →
      (OS_QueuePut_Impl queue (runQueueOps queue
        (OS_QueueCreate_Impl queue slot flags mMessages mData kcond klock).state ops)
        data size flags1).rc = some OS_QUEUE_FULL ∧
      (OS_QueueGet_Impl queue (runQueueOps queue
        (OS_QueueCreate_Impl queue slot flags mMessages mData kcond klock).state ops)
        size timeout waits).1.rc ≠ some OS_SUCCESS) := by
  obtain ⟨hh, ht, hcs, hml, _⟩ :=
    OS_QueueCreate_Impl_fresh queue slot flags mMessages mData kcond klock hc
  have h0 : QueueIdxInv queue
      (OS_QueueCreate_Impl queue slot flags mMessages mData kcond klock).state := by
    refine ⟨by rw [hcs], by rw [hcs]; omega, hml, fun hN => ?_⟩
    rw [hh, ht, hcs]
    refine ⟨le_refl 0, by omega, le_refl _, by omega, fun _ => rfl, by simp⟩
  have hput := fun impl data size flags =>
    OS_QueuePut_Impl_idxInv queue impl data size flags
  have hdel := fun impl => OS_QueueGet_deliver_idxInv queue impl
  have hs := runQueueOps_preserves queue (QueueIdxInv queue) hput hdel ops _ h0
  generalize runQueueOps queue
    (OS_QueueCreate_Impl queue slot flags mMessages mData kcond klock).state ops = s at hs
  have hfound := OS_QueueGet_loop_preserves queue (QueueIdxInv queue) hput hdel
    (OS_QueueGet_timeoutUs timeout) waits s hs
  have hready := OS_QueueGet_loop_ready queue (OS_QueueGet_timeoutUs timeout) waits s
  have hget := (OS_QueueGet_Impl_state queue s size timeout waits).1
  refine ⟨fun hN => ?_, fun hrc => ?_, fun hrc => ?_, fun hN0 => ⟨?_, fun hrc => ?_⟩⟩
  · obtain ⟨a, b, _, _, _, e⟩ := hs.2.2.2 hN
    exact ⟨a, b, e⟩
  · have hnf : s.current_size ≠ (queue.max_depth : Int) := by
      intro hf
      unfold OS_QueuePut_Impl at hrc
      simp [hf, OS_QUEUE_FULL, OS_SUCCESS] at hrc
    obtain ⟨a, b, c, _⟩ := hs
    have hN : 1 ≤ queue.max_depth := by omega
    have hNpos : (0 : Int) < (queue.max_depth : Int) := by omega
    have hst : (OS_QueuePut_Impl queue s data size flags1).state.tail
        = (s.tail + 1) % (queue.max_depth : Int) := by
      unfold OS_QueuePut_Impl
      simp [hnf]
    have hge := Int.emod_nonneg (s.tail + 1) (ne_of_gt hNpos)
    have hlt := Int.emod_lt_of_pos (s.tail + 1) hNpos
    rw [hst, c]
    exact ⟨hN, hge, hlt, by omega⟩
  · obtain ⟨hr, _⟩ := hget hrc
    have hne := hready hr
    obtain ⟨a, b, c, d⟩ := hfound
    have hN : 1 ≤ queue.max_depth := by omega
    obtain ⟨e, f, g, h, i, _⟩ := d hN
    have ht0 : 0 ≤ (OS_QueueGet_loop queue (OS_QueueGet_timeoutUs timeout) s waits).2.1.tail := by
      by_contra hc
      exact hne (i (by omega))
    rw [c]
    exact ⟨hN, e, f, by omega, ht0, h⟩
  · obtain ⟨a, b, _, _⟩ := hs
    have hz : s.current_size = (queue.max_depth : Int) := by rw [hN0] at b ⊢; omega
    unfold OS_QueuePut_Impl
    simp [hz]
  · obtain ⟨hr, _⟩ := hget hrc
    have hne := hready hr
    obtain ⟨a, b, _, _⟩ := hfound
    rw [hN0] at b
    exact hne (by omega)

/-- Witness of C29: depth 2 after a put, a get, and two puts (the ring has
wrapped), and depth 0. -/
theorem C29_queue_index_safety_witness :
    (runQueueOps ⟨2, 1⟩
      (OS_QueueCreate_Impl ⟨2, 1⟩ ⟨[], [], 0, 0, 5, 5, 5⟩ 0 (some []) (some [])
        ⟨0, 5⟩ ⟨0, 6⟩).state
      [.put [7] 1 0, .get 1 0 [], .put [8] 1 0, .put [9] 1 0]).head
      < ((⟨2, 1⟩ : OS_queue_internal_record_t).max_depth : Int) ∧
    (OS_QueuePut_Impl ⟨0, 1⟩ (runQueueOps ⟨0, 1⟩
      (OS_QueueCreate_Impl ⟨0, 1⟩ ⟨[], [], 0, 0, 5, 5, 5⟩ 0 (some []) (some [])
        ⟨0, 5⟩ ⟨0, 6⟩).state []) [7] 1 0).rc = some OS_QUEUE_FULL :=
  ⟨((C29_queue_index_safety ⟨2, 1⟩ ⟨[], [], 0, 0, 5, 5, 5⟩ 0 (some []) (some []) ⟨0, 5⟩
      ⟨0, 6⟩ [.put [7] 1 0, .get 1 0 [], .put [8] 1 0, .put [9] 1 0] [7] 1 0 0 []
      (by decide)).1 (by decide)).2.1,
   ((C29_queue_index_safety ⟨0, 1⟩ ⟨[], [], 0, 0, 5, 5, 5⟩ 0 (some []) (some []) ⟨0, 5⟩
      ⟨0, 6⟩ [] [7] 1 0 0 [] (by decide)).2.2.2 (by decide)).1⟩

end Osal
